import Mathlib

/-! Turn-based combat engine: embedding of `src/4ver.go` (and `src/3ver.go`).

The Go program is embedded shallowly.

* Go `int` is modelled by `Int` (mathematical integers: the game's values stay far away
  from the 64-bit limits, so wrap-around is not modelled). Go's `/` on `int` truncates
  toward zero and is modelled by `Int.tdiv`.
* Go slices are modelled by `List` (contents only; `append(s[:i], s[i+1:]...)` is
  `s.take i ++ s.drop (i+1)`).
* Methods with a pointer receiver become functions returning the updated record.
  Where a method mutates a second object (the `target` of `UseAbility`), the updated
  target is returned too; caller and target are distinct objects, as at every call site.
* The `Character` interface has exactly two implementations, `*Player` and `*Enemy`,
  and is modelled by a sum type.
* Console output (`fmt.Print*`) is not modelled; strings that are *returned* are.
-/

namespace Game

/-! ## Data types -/

/-- Go `type BodyPart int`. -/
abbrev BodyPart := Int

def Head : BodyPart := 0
def Torso : BodyPart := 1
def Arms : BodyPart := 2
def Legs : BodyPart := 3

/-- Go `type ItemType int`. -/
abbrev ItemType := Int

def Weapon : ItemType := 0
def Armor : ItemType := 1
def Consumable : ItemType := 2
def Special : ItemType := 3

/-- Go `type AbilityType int`. -/
abbrev AbilityType := Int

def DamageAbility : AbilityType := 0
def HealAbility : AbilityType := 1
def BuffAbility : AbilityType := 2

/-- Go `type GameMessageType int`. -/
abbrev GameMessageType := Int

def PlayerAction : GameMessageType := 0
def PlayerReady : GameMessageType := 1
def GameStateMsg : GameMessageType := 2
def ChatMessage : GameMessageType := 3
def Disconnect : GameMessageType := 4

/-- Go `struct Ability` (field `Type` is spelled `Typ`, `Type` being reserved). The field
defaults are Go's zero values, used by composite literals that omit fields. -/
structure Ability where
  Name : String := ""
  Description : String := ""
  Typ : AbilityType := 0
  Damage : Int := 0
  Heal : Int := 0
  ManaCost : Int := 0
  BuffAttack : Int := 0
  BuffDefense : Int := 0
  deriving DecidableEq, Repr

/-- Go `struct Item` (field `Type` is spelled `Typ`); defaults are Go's zero values. -/
structure Item where
  Name : String := ""
  Typ : ItemType := 0
  Attack : Int := 0
  Defence : Int := 0
  PlusHP : Int := 0
  PlusMana : Int := 0
  Price : Int := 0
  deriving DecidableEq, Repr

/-- Go `struct PlayerData`: the snapshot projection of a player. -/
structure PlayerData where
  Name : String
  HP : Int
  MaxHP : Int
  Mana : Int
  MaxMana : Int
  BaseStrength : Int
  Gold : Int
  Inventory : List Item
  Equipment : List Item
  Abilities : List Ability
  deriving DecidableEq, Repr

/-- Go `struct GameMessage`; the nullable pointer `Player *PlayerData` is an `Option`.
The field defaults are Go's zero values, used by composite literals that omit fields. -/
structure GameMessage where
  Typ : GameMessageType
  PlayerID : Int := 0
  Action : String := ""
  HitPart : BodyPart := 0
  BlockPart : BodyPart := 0
  AbilityID : Int := 0
  ItemID : Int := 0
  Text : String := ""
  Player : Option PlayerData := none
  deriving DecidableEq, Repr

/-- The anonymous struct type of `Player.ActiveBuffs`. -/
structure Buffs where
  AttackBuff : Int
  DefenseBuff : Int
  deriving DecidableEq, Repr

/-- Go `struct Player`. -/
structure Player where
  Name : String
  HP : Int
  MaxHP : Int
  Mana : Int
  MaxMana : Int
  Strength : Int
  BaseStrength : Int
  Gold : Int
  Inventory : List Item
  Equipment : List Item
  Abilities : List Ability
  ActiveBuffs : Buffs
  deriving DecidableEq, Repr

/-- Go `struct Enemy`. -/
structure Enemy where
  Name : String
  HP : Int
  Mana : Int
  Strength : Int
  Loot : List Item
  GoldDrop : Int
  Ability : Ability
  DeathQuote : String
  deriving DecidableEq, Repr

/-- Go `struct Merchant`. -/
structure Merchant where
  Name : String
  Items : List Item
  Dialogue : String
  deriving DecidableEq, Repr

/-- The values of interface type `Character`: a `*Player` or an `*Enemy`. -/
inductive Character where
  | player (p : Player)
  | enemy (e : Enemy)
  deriving DecidableEq, Repr

/-! ## Player methods -/

def Player.GetName (p : Player) : String := p.Name

def Player.GetHP (p : Player) : Int := p.HP

def Player.GetMana (p : Player) : Int := p.Mana

/-- `GetStrength`: the loop over `p.Equipment` accumulating `totalStrength`. -/
def Player.GetStrength (p : Player) : Int :=
  p.Equipment.foldl
    (fun totalStrength item =>
      if item.Typ = Weapon then totalStrength + item.Attack else totalStrength)
    (p.BaseStrength + p.ActiveBuffs.AttackBuff)

def Player.SetHP (p : Player) (hp : Int) : Player :=
  let p1 := { p with HP := hp }
  if p1.HP > p1.MaxHP then { p1 with HP := p1.MaxHP } else p1

def Player.SetMana (p : Player) (mana : Int) : Player :=
  let p1 := { p with Mana := mana }
  if p1.Mana > p1.MaxMana then { p1 with Mana := p1.MaxMana } else p1

def Player.IsAlive (p : Player) : Bool := decide (p.HP > 0)

/-! ## Enemy methods -/

def Enemy.GetName (e : Enemy) : String := e.Name

def Enemy.GetHP (e : Enemy) : Int := e.HP

def Enemy.GetMana (e : Enemy) : Int := e.Mana

def Enemy.GetStrength (e : Enemy) : Int := e.Strength

def Enemy.SetHP (e : Enemy) (hp : Int) : Enemy := { e with HP := hp }

def Enemy.SetMana (e : Enemy) (mana : Int) : Enemy := { e with Mana := mana }

def Enemy.IsAlive (e : Enemy) : Bool := decide (e.HP > 0)

/-! ## Interface dispatch -/

def Character.GetName : Character → String
  | .player p => p.GetName
  | .enemy e => e.GetName

def Character.GetHP : Character → Int
  | .player p => p.GetHP
  | .enemy e => e.GetHP

def Character.GetMana : Character → Int
  | .player p => p.GetMana
  | .enemy e => e.GetMana

def Character.GetStrength : Character → Int
  | .player p => p.GetStrength
  | .enemy e => e.GetStrength

def Character.SetHP : Character → Int → Character
  | .player p, hp => .player (p.SetHP hp)
  | .enemy e, hp => .enemy (e.SetHP hp)

def Character.SetMana : Character → Int → Character
  | .player p, mana => .player (p.SetMana mana)
  | .enemy e, mana => .enemy (e.SetMana mana)

def Character.IsAlive : Character → Bool
  | .player p => p.IsAlive
  | .enemy e => e.IsAlive

/-! ## Abilities -/

/-- `Player.UseAbility`: returns the result string, the updated caster and the
updated target. -/
def Player.UseAbility (p : Player) (ability : Ability) (target : Character) :
    String × Player × Character :=
  if p.Mana < ability.ManaCost then
    ("Недостаточно маны!", p, target)
  else
    let p1 := { p with Mana := p.Mana - ability.ManaCost }
    if ability.Typ = DamageAbility then
      let damage := ability.Damage + Int.tdiv p1.GetStrength 2
      (p1.Name ++ " использует " ++ ability.Name ++ " и наносит " ++ toString damage ++ " урона!",
        p1, target.SetHP (target.GetHP - damage))
    else if ability.Typ = HealAbility then
      let heal := ability.Heal
      (p1.Name ++ " использует " ++ ability.Name ++ " и восстанавливает " ++ toString heal ++ " HP!",
        p1.SetHP (p1.HP + heal), target)
    else if ability.Typ = BuffAbility then
      let p2 := { p1 with ActiveBuffs :=
        { AttackBuff := p1.ActiveBuffs.AttackBuff + ability.BuffAttack,
          DefenseBuff := p1.ActiveBuffs.DefenseBuff + ability.BuffDefense } }
      (p2.Name ++ " использует " ++ ability.Name ++ "! Атака +" ++ toString ability.BuffAttack
          ++ ", Защита +" ++ toString ability.BuffDefense,
        p2, target)
    else
      ("", p1, target)

/-- `Enemy.UseAbility`: returns the result string, the updated caster and the
updated target. -/
def Enemy.UseAbility (e : Enemy) (ability : Game.Ability) (target : Character) :
    String × Enemy × Character :=
  if e.Mana < ability.ManaCost then
    ("У противника недостаточно маны!", e, target)
  else
    let e1 := { e with Mana := e.Mana - ability.ManaCost }
    if ability.Typ = DamageAbility then
      let damage := ability.Damage + Int.tdiv e1.Strength 2
      (e1.Name ++ " использует " ++ ability.Name ++ " и наносит " ++ toString damage ++ " урона!",
        e1, target.SetHP (target.GetHP - damage))
    else if ability.Typ = HealAbility then
      let heal := ability.Heal
      (e1.Name ++ " использует " ++ ability.Name ++ " и восстанавливает " ++ toString heal ++ " HP!",
        e1.SetHP (e1.HP + heal), target)
    else if ability.Typ = BuffAbility then
      (e1.Name ++ " использует " ++ ability.Name ++ "!", e1, target)
    else
      ("", e1, target)

def Character.UseAbility (c : Character) (ability : Ability) (target : Character) :
    String × Character × Character :=
  match c with
  | .player p =>
    let r := p.UseAbility ability target
    (r.1, .player r.2.1, r.2.2)
  | .enemy e =>
    let r := e.UseAbility ability target
    (r.1, .enemy r.2.1, r.2.2)

/-! ## Inventory and equipment -/

/-- `Player.TakeOff`. -/
def Player.TakeOff (p : Player) (i : Int) : Player :=
  if h : i < 0 ∨ i ≥ p.Equipment.length then
    p
  else
    let item := p.Equipment.get ⟨i.toNat, by omega⟩
    { p with
      Equipment := p.Equipment.take i.toNat ++ p.Equipment.drop (i.toNat + 1),
      Inventory := p.Inventory ++ [item] }

/-- `Player.Equip`. In the branch where an item of the same type is already equipped the
Go code only prints a message; the message is built with `getItemTypeName`, a table of
four names, so that branch is meant for item types `0..3`. -/
def Player.Equip (p : Player) (i : Int) : Player :=
  if h : i < 0 ∨ i ≥ p.Inventory.length then
    p
  else
    let item := p.Inventory.get ⟨i.toNat, by omega⟩
    if item.Typ = Consumable then
      let p1 := p.SetHP (p.HP + item.PlusHP)
      let p2 := p1.SetMana (p1.Mana + item.PlusMana)
      { p2 with Inventory := p2.Inventory.take i.toNat ++ p2.Inventory.drop (i.toNat + 1) }
    else if p.Equipment.any (fun equipped => decide (equipped.Typ = item.Typ)) then
      p
    else
      { p with
        Inventory := p.Inventory.take i.toNat ++ p.Inventory.drop (i.toNat + 1),
        Equipment := p.Equipment ++ [item] }

/-- `Merchant.BuyItem`: returns the updated player. -/
def Merchant.BuyItem (m : Merchant) (player : Player) (itemIndex : Int) : Player :=
  if h : itemIndex < 0 ∨ itemIndex ≥ m.Items.length then
    player
  else
    let item := m.Items.get ⟨itemIndex.toNat, by omega⟩
    if player.Gold < item.Price then
      player
    else
      { player with Gold := player.Gold - item.Price, Inventory := player.Inventory ++ [item] }

/-! ## Melee resolution -/

/-- The resolution step of `fight` (the block guarded by `!abilityUsed`), given the
zones chosen by both sides. Returns the updated `(player, enemy)`. -/
def fight_resolve (player enemy : Character)
    (playerHit playerBlock enemyHit enemyBlock : BodyPart) (abilityUsed : Bool) :
    Character × Character :=
  if !abilityUsed then
    let enemy1 :=
      if playerHit ≠ enemyBlock then
        let damage := player.GetStrength
        enemy.SetHP (enemy.GetHP - damage)
      else enemy
    let player1 :=
      if enemyHit ≠ playerBlock then
        let damage := enemy1.GetStrength
        player.SetHP (player.GetHP - damage)
      else player
    (player1, enemy1)
  else
    (player, enemy)

/-- The resolution step of `pvpFight` ("Обработка хода"). Returns the updated
`(players[0], players[1])`. -/
def pvpFight_resolve (players0 players1 : Player)
    (player0Hit player0Block player1Hit player1Block : BodyPart)
    (player0AbilityUsed player1AbilityUsed : Bool) : Player × Player :=
  let players1a :=
    if !player0AbilityUsed then
      if player0Hit ≠ player1Block then
        let damage := players0.GetStrength
        players1.SetHP (players1.GetHP - damage)
      else players1
    else players1
  let players0a :=
    if !player1AbilityUsed then
      if player1Hit ≠ player0Block then
        let damage := players1a.GetStrength
        players0.SetHP (players0.GetHP - damage)
      else players0
    else players0
  (players0a, players1a)

/-! ## Snapshots -/

def playerToPlayerData (p : Player) : PlayerData :=
  { Name := p.Name,
    HP := p.HP,
    MaxHP := p.MaxHP,
    Mana := p.Mana,
    MaxMana := p.MaxMana,
    BaseStrength := p.BaseStrength,
    Gold := p.Gold,
    Inventory := p.Inventory,
    Equipment := p.Equipment,
    Abilities := p.Abilities }

/-- `playerDataToPlayer`: `ActiveBuffs` is not set and takes Go's zero value. -/
def playerDataToPlayer (pd : PlayerData) : Player :=
  { Name := pd.Name,
    HP := pd.HP,
    MaxHP := pd.MaxHP,
    Mana := pd.Mana,
    MaxMana := pd.MaxMana,
    BaseStrength := pd.BaseStrength,
    Strength := pd.BaseStrength,
    Gold := pd.Gold,
    Inventory := pd.Inventory,
    Equipment := pd.Equipment,
    Abilities := pd.Abilities,
    ActiveBuffs := { AttackBuff := 0, DefenseBuff := 0 } }

/-! ## Catalog and starting characters -/

def START_HP : Int := 100
def START_MANA : Int := 50
def START_GOLD : Int := 100
def MANA_REGEN : Int := 10
def HEAL_BETWEEN_BOSS : Int := 30

def createGameItems : List Item :=
  [ { Name := "Змеиный клык", Typ := Weapon, Attack := 18, Price := 125 },
    { Name := "Ненасытный ятаган", Typ := Weapon, Attack := 23, Price := 177 },
    { Name := "Расколотое небо", Typ := Weapon, Attack := 80, Price := 300 },
    { Name := "Костолом", Typ := Weapon, Attack := 40, Price := 200 },
    { Name := "Танец смерти", Typ := Weapon, Attack := 55, Price := 250 },
    { Name := "Шипованный доспех", Typ := Armor, Defence := 10, Price := 125 },
    { Name := "Сияние пустоты", Typ := Armor, Defence := 15, Price := 150 },
    { Name := "Броня метревеца", Typ := Armor, Defence := 20, Price := 177 },
    { Name := "Облачение духов", Typ := Armor, Defence := 30, Price := 200 },
    { Name := "Кровавая кольчуга господина", Typ := Armor, Defence := 50, Price := 300 },
    { Name := "Малое зелье здоровья", Typ := Consumable, PlusHP := 20, Price := 20 },
    { Name := "Большое зелье здоровья", Typ := Consumable, PlusHP := 50, Price := 45 },
    { Name := "Эликсир жизни", Typ := Consumable, PlusHP := 100, Price := 80 },
    { Name := "Малое зелье маны", Typ := Consumable, PlusMana := 15, Price := 15 },
    { Name := "Большое зелье маны", Typ := Consumable, PlusMana := 30, Price := 30 } ]

def createAbilities : List Ability :=
  [ { Name := "Последний вздох", Description := "Подбрасывает врага и наносит 3 быстрых удара",
      Typ := DamageAbility, Damage := 100, ManaCost := 80 },
    { Name := "Стальная буря", Description := "Делает выпал вперёд и наносит урон",
      Typ := DamageAbility, Damage := 10, ManaCost := 5 },
    { Name := "Вестник заката", Description := "Бросает теневой клинок, который наносит урон",
      Typ := DamageAbility, Damage := 25, ManaCost := 15 },
    { Name := "Клеймо смерти", Description := "Помечает врага меткой, которая наносит урон",
      Typ := DamageAbility, Damage := 40, ManaCost := 20 },
    { Name := "Знак бури", Description := "Увеличивает атаку",
      Typ := BuffAbility, BuffAttack := 10, ManaCost := 10 },
    { Name := "Храбрость", Description := "Увеличивает защиту",
      Typ := BuffAbility, BuffDefense := 10, ManaCost := 10 },
    { Name := "Золотая эгида", Description := "Увеличивает атаку и защиту",
      Typ := BuffAbility, BuffAttack := 15, BuffDefense := 15, ManaCost := 20 },
    { Name := "Исцеление", Description := "Восстанавливает здоровье",
      Typ := HealAbility, Heal := 25, ManaCost := 15 },
    { Name := "Божественное исцеление", Description := "Сильное восстановление здоровья",
      Typ := HealAbility, Heal := 40, ManaCost := 30 } ]

def getStartingInventory : List Item :=
  [ { Name := "Меч паладина", Typ := Weapon, Attack := 5 },
    { Name := "Доспех паладина", Typ := Armor, Defence := 5 },
    { Name := "Малое зелье здоровья", Typ := Consumable, PlusHP := 20 },
    { Name := "Малое зелье маны", Typ := Consumable, PlusMana := 15 } ]

/-- `createPlayer`, given the name read from the console. -/
def createPlayer (name : String) : Player :=
  { Name := name,
    HP := START_HP,
    MaxHP := START_HP,
    Mana := START_MANA,
    MaxMana := START_MANA,
    BaseStrength := 10,
    Strength := 10,
    Gold := START_GOLD,
    Inventory := getStartingInventory,
    Equipment := [],
    Abilities := [],
    ActiveBuffs := { AttackBuff := 0, DefenseBuff := 0 } }

/-- The local player built by `runServer` and `runClient`: the starting character with
the abilities number 1, 4 and 7 of the catalog. -/
def networkPlayer (name : String) : Player :=
  { createPlayer name with
    Abilities := [createAbilities.get ⟨1, by decide⟩, createAbilities.get ⟨4, by decide⟩,
      createAbilities.get ⟨7, by decide⟩] }

/-! ## Console input

Standard input is the list of lines still to be read, each one as it is after
`strings.TrimSpace`. `reader.ReadString` at the end of input returns the empty string
(its error is discarded by the program). -/

def readLine (stdin : List String) : String × List String :=
  match stdin with
  | [] => ("", [])
  | line :: rest => (line, rest)

/-- Value of a non-empty string of ASCII decimal digits. -/
def digitsValue (ds : List Char) : Option Nat :=
  if ds ≠ [] ∧ ds.all Char.isDigit then
    some (ds.foldl (fun acc c => 10 * acc + (c.toNat - 48)) 0)
  else none

/-- Go's `strconv.Atoi` on a 64-bit platform: an optional sign followed by one or more
decimal digits; `none` stands for a non-nil `err` (syntax or range). -/
def Atoi (s : String) : Option Int :=
  match s.toList with
  | '-' :: ds => (digitsValue ds).bind fun n => if n ≤ 2 ^ 63 then some (-(n : Int)) else none
  | '+' :: ds => (digitsValue ds).bind fun n => if n < 2 ^ 63 then some (n : Int) else none
  | ds => (digitsValue ds).bind fun n => if n < 2 ^ 63 then some (n : Int) else none

/-- `Player.Hit`: reads lines until one is a number in `0..3`. `none`: the input ends
first, and the loop never returns. -/
def Player.Hit : List String → Option (BodyPart × List String)
  | [] => none
  | input :: rest =>
    match Atoi input with
    | some choice => if choice ≥ 0 ∧ choice ≤ 3 then some (choice, rest) else Player.Hit rest
    | none => Player.Hit rest

/-- `Player.Block`: reads lines until one is a number in `0..3`. -/
def Player.Block : List String → Option (BodyPart × List String)
  | [] => none
  | input :: rest =>
    match Atoi input with
    | some choice => if choice ≥ 0 ∧ choice ≤ 3 then some (choice, rest) else Player.Block rest
    | none => Player.Block rest

/-! ## Network fight

The connection is modelled by the list `incoming` of results of the `decoder.Decode`
calls made by the turn loop (`none`: the call returned an error; an exhausted list is a
closed connection) and by the list `sent` of the messages passed to `encoder.Encode`,
in order. The background listener is a separate task; one pass of its loop is
`networkFight_listener`. -/

def decode (incoming : List (Option GameMessage)) : Option GameMessage × List (Option GameMessage) :=
  match incoming with
  | [] => (none, [])
  | m :: rest => (m, rest)

/-- One pass of the listener goroutine of `networkFight` on a decoded message (`none`:
`Decode` failed). Returns the updated opponent mirror and whether the goroutine goes on. -/
def networkFight_listener (opponentPlayer : Player) (decoded : Option GameMessage) :
    Player × Bool :=
  match decoded with
  | none => (opponentPlayer, false)
  | some msg =>
    if msg.Typ = ChatMessage then (opponentPlayer, true)
    else if msg.Typ = GameStateMsg then
      match msg.Player with
      | some pd => ({ opponentPlayer with HP := pd.HP, Mana := pd.Mana }, true)
      | none => (opponentPlayer, true)
    else if msg.Typ = Disconnect then (opponentPlayer, false)
    else (opponentPlayer, true)

/-- The variables declared at the start of an acting turn of `networkFight`. -/
structure TurnVars where
  myHit : BodyPart := 0
  myBlock : BodyPart := 0
  abilityUsed : Bool := false
  myAbilityID : Int := -1
  myItemID : Int := -1
  deriving DecidableEq, Repr

/-- State of `networkFight`. -/
structure NetState where
  myPlayer : Player
  opponentPlayer : Player
  myTurn : Bool
  round : Int
  stdin : List String
  incoming : List (Option GameMessage)
  sent : List GameMessage
  deriving DecidableEq, Repr

/-- Outcome of one pass of an input loop. -/
inductive LoopStep (σ : Type) where
  | again (s : σ)
  | done (s : σ)
  | hang
  deriving Repr

/-- The opponent as mutated through the `Character` interface: `SetHP` keeps the dynamic
type, so the `enemy` case does not arise for a `*Player` target. -/
def Character.toPlayer (c : Character) (p : Player) : Player :=
  match c with
  | .player q => q
  | .enemy _ => p

/-- End of `case "2"` of the action menu: `if !abilityUsed { myBlock = myPlayer.Block() }`
followed by `break`. -/
def networkFight_abilityBlock (s : NetState) (v : TurnVars) : LoopStep (NetState × TurnVars) :=
  if !v.abilityUsed then
    match Player.Block s.stdin with
    | none => .hang
    | some (b, rest) => .done ({ s with stdin := rest }, { v with myBlock := b })
  else .done (s, v)

/-- One pass of the action-selection loop of an acting turn of `networkFight`. -/
def networkFight_selectStep (s : NetState) (v : TurnVars) : LoopStep (NetState × TurnVars) :=
  let (input, stdin1) := readLine s.stdin
  if input = "1" then
    match Player.Hit stdin1 with
    | none => .hang
    | some (myHit, stdin2) =>
      match Player.Block stdin2 with
      | none => .hang
      | some (myBlock, stdin3) =>
        let v1 := { v with myHit := myHit, myBlock := myBlock, abilityUsed := false }
        .done ({ s with stdin := stdin3, sent := s.sent ++
          [{ Typ := PlayerAction, Action := "hit", HitPart := v1.myHit, BlockPart := v1.myBlock,
             AbilityID := v1.myAbilityID, ItemID := v1.myItemID }] }, v1)
  else if input = "2" then
    if s.myPlayer.Abilities.length > 0 then
      let (abilityInput, stdin2) := readLine stdin1
      match Atoi abilityInput with
      | some idx =>
        if h : idx ≥ 0 ∧ idx < s.myPlayer.Abilities.length then
          let ability := s.myPlayer.Abilities.get ⟨idx.toNat, by omega⟩
          if s.myPlayer.Mana ≥ ability.ManaCost then
            let r := s.myPlayer.UseAbility ability (.player s.opponentPlayer)
            let v1 := { v with abilityUsed := true, myAbilityID := idx }
            networkFight_abilityBlock
              { s with myPlayer := r.2.1, opponentPlayer := r.2.2.toPlayer s.opponentPlayer,
                       stdin := stdin2, sent := s.sent ++
                [{ Typ := PlayerAction, Action := "ability", HitPart := v1.myHit,
                   BlockPart := v1.myBlock, AbilityID := v1.myAbilityID, ItemID := v1.myItemID }] }
              v1
          else .again ({ s with stdin := stdin2 }, v)
        else networkFight_abilityBlock { s with stdin := stdin2 } v
      | none => networkFight_abilityBlock { s with stdin := stdin2 } v
    else networkFight_abilityBlock { s with stdin := stdin1 } v
  else if input = "3" then .again ({ s with stdin := stdin1 }, v)
  else if input = "4" then .again ({ s with stdin := stdin1 }, v)
  else if input = "5" then
    let sv : NetState × TurnVars :=
      if s.myPlayer.Inventory.length > 0 then
        let (itemInput, stdin2) := readLine stdin1
        match Atoi itemInput with
        | some idx =>
          let v1 := { v with myItemID := idx }
          ({ s with myPlayer := s.myPlayer.Equip idx, stdin := stdin2, sent := s.sent ++
            [{ Typ := PlayerAction, Action := "item", HitPart := v1.myHit, BlockPart := v1.myBlock,
               AbilityID := v1.myAbilityID, ItemID := v1.myItemID }] }, v1)
        | none => ({ s with stdin := stdin2 }, v)
      else ({ s with stdin := stdin1 }, v)
    match Player.Block sv.1.stdin with
    | none => .hang
    | some (b, rest) =>
      .done ({ sv.1 with stdin := rest }, { sv.2 with myBlock := b, abilityUsed := false })
  else if input = "6" then
    let (msgText, stdin2) := readLine stdin1
    .again ({ s with stdin := stdin2, sent := s.sent ++ [{ Typ := ChatMessage, Text := msgText }] }, v)
  else .again ({ s with stdin := stdin1 }, v)

/-- The action-selection loop of an acting turn. Every pass reads at least one line, so
`fuel = stdin.length` passes are always enough (`selectLoop_fuel`); `none`: the input
ends before a choice ends the loop, and the loop never ends. -/
def networkFight_selectLoop : Nat → NetState → TurnVars → Option (NetState × TurnVars)
  | 0, _, _ => none
  | fuel + 1, s, v =>
    if s.stdin = [] then none
    else
      match networkFight_selectStep s v with
      | .again (s1, v1) => networkFight_selectLoop fuel s1 v1
      | .done (s1, v1) => some (s1, v1)
      | .hang => none

/-- The acting branch (`if myTurn`) of one iteration of the loop of `networkFight`. -/
def networkFight_acting (s : NetState) : Option NetState :=
  match networkFight_selectLoop s.stdin.length s {} with
  | none => none
  | some (s1, _) =>
    some { s1 with sent := s1.sent ++
      [{ Typ := GameStateMsg, Player := some (playerToPlayerData s1.myPlayer) }] }

/-- How one iteration of the loop of `networkFight` ends. -/
inductive IterResult where
  | next (s : NetState)
  | returned (s : NetState)
  | hang
  deriving Repr

/-- The passive branch (`else`) of one iteration of the loop of `networkFight`. -/
def networkFight_passive (s : NetState) : IterResult :=
  match decode s.incoming with
  | (none, rest) => .returned { s with incoming := rest }
  | (some _actionMsg, rest) =>
    match decode rest with
    | (some stateMsg, rest2) =>
      if stateMsg.Typ = GameStateMsg then
        match stateMsg.Player with
        | some pd =>
          .next { s with incoming := rest2,
                         opponentPlayer := { s.opponentPlayer with HP := pd.HP, Mana := pd.Mana } }
        | none => .next { s with incoming := rest2 }
      else .next { s with incoming := rest2 }
    | (none, rest2) => .next { s with incoming := rest2 }

/-- End of an iteration: `myTurn = !myTurn`, `round++` when it is no longer my turn, and
the pause for Enter while both players are alive. -/
def networkFight_endTurn (s : NetState) : NetState :=
  let myTurn := !s.myTurn
  let round := if !myTurn then s.round + 1 else s.round
  let s1 := { s with myTurn := myTurn, round := round }
  if s1.myPlayer.IsAlive && s1.opponentPlayer.IsAlive then
    { s1 with stdin := (readLine s1.stdin).2 }
  else s1

/-- The body of the loop `for myPlayer.IsAlive() && opponentPlayer.IsAlive()` of
`networkFight`. -/
def networkFight_iteration (s : NetState) : IterResult :=
  if s.myTurn then
    match networkFight_acting s with
    | none => .hang
    | some s1 => .next (networkFight_endTurn s1)
  else
    match networkFight_passive s with
    | .next s1 => .next (networkFight_endTurn s1)
    | .returned s1 => .returned s1
    | .hang => .hang

/-- State of `networkFight` on entry to its loop: `round := 1`, `myTurn := isServer`. -/
def networkFight_start (myPlayer opponentPlayer : Player) (isServer : Bool)
    (stdin : List String) (incoming : List (Option GameMessage)) : NetState :=
  { myPlayer := myPlayer, opponentPlayer := opponentPlayer, myTurn := isServer, round := 1,
    stdin := stdin, incoming := incoming, sent := [] }

/-- The state after exactly `n` iterations of the loop of `networkFight`: `none` when the
loop stops earlier (a combatant is dead, `Decode` fails on the action message, or the
console input ends inside an input loop). -/
def networkFight_iterations : Nat → NetState → Option NetState
  | 0, s => some s
  | n + 1, s =>
    if s.myPlayer.IsAlive && s.opponentPlayer.IsAlive then
      match networkFight_iteration s with
      | .next s1 => networkFight_iterations n s1
      | _ => none
    else none

/-- `networkFight`: the loop, at most `fuel` iterations, and what follows it. When the
loop ends because a combatant is dead, the final `Disconnect` message is sent; on the
early `return` of the passive branch nothing more is sent. `none`: the function does not
return within `fuel` iterations. -/
def networkFight : Nat → NetState → Option NetState
  | 0, _ => none
  | fuel + 1, s =>
    if s.myPlayer.IsAlive && s.opponentPlayer.IsAlive then
      match networkFight_iteration s with
      | .next s1 => networkFight fuel s1
      | .returned s1 => some s1
      | .hang => none
    else some { s with sent := s.sent ++ [{ Typ := Disconnect }] }

/-! ## Single-player fight and hot-seat PvP: the rounds

`rand` lists the successive results of `rand.Intn(4)`; an exhausted list goes on with 0. -/

def randIntn4 (rand : List Int) : Int × List Int :=
  match rand with
  | [] => (0, [])
  | r :: rest => (r, rest)

def Enemy.Hit (rand : List Int) : BodyPart × List Int := randIntn4 rand

def Enemy.Block (rand : List Int) : BodyPart × List Int := randIntn4 rand

/-- `Hit` through the `Character` interface: a `*Player` reads the console, an `*Enemy`
draws a random zone. -/
def Character.Hit (c : Character) (stdin : List String) (rand : List Int) :
    Option (BodyPart × List String × List Int) :=
  match c with
  | .player _ => (Player.Hit stdin).map fun r => (r.1, r.2, rand)
  | .enemy _ => some ((Enemy.Hit rand).1, stdin, (Enemy.Hit rand).2)

/-- `Block` through the `Character` interface. -/
def Character.Block (c : Character) (stdin : List String) (rand : List Int) :
    Option (BodyPart × List String × List Int) :=
  match c with
  | .player _ => (Player.Block stdin).map fun r => (r.1, r.2, rand)
  | .enemy _ => some ((Enemy.Block rand).1, stdin, (Enemy.Block rand).2)

/-- The variables declared at the start of a round of `fight`. -/
structure FightVars where
  playerHit : BodyPart := 0
  playerBlock : BodyPart := 0
  abilityUsed : Bool := false
  deriving DecidableEq, Repr

/-- State of `fight`. -/
structure FightState where
  player : Character
  enemy : Character
  round : Int
  stdin : List String
  rand : List Int
  deriving DecidableEq, Repr

/-- One pass of the action-selection loop of `fight`. -/
def fight_selectStep (s : FightState) (v : FightVars) : LoopStep (FightState × FightVars) :=
  let (input, stdin1) := readLine s.stdin
  if input = "1" then
    match s.player.Hit stdin1 s.rand with
    | none => .hang
    | some (playerHit, stdin2, rand2) =>
      match s.player.Block stdin2 rand2 with
      | none => .hang
      | some (playerBlock, stdin3, rand3) =>
        .done ({ s with stdin := stdin3, rand := rand3 },
          { v with playerHit := playerHit, playerBlock := playerBlock, abilityUsed := false })
  else if input = "2" then
    let s1 : FightState :=
      match s.player with
      | .player p =>
        if p.Abilities.length > 0 then
          let (abilityInput, stdin2) := readLine stdin1
          match Atoi abilityInput with
          | some idx =>
            if h : idx ≥ 0 ∧ idx < p.Abilities.length then
              let r := s.player.UseAbility (p.Abilities.get ⟨idx.toNat, by omega⟩) s.enemy
              { s with player := r.2.1, enemy := r.2.2, stdin := stdin2 }
            else { s with stdin := stdin2 }
          | none => { s with stdin := stdin2 }
        else { s with stdin := stdin1 }
      | .enemy _ => { s with stdin := stdin1 }
    match s1.player.Block s1.stdin s1.rand with
    | none => .hang
    | some (playerBlock, stdin3, rand3) =>
      .done ({ s1 with stdin := stdin3, rand := rand3 },
        { v with playerBlock := playerBlock, abilityUsed := true })
  else if input = "3" then .again ({ s with stdin := stdin1 }, v)
  else .again ({ s with stdin := stdin1 }, v)

/-- The action-selection loop of `fight`; `fuel = stdin.length` passes are enough, every
pass reading at least one line. `none`: the loop never ends. -/
def fight_selectLoop : Nat → FightState → FightVars → Option (FightState × FightVars)
  | 0, _, _ => none
  | fuel + 1, s, v =>
    if s.stdin = [] then none
    else
      match fight_selectStep s v with
      | .again (s1, v1) => fight_selectLoop fuel s1 v1
      | .done (s1, v1) => some (s1, v1)
      | .hang => none

/-- End of a round of `fight`: `round++` and the pause for Enter while both are alive. -/
def fight_endRound (s : FightState) : FightState :=
  let s1 := { s with round := s.round + 1 }
  if s1.player.IsAlive && s1.enemy.IsAlive then
    { s1 with stdin := (readLine s1.stdin).2 }
  else s1

/-- The body of the loop `for player.IsAlive() && enemy.IsAlive()` of `fight`. -/
def fight_round (s : FightState) : Option FightState :=
  match fight_selectLoop s.stdin.length s {} with
  | none => none
  | some (s1, v) =>
    if !v.abilityUsed then
      match s1.enemy.Hit s1.stdin s1.rand with
      | none => none
      | some (enemyHit, stdin2, rand2) =>
        match s1.enemy.Block stdin2 rand2 with
        | none => none
        | some (enemyBlock, stdin3, rand3) =>
          let r := fight_resolve s1.player s1.enemy v.playerHit v.playerBlock enemyHit enemyBlock
            v.abilityUsed
          some (fight_endRound { s1 with player := r.1, enemy := r.2, stdin := stdin3, rand := rand3 })
    else some (fight_endRound s1)

/-- The state of `fight` on entry to its loop. -/
def fight_start (player enemy : Character) (stdin : List String) (rand : List Int) : FightState :=
  { player := player, enemy := enemy, round := 1, stdin := stdin, rand := rand }

/-- `fight`: the loop, at most `fuel` rounds, and the returned boolean (`true`: the
player wins). `none`: no return within `fuel` rounds. -/
def fight : Nat → FightState → Option (Bool × FightState)
  | 0, _ => none
  | fuel + 1, s =>
    if s.player.IsAlive && s.enemy.IsAlive then
      match fight_round s with
      | none => none
      | some s1 => fight fuel s1
    else if s.player.IsAlive then some (true, s)
    else some (false, s)

/-- The variables declared for one player at the start of a round of `pvpFight`
(`player0Hit`, `player0Block`, `player0AbilityUsed`, and the same for player 1). -/
structure PvpVars where
  hit : BodyPart := 0
  block : BodyPart := 0
  abilityUsed : Bool := false
  deriving DecidableEq, Repr

/-- What the action selection of one player of `pvpFight` works on: the player choosing
(`me`: `players[0]` in the first copy of the loop, `players[1]` in the second), the
opponent, and the console. The two copies of the loop in the source differ in the
indices only. -/
structure PvpSelect where
  me : Player
  other : Player
  stdin : List String
  deriving DecidableEq, Repr

/-- End of `case "2"` in `pvpFight`: `if !abilityUsed { block = Block() }`, then `break`. -/
def pvpFight_abilityBlock (s : PvpSelect) (v : PvpVars) : LoopStep (PvpSelect × PvpVars) :=
  if !v.abilityUsed then
    match Player.Block s.stdin with
    | none => .hang
    | some (b, rest) => .done ({ s with stdin := rest }, { v with block := b })
  else .done (s, v)

/-- One pass of the action-selection loop of one player in `pvpFight`. -/
def pvpFight_selectStep (s : PvpSelect) (v : PvpVars) : LoopStep (PvpSelect × PvpVars) :=
  let (input, stdin1) := readLine s.stdin
  if input = "1" then
    match Player.Hit stdin1 with
    | none => .hang
    | some (hit, stdin2) =>
      match Player.Block stdin2 with
      | none => .hang
      | some (block, stdin3) =>
        .done ({ s with stdin := stdin3 }, { v with hit := hit, block := block, abilityUsed := false })
  else if input = "2" then
    if s.me.Abilities.length > 0 then
      let (abilityInput, stdin2) := readLine stdin1
      match Atoi abilityInput with
      | some idx =>
        if h : idx ≥ 0 ∧ idx < s.me.Abilities.length then
          let ability := s.me.Abilities.get ⟨idx.toNat, by omega⟩
          if s.me.Mana ≥ ability.ManaCost then
            let r := s.me.UseAbility ability (.player s.other)
            pvpFight_abilityBlock
              { s with me := r.2.1, other := r.2.2.toPlayer s.other, stdin := stdin2 }
              { v with abilityUsed := true }
          else .again ({ s with stdin := stdin2 }, v)
        else pvpFight_abilityBlock { s with stdin := stdin2 } v
      | none => pvpFight_abilityBlock { s with stdin := stdin2 } v
    else pvpFight_abilityBlock { s with stdin := stdin1 } v
  else if input = "3" then .again ({ s with stdin := stdin1 }, v)
  else if input = "4" then .again ({ s with stdin := stdin1 }, v)
  else if input = "5" then
    let s1 : PvpSelect :=
      if s.me.Inventory.length > 0 then
        let (itemInput, stdin2) := readLine stdin1
        match Atoi itemInput with
        | some idx => { s with me := s.me.Equip idx, stdin := stdin2 }
        | none => { s with stdin := stdin2 }
      else { s with stdin := stdin1 }
    match Player.Block s1.stdin with
    | none => .hang
    | some (b, rest) => .done ({ s1 with stdin := rest }, { v with block := b, abilityUsed := false })
  else if input = "6" then .again ({ s with stdin := (readLine stdin1).2 }, v)
  else .again ({ s with stdin := stdin1 }, v)

/-- The action-selection loop of one player in `pvpFight`; `fuel = stdin.length` passes
are enough. `none`: the loop never ends. -/
def pvpFight_selectLoop : Nat → PvpSelect → PvpVars → Option (PvpSelect × PvpVars)
  | 0, _, _ => none
  | fuel + 1, s, v =>
    if s.stdin = [] then none
    else
      match pvpFight_selectStep s v with
      | .again (s1, v1) => pvpFight_selectLoop fuel s1 v1
      | .done (s1, v1) => some (s1, v1)
      | .hang => none

/-- State of `pvpFight`. -/
structure PvpState where
  players0 : Player
  players1 : Player
  round : Int
  stdin : List String
  deriving DecidableEq, Repr

/-- End of a round of `pvpFight`: `round++` and the pause for Enter while both are alive. -/
def pvpFight_endRound (s : PvpState) : PvpState :=
  let s1 := { s with round := s.round + 1 }
  if s1.players0.IsAlive && s1.players1.IsAlive then
    { s1 with stdin := (readLine s1.stdin).2 }
  else s1

/-- The body of the loop of `pvpFight`: the choice of `players[0]`, Enter, the choice of
`players[1]`, the resolution step, the end of the round. -/
def pvpFight_round (s : PvpState) : Option PvpState :=
  match pvpFight_selectLoop s.stdin.length
      { me := s.players0, other := s.players1, stdin := s.stdin } {} with
  | none => none
  | some (a, v0) =>
    let stdin1 := (readLine a.stdin).2
    match pvpFight_selectLoop stdin1.length { me := a.other, other := a.me, stdin := stdin1 } {} with
    | none => none
    | some (b, v1) =>
      let r := pvpFight_resolve b.other b.me v0.hit v0.block v1.hit v1.block
        v0.abilityUsed v1.abilityUsed
      some (pvpFight_endRound
        { players0 := r.1, players1 := r.2, round := s.round, stdin := b.stdin })

/-- The state of `pvpFight` on entry to its loop (after the Enter that starts the battle). -/
def pvpFight_start (players0 players1 : Player) (stdin : List String) : PvpState :=
  { players0 := players0, players1 := players1, round := 1, stdin := (readLine stdin).2 }

/-- `pvpFight`: the loop, at most `fuel` rounds, and the index of the player announced as
the victor. `none`: the battle does not end within `fuel` rounds. -/
def pvpFight : Nat → PvpState → Option (Nat × PvpState)
  | 0, _ => none
  | fuel + 1, s =>
    if s.players0.IsAlive && s.players1.IsAlive then
      match pvpFight_round s with
      | none => none
      | some s1 => pvpFight fuel s1
    else if s.players0.IsAlive then some (0, s)
    else some (1, s)

/-! ## Session bootstrap: `manageInventory`, `runServer`, `runClient`

`net.Listen`, `Accept` and `Dial` are taken to succeed. As in `networkFight`, `incoming`
lists the values found in the destination variable after each `decoder.Decode` call. -/

/-- One pass of the menu loop of `manageInventory`; `done` is the `return` of choice 6. -/
def manageInventory_step (player : Player) (stdin : List String) :
    LoopStep (Player × List String) :=
  let (input, stdin1) := readLine stdin
  if input = "1" then .again (player, stdin1)
  else if input = "2" then .again (player, stdin1)
  else if input = "3" then
    if player.Inventory.length > 0 then
      let (choice, stdin2) := readLine stdin1
      match Atoi choice with
      | some i => .again (player.Equip i, stdin2)
      | none => .again (player, stdin2)
    else .again (player, stdin1)
  else if input = "4" then
    if player.Equipment.length > 0 then
      let (choice, stdin2) := readLine stdin1
      match Atoi choice with
      | some i => .again (player.TakeOff i, stdin2)
      | none => .again (player, stdin2)
    else .again (player, stdin1)
  else if input = "5" then .again (player, stdin1)
  else if input = "6" then .done (player, stdin1)
  else .again (player, stdin1)

/-- `manageInventory`; `fuel = stdin.length` passes are enough, every pass reading at
least one line. `none`: the input ends before choice 6 and the loop never ends. -/
def manageInventory : Nat → Player → List String → Option (Player × List String)
  | 0, _, _ => none
  | fuel + 1, player, stdin =>
    if stdin = [] then none
    else
      match manageInventory_step player stdin with
      | .again (player1, stdin1) => manageInventory fuel player1 stdin1
      | .done r => some r
      | .hang => none

/-- How `runServer` and `runClient` end. -/
inductive SessionResult where
  -- `networkFight` is called with this state; `sent` are the messages sent before
  | fight (sent : List GameMessage) (start : NetState)
  -- early `return` after an error message
  | returned (sent : List GameMessage)
  -- the console input ends inside `manageInventory`, which never returns
  | hang (sent : List GameMessage)
  -- the first message carries no player record: `playerDataToPlayer(nil)` panics
  | nilPlayer (sent : List GameMessage)
  deriving Repr

/-- The optional pre-fight inventory management of `runServer` and `runClient`: on the
answer "y" `manageInventory` runs and an updated snapshot is sent. The test
`strings.ToLower(input) == "y"` holds for the inputs "y" and "Y" only. -/
def preFightInventory (player : Player) (stdin : List String) (sent : List GameMessage) :
    Option (Player × List String × List GameMessage) :=
  let (input, stdin1) := readLine stdin
  if input = "y" ∨ input = "Y" then
    match manageInventory stdin1.length player stdin1 with
    | none => none
    | some (player1, stdin2) =>
      some (player1, stdin2,
        sent ++ [{ Typ := GameStateMsg, Player := some (playerToPlayerData player1) }])
  else some (player, stdin1, sent)

/-- `runServer` after the client has connected. -/
def runServer (stdin : List String) (incoming : List (Option GameMessage)) : SessionResult :=
  let (name, stdin1) := readLine stdin
  let player1 := networkPlayer name
  let sent1 : List GameMessage :=
    [{ Typ := GameStateMsg, Player := some (playerToPlayerData player1) }]
  match decode incoming with
  | (none, _) => .returned sent1
  | (some msg, incoming1) =>
    match msg.Player with
    | none => .nilPlayer sent1
    | some pd =>
      let player2 := playerDataToPlayer pd
      match preFightInventory player1 stdin1 sent1 with
      | none => .hang sent1
      | some (player1a, stdin2, sent2) =>
        let sent3 := sent2 ++ [{ Typ := PlayerReady }]
        match decode incoming1 with
        | (none, _) => .returned sent3
        | (some msg2, incoming2) =>
          if msg2.Typ ≠ PlayerReady then .returned sent3
          else
            .fight sent3
              (networkFight_start player1a player2 true (readLine stdin2).2 incoming2)

/-- `runClient` after the connection to the server is made (the first console line is
the server address). -/
def runClient (stdin : List String) (incoming : List (Option GameMessage)) : SessionResult :=
  let (_address, stdin1) := readLine stdin
  match decode incoming with
  | (none, _) => .returned []
  | (some msg, incoming1) =>
    match msg.Player with
    | none => .nilPlayer []
    | some pd =>
      let player1 := playerDataToPlayer pd
      let (name, stdin2) := readLine stdin1
      let player2 := networkPlayer name
      let sent1 : List GameMessage :=
        [{ Typ := GameStateMsg, Player := some (playerToPlayerData player2) }]
      match preFightInventory player2 stdin2 sent1 with
      | none => .hang sent1
      | some (player2a, stdin3, sent2) =>
        match decode incoming1 with
        | (none, _) => .returned sent2
        | (some msg2, incoming2) =>
          if msg2.Typ ≠ PlayerReady then .returned sent2
          else
            .fight (sent2 ++ [{ Typ := PlayerReady }])
              (networkFight_start player2a player1 false (readLine stdin3).2 incoming2)

/-- The messages sent by a session before the fight. -/
def SessionResult.sent : SessionResult → List GameMessage
  | .fight sent _ => sent
  | .returned sent => sent
  | .hang sent => sent
  | .nilPlayer sent => sent

/-- Whether the session reaches `networkFight`. -/
def SessionResult.reachesFight : SessionResult → Bool
  | .fight _ _ => true
  | _ => false

/-! ## The core functions of `src/3ver.go`

The struct and interface declarations of the two files are the same, so the types above
serve both. The definitions below are translated from `src/3ver.go`. -/

namespace V3

/-- `GetStrength` of `src/3ver.go`. -/
def Player_GetStrength (p : Player) : Int :=
  p.Equipment.foldl
    (fun totalStrength item =>
      if item.Typ = Weapon then totalStrength + item.Attack else totalStrength)
    (p.BaseStrength + p.ActiveBuffs.AttackBuff)

/-- `Player.SetHP` of `src/3ver.go`. -/
def Player_SetHP (p : Player) (hp : Int) : Player :=
  let p1 := { p with HP := hp }
  if p1.HP > p1.MaxHP then { p1 with HP := p1.MaxHP } else p1

/-- `Player.SetMana` of `src/3ver.go`. -/
def Player_SetMana (p : Player) (mana : Int) : Player :=
  let p1 := { p with Mana := mana }
  if p1.Mana > p1.MaxMana then { p1 with Mana := p1.MaxMana } else p1

/-- `Player.IsAlive` of `src/3ver.go`. -/
def Player_IsAlive (p : Player) : Bool := decide (p.HP > 0)

/-- `Enemy.SetHP` of `src/3ver.go`. -/
def Enemy_SetHP (e : Enemy) (hp : Int) : Enemy := { e with HP := hp }

/-- `Enemy.SetMana` of `src/3ver.go`. -/
def Enemy_SetMana (e : Enemy) (mana : Int) : Enemy := { e with Mana := mana }

/-- `Enemy.IsAlive` of `src/3ver.go`. -/
def Enemy_IsAlive (e : Enemy) : Bool := decide (e.HP > 0)

/-- `GetHP` through the `Character` interface, `src/3ver.go`. -/
def Character_GetHP : Character → Int
  | .player p => p.HP
  | .enemy e => e.HP

/-- `SetHP` through the `Character` interface, `src/3ver.go`. -/
def Character_SetHP : Character → Int → Character
  | .player p, hp => .player (Player_SetHP p hp)
  | .enemy e, hp => .enemy (Enemy_SetHP e hp)

/-- `Player.UseAbility` of `src/3ver.go`. -/
def Player_UseAbility (p : Player) (ability : Ability) (target : Character) :
    String × Player × Character :=
  if p.Mana < ability.ManaCost then
    ("Недостаточно маны!", p, target)
  else
    let p1 := { p with Mana := p.Mana - ability.ManaCost }
    if ability.Typ = DamageAbility then
      let damage := ability.Damage + Int.tdiv (Player_GetStrength p1) 2
      (p1.Name ++ " использует " ++ ability.Name ++ " и наносит " ++ toString damage ++ " урона!",
        p1, Character_SetHP target (Character_GetHP target - damage))
    else if ability.Typ = HealAbility then
      let heal := ability.Heal
      (p1.Name ++ " использует " ++ ability.Name ++ " и восстанавливает " ++ toString heal ++ " HP!",
        Player_SetHP p1 (p1.HP + heal), target)
    else if ability.Typ = BuffAbility then
      let p2 := { p1 with ActiveBuffs :=
        { AttackBuff := p1.ActiveBuffs.AttackBuff + ability.BuffAttack,
          DefenseBuff := p1.ActiveBuffs.DefenseBuff + ability.BuffDefense } }
      (p2.Name ++ " использует " ++ ability.Name ++ "! Атака +" ++ toString ability.BuffAttack
          ++ ", Защита +" ++ toString ability.BuffDefense,
        p2, target)
    else
      ("", p1, target)

/-- `Enemy.UseAbility` of `src/3ver.go`. -/
def Enemy_UseAbility (e : Enemy) (ability : Ability) (target : Character) :
    String × Enemy × Character :=
  if e.Mana < ability.ManaCost then
    ("У противника недостаточно маны!", e, target)
  else
    let e1 := { e with Mana := e.Mana - ability.ManaCost }
    if ability.Typ = DamageAbility then
      let damage := ability.Damage + Int.tdiv e1.Strength 2
      (e1.Name ++ " использует " ++ ability.Name ++ " и наносит " ++ toString damage ++ " урона!",
        e1, Character_SetHP target (Character_GetHP target - damage))
    else if ability.Typ = HealAbility then
      let heal := ability.Heal
      (e1.Name ++ " использует " ++ ability.Name ++ " и восстанавливает " ++ toString heal ++ " HP!",
        Enemy_SetHP e1 (e1.HP + heal), target)
    else if ability.Typ = BuffAbility then
      (e1.Name ++ " использует " ++ ability.Name ++ "!", e1, target)
    else
      ("", e1, target)

/-- `Player.TakeOff` of `src/3ver.go`. -/
def Player_TakeOff (p : Player) (i : Int) : Player :=
  if h : i < 0 ∨ i ≥ p.Equipment.length then
    p
  else
    let item := p.Equipment.get ⟨i.toNat, by omega⟩
    { p with
      Equipment := p.Equipment.take i.toNat ++ p.Equipment.drop (i.toNat + 1),
      Inventory := p.Inventory ++ [item] }

/-- `Player.Equip` of `src/3ver.go`. -/
def Player_Equip (p : Player) (i : Int) : Player :=
  if h : i < 0 ∨ i ≥ p.Inventory.length then
    p
  else
    let item := p.Inventory.get ⟨i.toNat, by omega⟩
    if item.Typ = Consumable then
      let p1 := Player_SetHP p (p.HP + item.PlusHP)
      let p2 := Player_SetMana p1 (p1.Mana + item.PlusMana)
      { p2 with Inventory := p2.Inventory.take i.toNat ++ p2.Inventory.drop (i.toNat + 1) }
    else if p.Equipment.any (fun equipped => decide (equipped.Typ = item.Typ)) then
      p
    else
      { p with
        Inventory := p.Inventory.take i.toNat ++ p.Inventory.drop (i.toNat + 1),
        Equipment := p.Equipment ++ [item] }

/-- `Merchant.BuyItem` of `src/3ver.go`. -/
def Merchant_BuyItem (m : Merchant) (player : Player) (itemIndex : Int) : Player :=
  if h : itemIndex < 0 ∨ itemIndex ≥ m.Items.length then
    player
  else
    let item := m.Items.get ⟨itemIndex.toNat, by omega⟩
    if player.Gold < item.Price then
      player
    else
      { player with Gold := player.Gold - item.Price, Inventory := player.Inventory ++ [item] }

/-- `playerToPlayerData` of `src/3ver.go`. -/
def playerToPlayerData (p : Player) : PlayerData :=
  { Name := p.Name,
    HP := p.HP,
    MaxHP := p.MaxHP,
    Mana := p.Mana,
    MaxMana := p.MaxMana,
    BaseStrength := p.BaseStrength,
    Gold := p.Gold,
    Inventory := p.Inventory,
    Equipment := p.Equipment,
    Abilities := p.Abilities }

/-- `playerDataToPlayer` of `src/3ver.go`. -/
def playerDataToPlayer (pd : PlayerData) : Player :=
  { Name := pd.Name,
    HP := pd.HP,
    MaxHP := pd.MaxHP,
    Mana := pd.Mana,
    MaxMana := pd.MaxMana,
    BaseStrength := pd.BaseStrength,
    Strength := pd.BaseStrength,
    Gold := pd.Gold,
    Inventory := pd.Inventory,
    Equipment := pd.Equipment,
    Abilities := pd.Abilities,
    ActiveBuffs := { AttackBuff := 0, DefenseBuff := 0 } }

end V3

/-! ## Auxiliary definitions used in the statements -/

/-- Predicate used to select the equipped weapons. -/
def isWeapon (item : Item) : Bool := decide (item.Typ = Weapon)

/-- Sum of the attack bonuses of the weapons in a list of items. -/
def weaponAttack (items : List Item) : Int :=
  ((items.filter isWeapon).map Item.Attack).sum

/-- Sample attacker: the starting character with the first catalog weapon (attack 18)
equipped. -/
def sampleAttacker : Player :=
  { createPlayer "A" with Equipment := [createGameItems.get ⟨0, by decide⟩] }

/-- The upper bounds of a player: `HP ≤ MaxHP` and `Mana ≤ MaxMana`. -/
def Player.Bounded (p : Player) : Prop := p.HP ≤ p.MaxHP ∧ p.Mana ≤ p.MaxMana

instance (p : Player) : Decidable p.Bounded := by
  unfold Player.Bounded
  exact inferInstance

/-- Sample snapshot whose HP and mana exceed the bounds of the starting character. -/
def sampleOversizedSnapshot : PlayerData :=
  { playerToPlayerData (createPlayer "B") with HP := 150, Mana := 70 }

/-- A property holds of the state a loop pass ends with, if it ends. -/
def LoopStep.All {σ : Type} (P : σ → Prop) : LoopStep σ → Prop
  | .again a => P a
  | .done a => P a
  | .hang => True

/-- Sample run, server side: a melee turn (hit Torso, defend Head), then a passive turn
that receives an action and a snapshot. -/
def sampleServerStart : NetState :=
  networkFight_start (networkPlayer "S") (networkPlayer "C") true
    ["1", "1", "0", "", ""]
    [some { Typ := PlayerAction, Action := "hit", HitPart := Arms, BlockPart := Legs,
            AbilityID := -1, ItemID := -1 },
     some { Typ := GameStateMsg, Player := some (playerToPlayerData (networkPlayer "C")) }]

/-- Sample run, client side: a passive turn, then a melee turn (hit Arms, defend Legs). -/
def sampleClientStart : NetState :=
  networkFight_start (networkPlayer "C") (networkPlayer "S") false
    ["", "1", "2", "3", ""]
    [some { Typ := PlayerAction, Action := "hit", HitPart := Torso, BlockPart := Head,
            AbilityID := -1, ItemID := -1 },
     some { Typ := GameStateMsg, Player := some (playerToPlayerData (networkPlayer "S")) }]

/-- Sample enemy: the first boss of the story (strength 8), wounded down to 10 HP. -/
def sampleBoss : Enemy :=
  { Name := "Сир Алдрих Немигающий", HP := 10, Mana := 20, Strength := 8, Loot := [],
    GoldDrop := 25, Ability := {}, DeathQuote := "Тьма, которую я выбрал... была милосерднее." }

/-- Sample player of the network and PvP modes with the given HP (strength 10). -/
def sampleFighter (name : String) (hp : Int) : Player :=
  { networkPlayer name with HP := hp }

/-- The resolution step of `pvpFight` with the two melee branches in the opposite order
(`players[1]`'s hit first, then `players[0]`'s); used for comparison only. -/
def pvpFight_resolve_reversed (players0 players1 : Player)
    (player0Hit player0Block player1Hit player1Block : BodyPart)
    (player0AbilityUsed player1AbilityUsed : Bool) : Player × Player :=
  let players0a :=
    if !player1AbilityUsed then
      if player1Hit ≠ player0Block then
        let damage := players1.GetStrength
        players0.SetHP (players0.GetHP - damage)
      else players0
    else players0
  let players1a :=
    if !player0AbilityUsed then
      if player0Hit ≠ player1Block then
        let damage := players0a.GetStrength
        players1.SetHP (players1.GetHP - damage)
      else players1
    else players1
  (players0a, players1a)

/-- Equipment holds at most one item of each item type. -/
def OnePerType (items : List Item) : Prop := (items.map Item.Typ).Nodup

instance (items : List Item) : Decidable (OnePerType items) := by
  unfold OnePerType
  exact inferInstance

/-- An inventory operation: `Equip(i)` or `TakeOff(i)`. -/
inductive EquipOp where
  | equip (i : Int)
  | takeOff (i : Int)
  deriving DecidableEq, Repr

/-- The player after one inventory operation. -/
def Player.applyOp (p : Player) : EquipOp → Player
  | .equip i => p.Equip i
  | .takeOff i => p.TakeOff i

/-- The player after a sequence of inventory operations. -/
def Player.applyOps (p : Player) (ops : List EquipOp) : Player :=
  ops.foldl Player.applyOp p

/-- The state an iteration ends with when the loop goes on. -/
def IterResult.next? : IterResult → Option NetState
  | .next s => some s
  | _ => none

/-- The types of the messages of a list that are not chat messages. -/
def nonChatTypes (msgs : List GameMessage) : List GameMessageType :=
  (msgs.filter (fun m => decide (m.Typ ≠ ChatMessage))).map (fun m => m.Typ)

/-- The pass ended the loop (`break`). -/
def LoopStep.isDone {σ : Type} : LoopStep σ → Bool
  | .done _ => true
  | _ => false

/-- The pass asks for the choice again (`continue`). -/
def LoopStep.isAgain {σ : Type} : LoopStep σ → Bool
  | .again _ => true
  | _ => false

/-- Sample player whose only ability is the catalog ability of cost 80, with 50 mana. -/
def sampleNovice (name : String) : Player :=
  { createPlayer name with Abilities := [createAbilities.get ⟨0, by decide⟩] }

/-- The state a pass leaves the loop with, when it ends the loop. -/
def LoopStep.done? {σ : Type} : LoopStep σ → Option σ
  | .done a => some a
  | _ => none

/-! ## The players the program holds -/

/-- The merchant of the story mode, as built in `main`. -/
def storyMerchant : Merchant :=
  { Name := "Старый торговец", Dialogue := "Ты чего тут забыл?", Items := createGameItems }

/-- What the program does to a local player object after building it: one constructor
for every place of `src/4ver.go` that mutates a `*Player` other than a snapshot mirror.
`learn`: `Abilities = append(Abilities, createAbilities()[i])` (`main`, `runServer`,
`runClient`); `buy`: `merchant.BuyItem(player, i)` (`visitMerchant`); `loot`:
`Inventory = append(Inventory, item)` with an item drawn by `generateLoot` from
`createGameItems()`; `gold`: `Gold += GoldDrop`; `setHP`, `setMana`: the calls of `SetHP`
and `SetMana` (melee hit, ability target, rest between bosses); `equip`, `takeOff`:
`manageInventory` and the item action of a fight; `cast`:
`UseAbility(p.Abilities[idx], target)`, the form of every call of `UseAbility`. -/
inductive PlayerEvent where
  | learn (i : Fin createAbilities.length)
  | buy (i : Int)
  | loot (i : Fin createGameItems.length)
  | gold (amount : Int)
  | setHP (hp : Int)
  | setMana (mana : Int)
  | equip (i : Int)
  | takeOff (i : Int)
  | cast (idx : Nat) (target : Character)

/-- The effect of one event on the player. -/
def Player.applyEvent (p : Player) : PlayerEvent → Player
  | .learn i => { p with Abilities := p.Abilities ++ [createAbilities.get i] }
  | .buy i => storyMerchant.BuyItem p i
  | .loot i => { p with Inventory := p.Inventory ++ [createGameItems.get i] }
  | .gold amount => { p with Gold := p.Gold + amount }
  | .setHP hp => p.SetHP hp
  | .setMana mana => p.SetMana mana
  | .equip i => p.Equip i
  | .takeOff i => p.TakeOff i
  | .cast idx target =>
    if h : idx < p.Abilities.length then (p.UseAbility (p.Abilities.get ⟨idx, h⟩) target).2.1
    else p

/-- A local player of the program: the character built by `createPlayer` (the same
literal is used by `runServer`, `runClient` and the story mode of `main`), after any
sequence of events. -/
def localPlayer (name : String) (events : List PlayerEvent) : Player :=
  events.foldl Player.applyEvent (createPlayer name)

/-- The player is a local player of the program. -/
def Player.Reachable (p : Player) : Prop :=
  ∃ (name : String) (events : List PlayerEvent), p = localPlayer name events

/-- Invariant of the local players: the upper bounds, base strength 10 as built, a
non-negative attack buff, items with a non-negative attack bonus, abilities of the
catalog. -/
def Player.Sound (p : Player) : Prop :=
  p.HP ≤ p.MaxHP ∧ p.Mana ≤ p.MaxMana ∧ p.BaseStrength = 10 ∧ 0 ≤ p.ActiveBuffs.AttackBuff
  ∧ (∀ item ∈ p.Inventory, 0 ≤ item.Attack) ∧ (∀ item ∈ p.Equipment, 0 ≤ item.Attack)
  ∧ (∀ a ∈ p.Abilities, a ∈ createAbilities)

/-- The menu choice that ends the action-selection loop of an acting turn of
`networkFight`: the line read by the pass that leaves the loop. Same loop as
`networkFight_selectLoop`. -/
def networkFight_selectChoice : Nat → NetState → TurnVars → Option String
  | 0, _, _ => none
  | fuel + 1, s, v =>
    if s.stdin = [] then none
    else
      match networkFight_selectStep s v with
      | .again (s1, v1) => networkFight_selectChoice fuel s1 v1
      | .done _ => some (readLine s.stdin).1
      | .hang => none

/-- The menu choice that concludes the acting turn that starts in state `s`. -/
def networkFight_actingChoice (s : NetState) : Option String :=
  networkFight_selectChoice s.stdin.length s {}
/-- Sample acting turn that passes through the menu, the chat, a refused ability (mana 0)
and an unknown choice before it ends with a melee action (hit Torso, defend Head). -/
def sampleBusyTurn : NetState :=
  networkFight_start ((networkPlayer "S").SetMana 0) (networkPlayer "C") true
    ["3", "4", "6", "привет", "2", "0", "x", "1", "1", "0", ""] []

/-! ## Auxiliary lemmas -/

theorem foldl_weapon (items : List Item) (acc : Int) :
    items.foldl (fun totalStrength item =>
      if item.Typ = Weapon then totalStrength + item.Attack else totalStrength) acc
      = acc + weaponAttack items := by
  induction items generalizing acc with
  | nil => simp [weaponAttack]
  | cons it rest ih =>
    simp only [List.foldl_cons, ih]
    by_cases hw : it.Typ = Weapon
    · simp [weaponAttack, isWeapon, hw, List.filter_cons]; ring
    · simp [weaponAttack, isWeapon, hw, List.filter_cons]

theorem GetStrength_eq (p : Player) :
    p.GetStrength = p.BaseStrength + p.ActiveBuffs.AttackBuff + weaponAttack p.Equipment := by
  unfold Player.GetStrength
  exact foldl_weapon _ _

theorem SetHP_eq (p : Player) (hp : Int) :
    p.SetHP hp = { p with HP := min hp p.MaxHP } := by
  unfold Player.SetHP
  by_cases h : hp > p.MaxHP
  · simp [h, min_eq_right (le_of_lt h)]
  · simp [h, min_eq_left (not_lt.mp h)]

theorem SetMana_eq (p : Player) (mana : Int) :
    p.SetMana mana = { p with Mana := min mana p.MaxMana } := by
  unfold Player.SetMana
  by_cases h : mana > p.MaxMana
  · simp [h, min_eq_right (le_of_lt h)]
  · simp [h, min_eq_left (not_lt.mp h)]

theorem GetStrength_SetHP (p : Player) (hp : Int) :
    (p.SetHP hp).GetStrength = p.GetStrength := by
  simp [SetHP_eq, Player.GetStrength]

theorem Character_GetStrength_SetHP (c : Character) (hp : Int) :
    (c.SetHP hp).GetStrength = c.GetStrength := by
  cases c with
  | player p => simp [Character.SetHP, Character.GetStrength, GetStrength_SetHP]
  | enemy e => simp [Character.SetHP, Character.GetStrength, Enemy.SetHP, Enemy.GetStrength]

/-! ## Melee resolution (C1) -/

/-- C1. Melee resolution step of `pvpFight` and of `fight`: whenever a side's melee
branch is resolved, the defender is unchanged if the hit zone equals the defended zone,
and otherwise the defender's HP is set through `SetHP` to `HP - attacker.GetStrength()`
(for a `Player` defender that is `min (HP - strength) MaxHP`, for an `Enemy` defender
`HP - strength`). Scenario: an attacker with base strength 10, no buff and one equipped
weapon of attack 18, hitting Torso against a defended Head, takes exactly 28 HP from a
defender whose HP is at most its MaxHP. -/
theorem melee_resolution (p0 p1 : Player) (player enemy : Character)
    (hit0 block0 hit1 block1 : BodyPart) (used : Bool) :
    -- pvpFight, players[0] hits players[1]
    (pvpFight_resolve p0 p1 hit0 block0 hit1 block1 false used).2
        = (if hit0 = block1 then p1 else p1.SetHP (p1.HP - p0.GetStrength))
    ∧ (hit0 = block1 →
        (pvpFight_resolve p0 p1 hit0 block0 hit1 block1 false used).2.HP = p1.HP)
    ∧ (hit0 ≠ block1 →
        (pvpFight_resolve p0 p1 hit0 block0 hit1 block1 false used).2.HP
          = min (p1.HP - p0.GetStrength) p1.MaxHP)
    -- pvpFight, players[1] hits players[0]
    ∧ (pvpFight_resolve p0 p1 hit0 block0 hit1 block1 used false).1
        = (if hit1 = block0 then p0 else p0.SetHP (p0.HP - p1.GetStrength))
    ∧ (hit1 = block0 →
        (pvpFight_resolve p0 p1 hit0 block0 hit1 block1 used false).1.HP = p0.HP)
    ∧ (hit1 ≠ block0 →
        (pvpFight_resolve p0 p1 hit0 block0 hit1 block1 used false).1.HP
          = min (p0.HP - p1.GetStrength) p0.MaxHP)
    -- fight, player hits enemy and enemy hits player
    ∧ (fight_resolve player enemy hit0 block0 hit1 block1 false).2
        = (if hit0 = block1 then enemy else enemy.SetHP (enemy.GetHP - player.GetStrength))
    ∧ (fight_resolve player enemy hit0 block0 hit1 block1 false).1
        = (if hit1 = block0 then player else player.SetHP (player.GetHP - enemy.GetStrength))
    ∧ (hit0 = block1 →
        (fight_resolve player enemy hit0 block0 hit1 block1 false).2.GetHP = enemy.GetHP)
    ∧ (hit1 = block0 →
        (fight_resolve player enemy hit0 block0 hit1 block1 false).1.GetHP = player.GetHP)
    -- scenario: 10 + 18 = 28 damage, Torso against a defended Head
    ∧ (∀ w : Item, p0.BaseStrength = 10 → p0.ActiveBuffs.AttackBuff = 0 →
        p0.Equipment.filter isWeapon = [w] → w.Attack = 18 → p1.HP ≤ p1.MaxHP →
        (pvpFight_resolve p0 p1 Torso block0 hit1 Head false used).2.HP = p1.HP - 28
        ∧ (fight_resolve (.player p0) (.player p1) Torso block0 hit1 Head false).2.GetHP
            = p1.HP - 28
        ∧ ∀ e : Enemy,
            (fight_resolve (.player p0) (.enemy e) Torso block0 hit1 Head false).2.GetHP
              = e.HP - 28) := by
  refine ⟨?_, ?_, ?_, ?_, ?_, ?_, ?_, ?_, ?_, ?_, ?_⟩
  · by_cases h : hit0 = block1 <;> simp [pvpFight_resolve, h, Player.GetHP]
  · intro h
    simp [pvpFight_resolve, h]
  · intro h
    simp [pvpFight_resolve, h, Player.GetHP, SetHP_eq]
  · by_cases h : hit1 = block0 <;> by_cases h' : hit0 = block1 <;>
      cases used <;> simp [pvpFight_resolve, h, h', Player.GetHP, GetStrength_SetHP]
  · intro h
    simp [pvpFight_resolve, h]
  · intro h
    by_cases h' : hit0 = block1 <;>
      cases used <;> simp [pvpFight_resolve, h, h', Player.GetHP, SetHP_eq, Player.GetStrength]
  · by_cases h : hit0 = block1 <;> simp [fight_resolve, h]
  · by_cases h : hit1 = block0 <;> by_cases h' : hit0 = block1 <;>
      simp [fight_resolve, h, h', Character_GetStrength_SetHP]
  · intro h
    simp [fight_resolve, h]
  · intro h
    simp [fight_resolve, h]
  · intro w hb hbuff hw hatk hle
    have hstr : p0.GetStrength = 28 := by
      rw [GetStrength_eq, hb, hbuff]
      simp [weaponAttack, hw, hatk]
    have hz : ¬ (Torso = Head) := by decide
    refine ⟨?_, ?_, ?_⟩
    · simp [pvpFight_resolve, hz, Player.GetHP, SetHP_eq, hstr]
      omega
    · simp [fight_resolve, hz, Character.GetHP, Character.SetHP, Character.GetStrength,
        Player.GetHP, SetHP_eq, hstr]
      omega
    · intro e
      simp [fight_resolve, hz, Character.GetHP, Character.SetHP, Character.GetStrength,
        Enemy.GetHP, Enemy.SetHP, hstr]

/-- Witness for `melee_resolution`: the starting character with the attack-18 weapon
hits Torso, the opponent defends Head and loses 28 HP. -/
theorem melee_resolution_witness :
    sampleAttacker.BaseStrength = 10 ∧ sampleAttacker.ActiveBuffs.AttackBuff = 0 ∧
    sampleAttacker.Equipment.filter isWeapon = [createGameItems.get ⟨0, by decide⟩] ∧
    (createPlayer "B").HP ≤ (createPlayer "B").MaxHP ∧
    (pvpFight_resolve sampleAttacker (createPlayer "B") Torso Arms Legs Head false false).2.HP
      = (createPlayer "B").HP - 28 :=
  ⟨rfl, rfl, by decide, by decide,
    ((melee_resolution sampleAttacker (createPlayer "B") (.player sampleAttacker)
      (.player (createPlayer "B")) Torso Arms Legs Head false).2.2.2.2.2.2.2.2.2.2
      (createGameItems.get ⟨0, by decide⟩) rfl rfl (by decide) rfl (by decide)).1⟩

/-! ## Effective strength (C2) -/

/-- C2. For every player, `GetStrength()` is `BaseStrength + ActiveBuffs.AttackBuff` plus
the attack bonus of the equipped weapons: nothing when no weapon is equipped, the
weapon's `Attack` when exactly one is equipped (in general the loop adds up every
equipped weapon). Equipped items that are not weapons and the items of the inventory
contribute nothing. -/
theorem GetStrength_formula (p : Player) :
    p.GetStrength = p.BaseStrength + p.ActiveBuffs.AttackBuff + weaponAttack p.Equipment
    ∧ ((∀ item ∈ p.Equipment, item.Typ ≠ Weapon) →
        p.GetStrength = p.BaseStrength + p.ActiveBuffs.AttackBuff + 0)
    ∧ (∀ w : Item, p.Equipment.filter isWeapon = [w] →
        p.GetStrength = p.BaseStrength + p.ActiveBuffs.AttackBuff + w.Attack)
    ∧ (∀ equipment : List Item, equipment.filter isWeapon = p.Equipment.filter isWeapon →
        ({ p with Equipment := equipment }).GetStrength = p.GetStrength)
    ∧ (∀ inventory : List Item, ({ p with Inventory := inventory }).GetStrength = p.GetStrength) := by
  refine ⟨GetStrength_eq p, ?_, ?_, ?_, ?_⟩
  · intro h
    have hf : p.Equipment.filter isWeapon = [] := by
      rw [List.filter_eq_nil_iff]
      intro item hmem
      simp [isWeapon, h item hmem]
    rw [GetStrength_eq]
    simp [weaponAttack, hf]
  · intro w hw
    rw [GetStrength_eq]
    simp [weaponAttack, hw]
  · intro equipment heq
    rw [GetStrength_eq, GetStrength_eq]
    simp [weaponAttack, heq]
  · intro inventory
    rfl

/-- Witness for `GetStrength_formula`: base 10, no buff, one weapon of attack 18. -/
theorem GetStrength_formula_witness :
    sampleAttacker.Equipment.filter isWeapon = [createGameItems.get ⟨0, by decide⟩] ∧
    sampleAttacker.GetStrength = 10 + 0 + 18 :=
  ⟨by decide,
    (GetStrength_formula sampleAttacker).2.2.1 (createGameItems.get ⟨0, by decide⟩) (by decide)⟩

/-! ## Abilities (C3, C5, C6) -/

/-- C3. With `Mana < ManaCost`, `Player.UseAbility` returns the insufficient-mana text
and changes nothing: the caster (Mana, HP, buffs) and the target (HP, Mana) are as
before. -/
theorem UseAbility_insufficient_mana (p : Player) (ability : Ability) (target : Character)
    (h : p.Mana < ability.ManaCost) :
    (p.UseAbility ability target).1 = "Недостаточно маны!"
    ∧ (p.UseAbility ability target).2.1 = p
    ∧ (p.UseAbility ability target).2.2 = target
    ∧ (p.UseAbility ability target).2.1.Mana = p.Mana
    ∧ (p.UseAbility ability target).2.1.HP = p.HP
    ∧ (p.UseAbility ability target).2.1.ActiveBuffs = p.ActiveBuffs
    ∧ (p.UseAbility ability target).2.2.GetHP = target.GetHP
    ∧ (p.UseAbility ability target).2.2.GetMana = target.GetMana := by
  simp [Player.UseAbility, h]

/-- Witness for `UseAbility_insufficient_mana`: mana cost 80 with mana 50. -/
theorem UseAbility_insufficient_mana_witness :
    (createPlayer "A").Mana = 50 ∧ (createAbilities.get ⟨0, by decide⟩).ManaCost = 80 ∧
    ((createPlayer "A").UseAbility (createAbilities.get ⟨0, by decide⟩)
        (.player (createPlayer "B"))).2.1.Mana = 50 ∧
    ((createPlayer "A").UseAbility (createAbilities.get ⟨0, by decide⟩)
        (.player (createPlayer "B"))).2.2.GetHP = (createPlayer "B").HP :=
  have h := UseAbility_insufficient_mana (createPlayer "A") (createAbilities.get ⟨0, by decide⟩)
    (.player (createPlayer "B")) (by decide)
  ⟨rfl, rfl, h.2.2.2.1, h.2.2.2.2.2.2.1⟩

/-- C5. With `Mana ≥ ManaCost` and a Heal-type ability, `Player.UseAbility` sets the
caster's HP to `min (HP + Heal) MaxHP`, lowers the caster's mana by exactly `ManaCost`
and leaves the target (its HP and mana) unchanged. -/
theorem UseAbility_heal (p : Player) (ability : Ability) (target : Character)
    (hm : p.Mana ≥ ability.ManaCost) (ht : ability.Typ = HealAbility) :
    (p.UseAbility ability target).2.1
        = ({ p with Mana := p.Mana - ability.ManaCost } : Player).SetHP (p.HP + ability.Heal)
    ∧ (p.UseAbility ability target).2.1.HP = min (p.HP + ability.Heal) p.MaxHP
    ∧ (p.UseAbility ability target).2.1.Mana = p.Mana - ability.ManaCost
    ∧ (p.UseAbility ability target).2.2 = target
    ∧ (p.UseAbility ability target).2.2.GetHP = target.GetHP
    ∧ (p.UseAbility ability target).2.2.GetMana = target.GetMana := by
  have hlt : ¬ p.Mana < ability.ManaCost := not_lt.mpr hm
  have h1 : ¬ HealAbility = DamageAbility := by decide
  simp [Player.UseAbility, hlt, ht, h1, SetHP_eq]

/-- Witness for `UseAbility_heal`: the catalog heal of 25 HP (cost 15) cast at 90 of 100
HP restores the caster to 100 HP and leaves 35 mana. -/
theorem UseAbility_heal_witness :
    (({ networkPlayer "A" with HP := 90 } : Player).UseAbility
        (createAbilities.get ⟨7, by decide⟩) (.player (createPlayer "B"))).2.1.HP = 100 ∧
    (({ networkPlayer "A" with HP := 90 } : Player).UseAbility
        (createAbilities.get ⟨7, by decide⟩) (.player (createPlayer "B"))).2.1.Mana = 35 :=
  have h := UseAbility_heal { networkPlayer "A" with HP := 90 }
    (createAbilities.get ⟨7, by decide⟩) (.player (createPlayer "B")) (by decide) rfl
  ⟨h.2.1.trans (by decide), h.2.2.1.trans (by decide)⟩

/-- C6. With `Mana ≥ ManaCost` and a Buff-type ability, `Player.UseAbility` adds
`BuffAttack` to `ActiveBuffs.AttackBuff` and `BuffDefense` to `ActiveBuffs.DefenseBuff`,
lowers the mana by exactly `ManaCost`, leaves the HP of caster and target unchanged, and
`GetStrength()` is afterwards exactly `BuffAttack` higher. -/
theorem UseAbility_buff (p : Player) (ability : Ability) (target : Character)
    (hm : p.Mana ≥ ability.ManaCost) (ht : ability.Typ = BuffAbility) :
    (p.UseAbility ability target).2.1.ActiveBuffs.AttackBuff
        = p.ActiveBuffs.AttackBuff + ability.BuffAttack
    ∧ (p.UseAbility ability target).2.1.ActiveBuffs.DefenseBuff
        = p.ActiveBuffs.DefenseBuff + ability.BuffDefense
    ∧ (p.UseAbility ability target).2.1.Mana = p.Mana - ability.ManaCost
    ∧ (p.UseAbility ability target).2.1.HP = p.HP
    ∧ (p.UseAbility ability target).2.2 = target
    ∧ (p.UseAbility ability target).2.2.GetHP = target.GetHP
    ∧ (p.UseAbility ability target).2.1.GetStrength = p.GetStrength + ability.BuffAttack := by
  have hlt : ¬ p.Mana < ability.ManaCost := not_lt.mpr hm
  have h1 : ¬ BuffAbility = DamageAbility := by decide
  have h2 : ¬ BuffAbility = HealAbility := by decide
  have hres : (p.UseAbility ability target).2.1
      = { p with Mana := p.Mana - ability.ManaCost,
                 ActiveBuffs := { AttackBuff := p.ActiveBuffs.AttackBuff + ability.BuffAttack,
                                  DefenseBuff := p.ActiveBuffs.DefenseBuff + ability.BuffDefense } } := by
    simp [Player.UseAbility, hlt, ht, h1, h2]
  refine ⟨by rw [hres], by rw [hres], by rw [hres], by rw [hres], ?_, ?_, ?_⟩
  · simp [Player.UseAbility, hlt, ht, h1, h2]
  · simp [Player.UseAbility, hlt, ht, h1, h2]
  · rw [hres, GetStrength_eq, GetStrength_eq]
    simp only []
    ring

/-- Witness for `UseAbility_buff`: the catalog buff of +10 attack (cost 10) raises the
strength of the starting character from 10 to 20. -/
theorem UseAbility_buff_witness :
    (networkPlayer "A").Mana ≥ (createAbilities.get ⟨4, by decide⟩).ManaCost ∧
    (createAbilities.get ⟨4, by decide⟩).Typ = BuffAbility ∧
    ((networkPlayer "A").UseAbility (createAbilities.get ⟨4, by decide⟩)
        (.player (createPlayer "B"))).2.1.GetStrength = 20 :=
  have h := UseAbility_buff (networkPlayer "A") (createAbilities.get ⟨4, by decide⟩)
    (.player (createPlayer "B")) (by decide) rfl
  ⟨by decide, rfl, h.2.2.2.2.2.2.trans (by decide)⟩

/-! ## Upper bounds (C8) -/

theorem SetHP_Bounded (p : Player) (hp : Int) (hb : p.Bounded) : (p.SetHP hp).Bounded := by
  rw [SetHP_eq]
  exact ⟨min_le_right _ _, hb.2⟩

theorem SetMana_Bounded (p : Player) (mana : Int) (hb : p.Bounded) :
    (p.SetMana mana).Bounded := by
  rw [SetMana_eq]
  exact ⟨hb.1, min_le_right _ _⟩

theorem Equip_Bounded (p : Player) (i : Int) (hb : p.Bounded) : (p.Equip i).Bounded := by
  unfold Player.Equip
  split
  · exact hb
  · simp only []
    split
    · have h2 := SetMana_Bounded _
        ((p.SetHP (p.HP + (p.Inventory.get ⟨i.toNat, by omega⟩).PlusHP)).Mana
          + (p.Inventory.get ⟨i.toNat, by omega⟩).PlusMana)
        (SetHP_Bounded p (p.HP + (p.Inventory.get ⟨i.toNat, by omega⟩).PlusHP) hb)
      exact h2
    · split
      · exact hb
      · exact hb

theorem TakeOff_Bounded (p : Player) (i : Int) (hb : p.Bounded) : (p.TakeOff i).Bounded := by
  unfold Player.TakeOff
  split
  · exact hb
  · exact hb

theorem Character_SetHP_player (p : Player) (hp : Int) :
    (Character.player p).SetHP hp = .player (p.SetHP hp) := rfl

/-- The target of `Player.UseAbility` is left alone or updated through `SetHP`. -/
theorem Player_UseAbility_target (c : Player) (ability : Ability) (target : Character) :
    (c.UseAbility ability target).2.2 = target
    ∨ ∃ hp, (c.UseAbility ability target).2.2 = target.SetHP hp := by
  unfold Player.UseAbility
  split
  · exact Or.inl rfl
  · simp only []
    split
    · exact Or.inr ⟨_, rfl⟩
    · split
      · exact Or.inl rfl
      · split
        · exact Or.inl rfl
        · exact Or.inl rfl

/-- The target of `Enemy.UseAbility` is left alone or updated through `SetHP`. -/
theorem Enemy_UseAbility_target (c : Enemy) (ability : Ability) (target : Character) :
    (c.UseAbility ability target).2.2 = target
    ∨ ∃ hp, (c.UseAbility ability target).2.2 = target.SetHP hp := by
  unfold Enemy.UseAbility
  split
  · exact Or.inl rfl
  · simp only []
    split
    · exact Or.inr ⟨_, rfl⟩
    · split
      · exact Or.inl rfl
      · split
        · exact Or.inl rfl
        · exact Or.inl rfl

/-- The caster after `Player.UseAbility`, as far as the bounds are concerned: nothing
changes, or the mana is lowered by the cost and the HP is unchanged or set by `SetHP`. -/
theorem Player_UseAbility_caster (p : Player) (ability : Ability) (target : Character) :
    (p.Mana < ability.ManaCost ∧ (p.UseAbility ability target).2.1 = p)
    ∨ (¬ p.Mana < ability.ManaCost
        ∧ (p.UseAbility ability target).2.1.Mana = p.Mana - ability.ManaCost
        ∧ (p.UseAbility ability target).2.1.MaxMana = p.MaxMana
        ∧ (p.UseAbility ability target).2.1.MaxHP = p.MaxHP
        ∧ (p.UseAbility ability target).2.1.HP ≤ max p.HP (min (p.HP + ability.Heal) p.MaxHP)
        ∧ ((p.UseAbility ability target).2.1.HP = p.HP
            ∨ (p.UseAbility ability target).2.1.HP ≤ p.MaxHP)) := by
  by_cases hlt : p.Mana < ability.ManaCost
  · exact Or.inl ⟨hlt, by simp [Player.UseAbility, hlt]⟩
  · refine Or.inr ⟨hlt, ?_⟩
    unfold Player.UseAbility
    rw [if_neg hlt]
    simp only []
    split
    · simp
    · split
      · simp [SetHP_eq]
      · split
        · simp
        · simp

/-- C8, as stated, fails: the snapshot's HP and mana are copied into the mirror without
clamping, in the listener and in the passive turn alike, so a snapshot with HP 150 and
mana 70 leaves a mirror with `MaxHP = 100` and `MaxMana = 50` above both bounds. -/
theorem snapshot_bounds_counterexample :
    (createPlayer "B").HP ≤ (createPlayer "B").MaxHP ∧
    (createPlayer "B").Mana ≤ (createPlayer "B").MaxMana ∧
    (networkFight_listener (createPlayer "B")
        (some { Typ := GameStateMsg, Player := some sampleOversizedSnapshot })).1.HP = 150 ∧
    (networkFight_listener (createPlayer "B")
        (some { Typ := GameStateMsg, Player := some sampleOversizedSnapshot })).1.MaxHP = 100 ∧
    (networkFight_listener (createPlayer "B")
        (some { Typ := GameStateMsg, Player := some sampleOversizedSnapshot })).1.Mana = 70 ∧
    (networkFight_listener (createPlayer "B")
        (some { Typ := GameStateMsg, Player := some sampleOversizedSnapshot })).1.MaxMana = 50 ∧
    networkFight_passive
        (networkFight_start (createPlayer "A") (createPlayer "B") false []
          [some { Typ := PlayerAction },
           some { Typ := GameStateMsg, Player := some sampleOversizedSnapshot }])
      = .next (networkFight_start (createPlayer "A")
          { createPlayer "B" with HP := 150, Mana := 70 } false [] []) := by
  refine ⟨by decide, by decide, by decide, by decide, by decide, by decide, ?_⟩
  rfl

/-- C8 (amended). Applying a received snapshot (a `GameStateMsg` carrying a player
record), in the passive turn and in the listener, sets the mirror's HP and mana to the
snapshot's HP and mana and changes nothing else of the mirror. So afterwards
`HP ≤ MaxHP` and `Mana ≤ MaxMana` hold for the mirror exactly when the snapshot's HP and
mana are within the mirror's `MaxHP` and `MaxMana`; this is the case when the snapshot
satisfies its own bounds and carries the mirror's `MaxHP` and `MaxMana`. -/
theorem snapshot_application (s : NetState) (opp : Player) (actionMsg stateMsg : GameMessage)
    (pd : PlayerData) (rest : List (Option GameMessage))
    (ht : stateMsg.Typ = GameStateMsg) (hp : stateMsg.Player = some pd)
    (hin : s.incoming = some actionMsg :: some stateMsg :: rest) :
    (networkFight_listener opp (some stateMsg)).1 = { opp with HP := pd.HP, Mana := pd.Mana }
    ∧ networkFight_passive s
        = .next { s with incoming := rest,
                         opponentPlayer := { s.opponentPlayer with HP := pd.HP, Mana := pd.Mana } }
    ∧ ((networkFight_listener opp (some stateMsg)).1.Bounded
        ↔ (pd.HP ≤ opp.MaxHP ∧ pd.Mana ≤ opp.MaxMana))
    ∧ (({ s.opponentPlayer with HP := pd.HP, Mana := pd.Mana } : Player).Bounded
        ↔ (pd.HP ≤ s.opponentPlayer.MaxHP ∧ pd.Mana ≤ s.opponentPlayer.MaxMana))
    ∧ (pd.HP ≤ pd.MaxHP → pd.Mana ≤ pd.MaxMana → pd.MaxHP = opp.MaxHP →
        pd.MaxMana = opp.MaxMana → (networkFight_listener opp (some stateMsg)).1.Bounded) := by
  have h1 : ¬ GameStateMsg = ChatMessage := by decide
  have hl : (networkFight_listener opp (some stateMsg)).1
      = { opp with HP := pd.HP, Mana := pd.Mana } := by
    simp [networkFight_listener, ht, hp, h1]
  refine ⟨hl, ?_, ?_, ?_, ?_⟩
  · simp [networkFight_passive, decode, hin, ht, hp]
  · rw [hl]
    exact Iff.rfl
  · exact Iff.rfl
  · intro a b c d
    rw [hl]
    exact ⟨c ▸ a, d ▸ b⟩

/-- Witness for `snapshot_application`: the mirror of the starting character receives a
snapshot with 60 HP and 30 mana. -/
theorem snapshot_application_witness :
    (networkFight_listener (createPlayer "B")
        (some { Typ := GameStateMsg,
                Player := some { playerToPlayerData (createPlayer "B") with HP := 60, Mana := 30 } })).1
      = { createPlayer "B" with HP := 60, Mana := 30 } :=
  (snapshot_application
    (networkFight_start (createPlayer "A") (createPlayer "B") false []
      [some { Typ := PlayerAction },
       some { Typ := GameStateMsg,
              Player := some { playerToPlayerData (createPlayer "B") with HP := 60, Mana := 30 } }])
    (createPlayer "B") { Typ := PlayerAction }
    { Typ := GameStateMsg,
      Player := some { playerToPlayerData (createPlayer "B") with HP := 60, Mana := 30 } }
    { playerToPlayerData (createPlayer "B") with HP := 60, Mana := 30 } [] rfl rfl rfl).1

/-! ## Snapshot round trip (C9) -/

/-- C9. `playerDataToPlayer (playerToPlayerData p)` has the same Name, HP, MaxHP, Mana,
MaxMana, BaseStrength, Gold, Inventory, Equipment and Abilities as `p`, and
`playerToPlayerData (playerDataToPlayer d) = d` for every record `d`. -/
theorem snapshot_round_trip (p : Player) (d : PlayerData) :
    (playerDataToPlayer (playerToPlayerData p)).Name = p.Name
    ∧ (playerDataToPlayer (playerToPlayerData p)).HP = p.HP
    ∧ (playerDataToPlayer (playerToPlayerData p)).MaxHP = p.MaxHP
    ∧ (playerDataToPlayer (playerToPlayerData p)).Mana = p.Mana
    ∧ (playerDataToPlayer (playerToPlayerData p)).MaxMana = p.MaxMana
    ∧ (playerDataToPlayer (playerToPlayerData p)).BaseStrength = p.BaseStrength
    ∧ (playerDataToPlayer (playerToPlayerData p)).Gold = p.Gold
    ∧ (playerDataToPlayer (playerToPlayerData p)).Inventory = p.Inventory
    ∧ (playerDataToPlayer (playerToPlayerData p)).Equipment = p.Equipment
    ∧ (playerDataToPlayer (playerToPlayerData p)).Abilities = p.Abilities
    ∧ playerToPlayerData (playerDataToPlayer d) = d :=
  ⟨rfl, rfl, rfl, rfl, rfl, rfl, rfl, rfl, rfl, rfl, rfl⟩

/-! ## The fuel of the action-selection loop is always sufficient -/

theorem readLine_length (stdin : List String) : (readLine stdin).2.length ≤ stdin.length := by
  cases stdin <;> simp [readLine]

theorem readLine_length_lt (stdin : List String) (h : stdin ≠ []) :
    (readLine stdin).2.length < stdin.length := by
  cases stdin with
  | nil => exact absurd rfl h
  | cons a rest => simp [readLine]

theorem abilityBlock_not_again (s : NetState) (v : TurnVars) (sv : NetState × TurnVars) :
    networkFight_abilityBlock s v ≠ .again sv := by
  unfold networkFight_abilityBlock
  split
  · split <;> simp
  · simp

/-- A pass of the action-selection loop that asks again has consumed at least one line. -/
theorem selectStep_again_shorter (s : NetState) (v : TurnVars) (s1 : NetState) (v1 : TurnVars)
    (hne : s.stdin ≠ []) (h : networkFight_selectStep s v = .again (s1, v1)) :
    s1.stdin.length < s.stdin.length := by
  have h1 := readLine_length_lt s.stdin hne
  have h2 := readLine_length (readLine s.stdin).2
  unfold networkFight_selectStep at h
  simp only [] at h
  repeat' split at h
  all_goals first
    | exact absurd h (abilityBlock_not_again _ _ _)
    | (simp only [LoopStep.again.injEq, Prod.mk.injEq] at h
       obtain ⟨hs, _⟩ := h
       subst hs
       first
         | exact h1
         | exact lt_of_le_of_lt h2 h1)
    | simp at h

/-- More fuel than the number of remaining input lines changes nothing. -/
theorem selectLoop_fuel (n m : Nat) (s : NetState) (v : TurnVars)
    (hn : s.stdin.length ≤ n) (hm : s.stdin.length ≤ m) :
    networkFight_selectLoop n s v = networkFight_selectLoop m s v := by
  induction n generalizing m s v with
  | zero =>
    have he : s.stdin = [] := List.length_eq_zero.mp (Nat.le_zero.mp hn)
    cases m <;> simp [networkFight_selectLoop, he]
  | succ n ih =>
    cases m with
    | zero =>
      have he : s.stdin = [] := List.length_eq_zero.mp (Nat.le_zero.mp hm)
      simp [networkFight_selectLoop, he]
    | succ m =>
      unfold networkFight_selectLoop
      by_cases he : s.stdin = []
      · simp [he]
      · simp only [he, if_false]
        cases hstep : networkFight_selectStep s v with
        | again sv =>
          obtain ⟨s1, v1⟩ := sv
          have hlt := selectStep_again_shorter s v s1 v1 he hstep
          exact ih m s1 v1 (by omega) (by omega)
        | done sv => rfl
        | hang => rfl

/-! ## Turn parity (C10) -/

theorem abilityBlock_frame (s : NetState) (v : TurnVars) :
    (networkFight_abilityBlock s v).All
      (fun sv => sv.1.myTurn = s.myTurn ∧ sv.1.round = s.round) := by
  unfold networkFight_abilityBlock
  split
  · split
    · trivial
    · exact ⟨rfl, rfl⟩
  · exact ⟨rfl, rfl⟩

theorem selectStep_frame (s : NetState) (v : TurnVars) :
    (networkFight_selectStep s v).All
      (fun sv => sv.1.myTurn = s.myTurn ∧ sv.1.round = s.round) := by
  unfold networkFight_selectStep
  simp only []
  repeat' split
  all_goals first
    | trivial
    | exact ⟨rfl, rfl⟩
    | exact abilityBlock_frame _ _

theorem selectLoop_frame (fuel : Nat) (s : NetState) (v : TurnVars) (s1 : NetState)
    (v1 : TurnVars) (h : networkFight_selectLoop fuel s v = some (s1, v1)) :
    s1.myTurn = s.myTurn ∧ s1.round = s.round := by
  induction fuel generalizing s v with
  | zero => simp [networkFight_selectLoop] at h
  | succ n ih =>
    unfold networkFight_selectLoop at h
    split at h
    · simp at h
    · have hf := selectStep_frame s v
      split at h
      · rename_i s2 v2 heq
        rw [heq] at hf
        have h2 := ih s2 v2 h
        exact ⟨h2.1.trans hf.1, h2.2.trans hf.2⟩
      · rename_i s2 v2 heq
        rw [heq] at hf
        simp only [Option.some.injEq, Prod.mk.injEq] at h
        rw [← h.1]
        exact hf
      · simp at h

theorem acting_frame (s s1 : NetState) (h : networkFight_acting s = some s1) :
    s1.myTurn = s.myTurn ∧ s1.round = s.round := by
  unfold networkFight_acting at h
  split at h
  · simp at h
  · rename_i s2 v2 heq
    simp only [Option.some.injEq] at h
    rw [← h]
    exact selectLoop_frame _ s {} s2 v2 heq

theorem passive_frame (s s1 : NetState) (h : networkFight_passive s = .next s1) :
    s1.myTurn = s.myTurn ∧ s1.round = s.round := by
  unfold networkFight_passive at h
  repeat' split at h
  all_goals first
    | (simp only [IterResult.next.injEq] at h; rw [← h]; exact ⟨rfl, rfl⟩)
    | simp at h

theorem endTurn_effect (s : NetState) :
    (networkFight_endTurn s).myTurn = !s.myTurn
    ∧ (networkFight_endTurn s).round = (if s.myTurn then s.round + 1 else s.round) := by
  unfold networkFight_endTurn
  cases hm : s.myTurn <;> simp only [] <;> split <;> simp

theorem iteration_effect (s s1 : NetState) (h : networkFight_iteration s = .next s1) :
    s1.myTurn = !s.myTurn
    ∧ s1.round = (if s.myTurn then s.round + 1 else s.round) := by
  unfold networkFight_iteration at h
  split at h
  · split at h
    · simp at h
    · rename_i s2 heq
      simp only [IterResult.next.injEq] at h
      have hf := acting_frame s s2 heq
      have he := endTurn_effect s2
      rw [← h, he.1, he.2, hf.1, hf.2]
      exact ⟨rfl, rfl⟩
  · split at h
    · rename_i s2 heq
      simp only [IterResult.next.injEq] at h
      have hf := passive_frame s s2 heq
      have he := endTurn_effect s2
      rw [← h, he.1, he.2, hf.1, hf.2]
      exact ⟨rfl, rfl⟩
    · simp at h
    · simp at h

theorem iterations_effect (n : Nat) (s s1 : NetState)
    (h : networkFight_iterations n s = some s1) :
    s1.myTurn = xor s.myTurn (decide (n % 2 = 1))
    ∧ s1.round = s.round + (((n + (if s.myTurn then 1 else 0) : Nat) / 2 : Nat) : Int) := by
  induction n generalizing s with
  | zero =>
    simp only [networkFight_iterations, Option.some.injEq] at h
    subst h
    cases s.myTurn <;> simp
  | succ n ih =>
    unfold networkFight_iterations at h
    split at h
    · split at h
      · rename_i s2 heq
        have h1 := iteration_effect s s2 heq
        have h2 := ih s2 h
        rw [h2.1, h2.2, h1.1, h1.2]
        cases hm : s.myTurn
        · refine ⟨?_, ?_⟩
          · rcases Nat.mod_two_eq_zero_or_one n with h0 | h0 <;>
              simp [h0, Nat.succ_mod_two_eq_one_iff, Nat.add_mod]
          · simp
        · refine ⟨?_, ?_⟩
          · rcases Nat.mod_two_eq_zero_or_one n with h0 | h0 <;>
              simp [h0, Nat.succ_mod_two_eq_one_iff, Nat.add_mod]
          · simp
            omega
      · simp at h
    · simp at h

/-- C10. Turn parity in `networkFight`: `myTurn` starts as `isServer` (true on the
server, false on the client) and `round` starts at 1; every completed loop iteration
negates `myTurn`; after `n` iterations `myTurn = (isServer xor n is odd)`, so two peers
that have completed the same number of iterations never both act or both wait; any two
consecutive iterations raise `round` by exactly 1, and after `2 * k` iterations the
round counter is `1 + k`. -/
theorem turn_parity (myPlayer opponentPlayer : Player) (isServer : Bool)
    (stdin : List String) (incoming : List (Option GameMessage)) :
    (networkFight_start myPlayer opponentPlayer isServer stdin incoming).myTurn = isServer
    ∧ (networkFight_start myPlayer opponentPlayer isServer stdin incoming).round = 1
    ∧ (∀ s s1 : NetState, networkFight_iteration s = .next s1 → s1.myTurn = !s.myTurn)
    ∧ (∀ (n : Nat) (s1 : NetState),
        networkFight_iterations n
            (networkFight_start myPlayer opponentPlayer isServer stdin incoming) = some s1 →
        s1.myTurn = xor isServer (decide (n % 2 = 1)))
    ∧ (∀ (n : Nat) (p1 o1 p2 o2 : Player) (in1 in2 : List String)
        (msgs1 msgs2 : List (Option GameMessage)) (server client : NetState),
        networkFight_iterations n (networkFight_start p1 o1 true in1 msgs1) = some server →
        networkFight_iterations n (networkFight_start p2 o2 false in2 msgs2) = some client →
        xor server.myTurn client.myTurn = true)
    ∧ (∀ s s2 : NetState, networkFight_iterations 2 s = some s2 → s2.round = s.round + 1)
    ∧ (∀ (k : Nat) (s1 : NetState),
        networkFight_iterations (2 * k)
            (networkFight_start myPlayer opponentPlayer isServer stdin incoming) = some s1 →
        s1.round = 1 + (k : Int)) := by
  refine ⟨rfl, rfl, ?_, ?_, ?_, ?_, ?_⟩
  · intro s s1 h
    exact (iteration_effect s s1 h).1
  · intro n s1 h
    exact (iterations_effect n _ s1 h).1
  · intro n p1 o1 p2 o2 in1 in2 msgs1 msgs2 server client hs hc
    rw [(iterations_effect n _ server hs).1, (iterations_effect n _ client hc).1]
    simp [networkFight_start]
  · intro s s2 h
    rw [(iterations_effect 2 s s2 h).2]
    cases s.myTurn <;> simp
  · intro k s1 h
    rw [(iterations_effect (2 * k) _ s1 h).2]
    cases isServer
    · simp [networkFight_start]
    · simp [networkFight_start]
      omega

/-- Witness for `turn_parity`: two iterations of a sample run on the server and on the
client; both end in round 2, the server acting again and the client waiting. -/
theorem turn_parity_witness :
    (networkFight_iterations 2 sampleServerStart).map (fun s => (s.myTurn, s.round))
        = some (true, 2)
    ∧ (networkFight_iterations 2 sampleClientStart).map (fun s => (s.myTurn, s.round))
        = some (false, 2) := by
  have hS : (networkFight_iterations 2 sampleServerStart).isSome = true := by decide
  have hC : (networkFight_iterations 2 sampleClientStart).isSome = true := by decide
  have eS := (Option.some_get hS).symm
  have eC := (Option.some_get hC).symm
  have tS := turn_parity (networkPlayer "S") (networkPlayer "C") true
    ["1", "1", "0", "", ""] sampleServerStart.incoming
  have tC := turn_parity (networkPlayer "C") (networkPlayer "S") false
    ["", "1", "2", "3", ""] sampleClientStart.incoming
  have aS := tS.2.2.2.1 2 _ eS
  have bS := tS.2.2.2.2.2.2 1 _ eS
  have aC := tC.2.2.2.1 2 _ eC
  have bC := tC.2.2.2.2.2.2 1 _ eC
  constructor
  · rw [eS]
    simp only [Option.map_some', aS, bS]
    decide
  · rw [eC]
    simp only [Option.map_some', aC, bC]
    decide

/-! ## Tie-break (C11) -/

theorem Player_IsAlive_iff (p : Player) : p.IsAlive = true ↔ p.HP > 0 := by
  simp [Player.IsAlive]

theorem Character_IsAlive_iff (c : Character) : c.IsAlive = true ↔ c.GetHP > 0 := by
  cases c <;> simp [Character.IsAlive, Character.GetHP, Player.IsAlive, Enemy.IsAlive,
    Player.GetHP, Enemy.GetHP]

theorem fight_result (fuel : Nat) (s : FightState) (b : Bool) (s1 : FightState)
    (h : fight fuel s = some (b, s1)) :
    b = decide (s1.player.GetHP > 0) ∧ ¬ (s1.player.GetHP > 0 ∧ s1.enemy.GetHP > 0) := by
  induction fuel generalizing s with
  | zero => simp [fight] at h
  | succ n ih =>
    unfold fight at h
    split at h
    · split at h
      · simp at h
      · exact ih _ h
    · rename_i hdead
      rw [Bool.and_eq_true, Character_IsAlive_iff, Character_IsAlive_iff] at hdead
      split at h
      · rename_i halive
        simp only [Option.some.injEq, Prod.mk.injEq] at h
        obtain ⟨hb, hs⟩ := h
        subst hs
        rw [Character_IsAlive_iff] at halive
        exact ⟨by simp [← hb, halive], hdead⟩
      · rename_i halive
        simp only [Option.some.injEq, Prod.mk.injEq] at h
        obtain ⟨hb, hs⟩ := h
        subst hs
        rw [Character_IsAlive_iff] at halive
        exact ⟨by simp [← hb, halive], hdead⟩

theorem pvpFight_result (fuel : Nat) (s : PvpState) (k : Nat) (s1 : PvpState)
    (h : pvpFight fuel s = some (k, s1)) :
    k = (if s1.players0.HP > 0 then 0 else 1) ∧ ¬ (s1.players0.HP > 0 ∧ s1.players1.HP > 0) := by
  induction fuel generalizing s with
  | zero => simp [pvpFight] at h
  | succ n ih =>
    unfold pvpFight at h
    split at h
    · split at h
      · simp at h
      · exact ih _ h
    · rename_i hdead
      rw [Bool.and_eq_true, Player_IsAlive_iff, Player_IsAlive_iff] at hdead
      split at h
      · rename_i halive
        simp only [Option.some.injEq, Prod.mk.injEq] at h
        obtain ⟨hb, hs⟩ := h
        subst hs
        rw [Player_IsAlive_iff] at halive
        exact ⟨by simp [← hb, halive], hdead⟩
      · rename_i halive
        simp only [Option.some.injEq, Prod.mk.injEq] at h
        obtain ⟨hb, hs⟩ := h
        subst hs
        rw [Player_IsAlive_iff] at halive
        exact ⟨by simp [← hb, halive], hdead⟩

/-- C11, as stated, fails: with both sides brought to 0 HP in the same round (player
with 8 HP and strength 10 against an enemy with 10 HP and strength 8, both hits
landing), `fight` returns `false` and `pvpFight` announces `players[1]`. -/
theorem tie_break_counterexample :
    (fight 2 (fight_start (.player (sampleFighter "A" 8)) (.enemy sampleBoss)
        ["1", "0", "1"] [2, 3])).map (fun r => (r.1, r.2.player.GetHP, r.2.enemy.GetHP))
      = some (false, 0, 0)
    ∧ (pvpFight 2 (pvpFight_start (sampleFighter "A" 10) (sampleFighter "B" 10)
        ["", "1", "0", "1", "", "1", "2", "3"])).map
          (fun r => (r.1, r.2.players0.HP, r.2.players1.HP))
      = some (1, 0, 0) := by
  decide

/-- C11 (amended). The victor is read off the first-listed side alone: `fight` returns
`true` exactly when the player's final HP is positive and `pvpFight` announces
`players[0]` exactly when its final HP is positive. So when both combatants have
`HP ≤ 0` at the end of the same round the tie goes against the first-listed side:
`fight` returns `false` and `pvpFight` announces `players[1]`. The result depends on the
final HP values only. -/
theorem tie_break (fuel : Nat) (fs : FightState) (ps : PvpState) :
    (fs.player.GetHP ≤ 0 → fight (fuel + 1) fs = some (false, fs))
    ∧ (fs.player.GetHP > 0 → fs.enemy.GetHP ≤ 0 → fight (fuel + 1) fs = some (true, fs))
    ∧ (ps.players0.HP ≤ 0 → pvpFight (fuel + 1) ps = some (1, ps))
    ∧ (ps.players0.HP > 0 → ps.players1.HP ≤ 0 → pvpFight (fuel + 1) ps = some (0, ps))
    ∧ (∀ fs1 : FightState, fs.player.GetHP > 0 → fs.enemy.GetHP > 0 →
        fight_round fs = some fs1 → fs1.player.GetHP ≤ 0 → fs1.enemy.GetHP ≤ 0 →
        fight (fuel + 2) fs = some (false, fs1))
    ∧ (∀ ps1 : PvpState, ps.players0.HP > 0 → ps.players1.HP > 0 →
        pvpFight_round ps = some ps1 → ps1.players0.HP ≤ 0 → ps1.players1.HP ≤ 0 →
        pvpFight (fuel + 2) ps = some (1, ps1))
    ∧ (∀ (b : Bool) (fs1 : FightState), fight fuel fs = some (b, fs1) →
        b = decide (fs1.player.GetHP > 0))
    ∧ (∀ (k : Nat) (ps1 : PvpState), pvpFight fuel ps = some (k, ps1) →
        k = (if ps1.players0.HP > 0 then 0 else 1)) := by
  have hf : ∀ (n : Nat) (s : FightState), s.player.GetHP ≤ 0 →
      fight (n + 1) s = some (false, s) := by
    intro n s h
    have h1 : s.player.IsAlive = false := by
      rw [← Bool.not_eq_true, Character_IsAlive_iff]; omega
    simp [fight, h1]
  have hp : ∀ (n : Nat) (s : PvpState), s.players0.HP ≤ 0 →
      pvpFight (n + 1) s = some (1, s) := by
    intro n s h
    have h1 : s.players0.IsAlive = false := by
      rw [← Bool.not_eq_true, Player_IsAlive_iff]; omega
    simp [pvpFight, h1]
  refine ⟨hf fuel fs, ?_, hp fuel ps, ?_, ?_, ?_, ?_, ?_⟩
  · intro h1 h2
    have a1 : fs.player.IsAlive = true := (Character_IsAlive_iff _).mpr h1
    have a2 : fs.enemy.IsAlive = false := by
      rw [← Bool.not_eq_true, Character_IsAlive_iff]; omega
    simp [fight, a1, a2]
  · intro h1 h2
    have a1 : ps.players0.IsAlive = true := (Player_IsAlive_iff _).mpr h1
    have a2 : ps.players1.IsAlive = false := by
      rw [← Bool.not_eq_true, Player_IsAlive_iff]; omega
    simp [pvpFight, a1, a2]
  · intro fs1 h1 h2 hr h3 _
    have a1 : fs.player.IsAlive = true := (Character_IsAlive_iff _).mpr h1
    have a2 : fs.enemy.IsAlive = true := (Character_IsAlive_iff _).mpr h2
    rw [fight]
    simp only [a1, a2, Bool.and_self, if_true, hr]
    exact hf fuel fs1 h3
  · intro ps1 h1 h2 hr h3 _
    have a1 : ps.players0.IsAlive = true := (Player_IsAlive_iff _).mpr h1
    have a2 : ps.players1.IsAlive = true := (Player_IsAlive_iff _).mpr h2
    rw [pvpFight]
    simp only [a1, a2, Bool.and_self, if_true, hr]
    exact hp fuel ps1 h3
  · intro b fs1 h
    exact (fight_result fuel fs b fs1 h).1
  · intro k ps1 h
    exact (pvpFight_result fuel ps k ps1 h).1

/-- Witness for `tie_break`: a player and an enemy that are both at 0 HP. -/
theorem tie_break_witness :
    (sampleFighter "A" 0).HP ≤ 0 ∧
    fight 1 (fight_start (.player (sampleFighter "A" 0)) (.enemy { sampleBoss with HP := 0 }) [] [])
      = some (false,
          fight_start (.player (sampleFighter "A" 0)) (.enemy { sampleBoss with HP := 0 }) [] []) ∧
    pvpFight 1 (pvpFight_start (sampleFighter "A" 0) (sampleFighter "B" 0) [])
      = some (1, pvpFight_start (sampleFighter "A" 0) (sampleFighter "B" 0) []) :=
  have h := tie_break 0
    (fight_start (.player (sampleFighter "A" 0)) (.enemy { sampleBoss with HP := 0 }) [] [])
    (pvpFight_start (sampleFighter "A" 0) (sampleFighter "B" 0) [])
  ⟨by decide, h.1 (by decide), h.2.2.1 (by decide)⟩

/-! ## Abilities and the melee exchange (C12, C13) -/

theorem pvpFight_select_ability (s : PvpSelect) (v : PvpVars) (abilityInput : String)
    (rest : List String) (idx : Int) (hidx : idx ≥ 0 ∧ idx < s.me.Abilities.length)
    (hin : s.stdin = "2" :: abilityInput :: rest) (ha : Atoi abilityInput = some idx)
    (hm : s.me.Mana ≥ (s.me.Abilities.get ⟨idx.toNat, by omega⟩).ManaCost) :
    pvpFight_selectStep s v
      = .done ({ me := (s.me.UseAbility (s.me.Abilities.get ⟨idx.toNat, by omega⟩)
                      (.player s.other)).2.1,
                 other := ((s.me.UseAbility (s.me.Abilities.get ⟨idx.toNat, by omega⟩)
                      (.player s.other)).2.2).toPlayer s.other,
                 stdin := rest },
               { v with abilityUsed := true }) := by
  have hlen : s.me.Abilities.length > 0 := by omega
  unfold pvpFight_selectStep
  simp only [hin, readLine]
  have hm' : s.me.Abilities[idx.toNat].ManaCost ≤ s.me.Mana := hm
  simp [hlen, ha, hidx, hm', pvpFight_abilityBlock]

theorem fight_select_ability (s : FightState) (v : FightVars) (p : Player)
    (abilityInput : String) (rest : List String) (idx : Int)
    (hidx : idx ≥ 0 ∧ idx < p.Abilities.length)
    (hp : s.player = .player p)
    (hin : s.stdin = "2" :: abilityInput :: rest) (ha : Atoi abilityInput = some idx)
    (b : BodyPart) (stdin3 : List String)
    (hb : Player.Block rest = some (b, stdin3)) :
    fight_selectStep s v
      = .done ({ s with
                 player := (s.player.UseAbility (p.Abilities.get ⟨idx.toNat, by omega⟩) s.enemy).2.1,
                 enemy := (s.player.UseAbility (p.Abilities.get ⟨idx.toNat, by omega⟩) s.enemy).2.2,
                 stdin := stdin3 },
               { v with playerBlock := b, abilityUsed := true }) := by
  have hlen : p.Abilities.length > 0 := by omega
  unfold fight_selectStep
  simp only [hin, readLine]
  simp [hp, hlen, ha, hidx, Character.Block, Character.UseAbility, hb]

/-- C12. A side whose action was a successfully used ability throws no melee hit in that
round. In `pvpFight` the choice "use ability" with a valid index and enough mana applies
the ability and sets the side's ability-used flag; with the flag set the resolution step
skips that side's melee branch, so for all zones the opponent leaves the resolution step
exactly as it entered it (for `players[1]`'s ability: as it was right after the ability
effect). In `fight` the choice "use ability" always sets the flag, and with the flag set
the round resolves no melee at all: player and enemy end the round as they were right
after the ability effect. -/
theorem ability_skips_own_melee (p0 p1 : Player) (player enemy : Character)
    (hit0 block0 hit1 block1 : BodyPart) (used : Bool) :
    (pvpFight_resolve p0 p1 hit0 block0 hit1 block1 true used).2 = p1
    ∧ (pvpFight_resolve p0 p1 hit0 block0 hit1 block1 used true).1 = p0
    ∧ fight_resolve player enemy hit0 block0 hit1 block1 true = (player, enemy)
    -- the choice "use ability" sets the flag and applies the effect
    ∧ (∀ (s : PvpSelect) (v : PvpVars) (abilityInput : String) (rest : List String) (idx : Int)
        (hidx : idx ≥ 0 ∧ idx < s.me.Abilities.length),
        s.stdin = "2" :: abilityInput :: rest → Atoi abilityInput = some idx →
        s.me.Mana ≥ (s.me.Abilities.get ⟨idx.toNat, by omega⟩).ManaCost →
        pvpFight_selectStep s v
          = .done ({ me := (s.me.UseAbility (s.me.Abilities.get ⟨idx.toNat, by omega⟩)
                          (.player s.other)).2.1,
                     other := ((s.me.UseAbility (s.me.Abilities.get ⟨idx.toNat, by omega⟩)
                          (.player s.other)).2.2).toPlayer s.other,
                     stdin := rest },
                   { v with abilityUsed := true }))
    ∧ (∀ (s : FightState) (v : FightVars) (p : Player) (abilityInput : String)
        (rest : List String) (idx : Int) (hidx : idx ≥ 0 ∧ idx < p.Abilities.length)
        (b : BodyPart) (stdin3 : List String),
        s.player = .player p → s.stdin = "2" :: abilityInput :: rest →
        Atoi abilityInput = some idx → Player.Block rest = some (b, stdin3) →
        fight_selectStep s v
          = .done ({ s with
                     player := (s.player.UseAbility (p.Abilities.get ⟨idx.toNat, by omega⟩)
                        s.enemy).2.1,
                     enemy := (s.player.UseAbility (p.Abilities.get ⟨idx.toNat, by omega⟩)
                        s.enemy).2.2,
                     stdin := stdin3 },
                   { v with playerBlock := b, abilityUsed := true }))
    -- the whole round
    ∧ (∀ (s s1 : FightState) (v : FightVars),
        fight_selectLoop s.stdin.length s {} = some (s1, v) → v.abilityUsed = true →
        ∃ s2, fight_round s = some s2 ∧ s2.enemy = s1.enemy ∧ s2.player = s1.player)
    ∧ (∀ (s : PvpState) (a b : PvpSelect) (v0 v1 : PvpVars),
        pvpFight_selectLoop s.stdin.length
            { me := s.players0, other := s.players1, stdin := s.stdin } {} = some (a, v0) →
        pvpFight_selectLoop (readLine a.stdin).2.length
            { me := a.other, other := a.me, stdin := (readLine a.stdin).2 } {} = some (b, v1) →
        ∃ s2, pvpFight_round s = some s2
          ∧ (v0.abilityUsed = true → s2.players1 = b.me)
          ∧ (v1.abilityUsed = true → s2.players0 = b.other)) := by
  refine ⟨?_, ?_, ?_, ?_, ?_, ?_, ?_⟩
  · simp [pvpFight_resolve]
  · simp [pvpFight_resolve]
  · simp [fight_resolve]
  · intro s v abilityInput rest idx hidx hin ha hm
    exact pvpFight_select_ability s v abilityInput rest idx hidx hin ha hm
  · intro s v p abilityInput rest idx hidx b stdin3 hp hin ha hb
    exact fight_select_ability s v p abilityInput rest idx hidx hp hin ha b stdin3 hb
  · intro s s1 v hsel hv
    refine ⟨fight_endRound s1, ?_, ?_, ?_⟩
    · simp [fight_round, hsel, hv]
    · unfold fight_endRound
      simp only []
      split <;> rfl
    · unfold fight_endRound
      simp only []
      split <;> rfl
  · intro s a b v0 v1 h0 h1
    refine ⟨pvpFight_endRound
        { players0 := (pvpFight_resolve b.other b.me v0.hit v0.block v1.hit v1.block
            v0.abilityUsed v1.abilityUsed).1,
          players1 := (pvpFight_resolve b.other b.me v0.hit v0.block v1.hit v1.block
            v0.abilityUsed v1.abilityUsed).2,
          round := s.round, stdin := b.stdin }, by simp only [pvpFight_round, h0, h1], ?_, ?_⟩
    · intro hv
      unfold pvpFight_endRound
      simp only []
      split <;> simp [pvpFight_resolve, hv]
    · intro hv
      unfold pvpFight_endRound
      simp only []
      split <;> simp [pvpFight_resolve, hv]

/-- Witness for `ability_skips_own_melee`: in a PvP round `players[0]` casts the damage
ability (15 HP) and `players[1]` answers with a melee hit; `players[1]` ends the round
with the 85 HP left by the ability, `players[0]` takes the melee hit of 10. -/
theorem ability_skips_own_melee_witness :
    (pvpFight_selectStep
        { me := sampleFighter "A" 100, other := sampleFighter "B" 100,
          stdin := ["2", "0", "", "1", "2", "3", ""] } {}).All
      (fun sv => sv.2.abilityUsed = true ∧ sv.1.other.HP = 85)
    ∧ (pvpFight_round (pvpFight_start (sampleFighter "A" 100) (sampleFighter "B" 100)
        ["", "2", "0", "", "1", "2", "3", ""])).map (fun s => (s.players0.HP, s.players1.HP))
      = some (90, 85) := by
  have hsel := (ability_skips_own_melee (sampleFighter "A" 100) (sampleFighter "B" 100)
    (.player (sampleFighter "A" 100)) (.player (sampleFighter "B" 100)) 0 0 2 3 false).2.2.2.1
    { me := sampleFighter "A" 100, other := sampleFighter "B" 100,
      stdin := ["2", "0", "", "1", "2", "3", ""] } {} "0" ["", "1", "2", "3", ""] 0
    (by decide) rfl (by decide) (by decide)
  constructor
  · rw [hsel]
    exact ⟨rfl, by decide⟩
  · decide

/-- C13 does not hold in `fight`: when the player uses an ability, the whole melee block
is skipped, the enemy's hit included. Here the player casts the damage ability and
defends Head, the enemy (strength 8, 50 HP) would hit Torso: the enemy loses 15 HP, the
player keeps all 100 HP and the enemy's zones are not even drawn. In `pvpFight` the same
round resolves the melee side's hit (10 HP) against the ability user. -/
theorem fight_ability_cancels_enemy_melee :
    (fight_round (fight_start (.player (sampleFighter "A" 100))
        (.enemy { sampleBoss with HP := 50 }) ["2", "0", "0", ""] [1, 2])).map
          (fun s => (s.player.GetHP, s.enemy.GetHP, s.rand))
      = some (100, 35, [1, 2])
    ∧ (pvpFight_round (pvpFight_start (sampleFighter "A" 100) (sampleFighter "B" 100)
        ["", "2", "0", "", "1", "1", "2", ""])).map (fun s => (s.players0.HP, s.players1.HP))
      = some (90, 85) := by
  decide
/-! ## Simultaneous exchange (C14) -/

/-- C14. The melee exchange of `pvpFight` does not depend on the order of the two hits:
resolving `players[0]`'s hit first (as the program does) or `players[1]`'s hit first
gives the same two players, in particular the same final HP. A side brought to
`HP ≤ 0` by the first hit still deals its own hit with its full `GetStrength()`. -/
theorem exchange_order_independent (p0 p1 : Player) (hit0 block0 hit1 block1 : BodyPart)
    (used0 used1 : Bool) :
    pvpFight_resolve p0 p1 hit0 block0 hit1 block1 false false
        = pvpFight_resolve_reversed p0 p1 hit0 block0 hit1 block1 false false
    ∧ (pvpFight_resolve p0 p1 hit0 block0 hit1 block1 false false).1.HP
        = (pvpFight_resolve_reversed p0 p1 hit0 block0 hit1 block1 false false).1.HP
    ∧ (pvpFight_resolve p0 p1 hit0 block0 hit1 block1 false false).2.HP
        = (pvpFight_resolve_reversed p0 p1 hit0 block0 hit1 block1 false false).2.HP
    ∧ pvpFight_resolve p0 p1 hit0 block0 hit1 block1 used0 used1
        = pvpFight_resolve_reversed p0 p1 hit0 block0 hit1 block1 used0 used1
    ∧ (hit0 ≠ block1 → hit1 ≠ block0 →
        (pvpFight_resolve p0 p1 hit0 block0 hit1 block1 false false).2.HP ≤ 0 →
        (pvpFight_resolve p0 p1 hit0 block0 hit1 block1 false false).1
          = p0.SetHP (p0.HP - p1.GetStrength)) := by
  have hgen : ∀ u0 u1 : Bool, pvpFight_resolve p0 p1 hit0 block0 hit1 block1 u0 u1
      = pvpFight_resolve_reversed p0 p1 hit0 block0 hit1 block1 u0 u1 := by
    intro u0 u1
    unfold pvpFight_resolve pvpFight_resolve_reversed
    cases u0 <;> cases u1 <;> by_cases h0 : hit0 = block1 <;> by_cases h1 : hit1 = block0 <;>
      simp [h0, h1, GetStrength_SetHP]
  refine ⟨hgen false false, by rw [hgen], by rw [hgen], hgen used0 used1, ?_⟩
  intro h0 h1 _
  simp [pvpFight_resolve, h0, h1, GetStrength_SetHP, Player.GetHP]

/-- Witness for `exchange_order_independent`: two players with 10 HP and strength 10 hit
each other; the first hit brings `players[1]` to 0 HP, and its own hit still brings
`players[0]` to 0 HP. -/
theorem exchange_order_independent_witness :
    (pvpFight_resolve (sampleFighter "A" 10) (sampleFighter "B" 10) 0 1 2 3 false false).2.HP ≤ 0
    ∧ (pvpFight_resolve (sampleFighter "A" 10) (sampleFighter "B" 10) 0 1 2 3 false false).1
        = (sampleFighter "A" 10).SetHP ((sampleFighter "A" 10).HP - (sampleFighter "B" 10).GetStrength) :=
  ⟨by decide,
    (exchange_order_independent (sampleFighter "A" 10) (sampleFighter "B" 10) 0 1 2 3
      false false).2.2.2.2 (by decide) (by decide) (by decide)⟩

/-! ## Equipment invariant (C15) -/

theorem take_drop_sublist {α : Type} (l : List α) (n : Nat) :
    (l.take n ++ l.drop (n + 1)).Sublist l := by
  induction l generalizing n with
  | nil => simp
  | cons a rest ih =>
    cases n with
    | zero => simp
    | succ m =>
      simp only [List.take_succ_cons, List.drop_succ_cons, List.cons_append]
      exact (ih m).cons₂ a

theorem TakeOff_Equipment_sublist (p : Player) (i : Int) :
    (p.TakeOff i).Equipment.Sublist p.Equipment := by
  unfold Player.TakeOff
  split
  · exact List.Sublist.refl _
  · exact take_drop_sublist _ _

/-- `Equip` leaves the equipment alone or appends an inventory item that is not a
consumable and whose type is not equipped yet. -/
theorem Equip_Equipment (p : Player) (i : Int) :
    (p.Equip i).Equipment = p.Equipment
    ∨ ∃ item : Item, (p.Equip i).Equipment = p.Equipment ++ [item] ∧ item ∈ p.Inventory
        ∧ item.Typ ≠ Consumable ∧ ∀ equipped ∈ p.Equipment, equipped.Typ ≠ item.Typ := by
  unfold Player.Equip
  split
  · exact Or.inl rfl
  · rename_i hrange
    simp only []
    split
    · left
      simp [SetHP_eq, SetMana_eq]
    · rename_i hcons
      split
      · exact Or.inl rfl
      · rename_i hany
        right
        refine ⟨p.Inventory.get ⟨i.toNat, by omega⟩, rfl, List.get_mem _ _ _, hcons, ?_⟩
        intro equipped hmem
        simp only [List.any_eq_true, decide_eq_true_eq, not_exists, not_and] at hany
        exact hany equipped hmem

theorem Equip_OnePerType (p : Player) (i : Int) (h : OnePerType p.Equipment) :
    OnePerType (p.Equip i).Equipment := by
  rcases Equip_Equipment p i with heq | ⟨item, heq, _, _, hnew⟩
  · rw [heq]; exact h
  · rw [heq]
    unfold OnePerType at *
    rw [List.map_append, List.nodup_append]
    refine ⟨h, by simp, ?_⟩
    intro a ha hb
    simp only [List.map_cons, List.map_nil, List.mem_singleton] at hb
    rw [List.mem_map] at ha
    obtain ⟨equipped, hmem, htyp⟩ := ha
    exact hnew equipped hmem (htyp.trans hb)

theorem TakeOff_OnePerType (p : Player) (i : Int) (h : OnePerType p.Equipment) :
    OnePerType (p.TakeOff i).Equipment := by
  unfold OnePerType at *
  exact List.Nodup.sublist ((TakeOff_Equipment_sublist p i).map Item.Typ) h

theorem OnePerType_filter_length (items : List Item) (t : ItemType) (h : OnePerType items) :
    (items.filter (fun item => decide (item.Typ = t))).length ≤ 1 := by
  induction items with
  | nil => simp
  | cons a rest ih =>
    unfold OnePerType at h ih
    rw [List.map_cons, List.nodup_cons] at h
    by_cases ha : a.Typ = t
    · have hnone : rest.filter (fun item => decide (item.Typ = t)) = [] := by
        rw [List.filter_eq_nil_iff]
        intro item hmem
        simp only [decide_eq_true_eq]
        intro hit
        exact h.1 (List.mem_map.mpr ⟨item, hmem, hit.trans ha.symm⟩)
      simp [List.filter_cons, ha, hnone]
    · simp only [List.filter_cons, ha, decide_False]
      exact ih h.2

/-- The invariant kept along a sequence of operations that starts with no equipment. -/
theorem applyOps_invariant (ops : List EquipOp) (p : Player)
    (h1 : OnePerType p.Equipment) (h2 : ∀ item ∈ p.Equipment, item.Typ ≠ Consumable) :
    OnePerType (p.applyOps ops).Equipment
    ∧ ∀ item ∈ (p.applyOps ops).Equipment, item.Typ ≠ Consumable := by
  induction ops generalizing p with
  | nil => exact ⟨h1, h2⟩
  | cons op rest ih =>
    unfold Player.applyOps
    rw [List.foldl_cons]
    apply ih
    · cases op with
      | equip i => exact Equip_OnePerType p i h1
      | takeOff i => exact TakeOff_OnePerType p i h1
    · cases op with
      | equip i =>
        intro item hmem
        simp only [Player.applyOp] at hmem
        rcases Equip_Equipment p i with heq | ⟨it, heq, _, hc, _⟩
        · rw [heq] at hmem; exact h2 item hmem
        · rw [heq, List.mem_append, List.mem_singleton] at hmem
          rcases hmem with hm | hm
          · exact h2 item hm
          · rw [hm]; exact hc
      | takeOff i =>
        intro item hmem
        exact h2 item ((TakeOff_Equipment_sublist p i).subset hmem)

/-- C15. Equipment invariant: if the equipment holds at most one item of each item type,
it still does after `Equip(i)` and after `TakeOff(i)`, for every integer `i`. Hence every
state reached from an empty equipment through `Equip` and `TakeOff` has at most one
weapon and at most one armor equipped, and no equipped consumable. -/
theorem equipment_invariant (p : Player) (i : Int) (ops : List EquipOp) :
    (OnePerType p.Equipment → OnePerType (p.Equip i).Equipment)
    ∧ (OnePerType p.Equipment → OnePerType (p.TakeOff i).Equipment)
    ∧ (p.Equipment = [] →
        OnePerType (p.applyOps ops).Equipment
        ∧ ((p.applyOps ops).Equipment.filter (fun item => decide (item.Typ = Weapon))).length ≤ 1
        ∧ ((p.applyOps ops).Equipment.filter (fun item => decide (item.Typ = Armor))).length ≤ 1
        ∧ ∀ item ∈ (p.applyOps ops).Equipment, item.Typ ≠ Consumable) := by
  refine ⟨Equip_OnePerType p i, TakeOff_OnePerType p i, ?_⟩
  intro hempty
  have hinv := applyOps_invariant ops p (by rw [hempty]; simp [OnePerType])
    (by rw [hempty]; simp)
  exact ⟨hinv.1, OnePerType_filter_length _ _ hinv.1, OnePerType_filter_length _ _ hinv.1,
    hinv.2⟩

/-- Witness for `equipment_invariant`: the starting character equips the sword, the
armor, drinks a potion, tries the sword slot again, and takes the sword off. -/
theorem equipment_invariant_witness :
    (createPlayer "A").Equipment = []
    ∧ ((createPlayer "A").applyOps [.equip 0, .equip 0, .equip 0, .equip 0, .takeOff 0]).Equipment
        = [getStartingInventory.get ⟨1, by decide⟩]
    ∧ OnePerType
        ((createPlayer "A").applyOps [.equip 0, .equip 0, .equip 0, .equip 0, .takeOff 0]).Equipment :=
  ⟨rfl, by decide,
    ((equipment_invariant (createPlayer "A") 0
      [.equip 0, .equip 0, .equip 0, .equip 0, .takeOff 0]).2.2 rfl).1⟩

/-! ## No damage reduction, no buff removal (C16, C17) -/

theorem Player_UseAbility_target_eq (c : Player) (ability : Ability) (target : Character) :
    (c.UseAbility ability target).2.2
      = (if c.Mana < ability.ManaCost then target
         else if ability.Typ = DamageAbility then
           target.SetHP (target.GetHP - (ability.Damage + Int.tdiv c.GetStrength 2))
         else target) := by
  unfold Player.UseAbility
  split
  · rfl
  · simp only []
    split
    · rfl
    · split
      · rfl
      · split <;> rfl

theorem Enemy_UseAbility_target_eq (c : Enemy) (ability : Ability) (target : Character) :
    (c.UseAbility ability target).2.2
      = (if c.Mana < ability.ManaCost then target
         else if ability.Typ = DamageAbility then
           target.SetHP (target.GetHP - (ability.Damage + Int.tdiv c.Strength 2))
         else target) := by
  unfold Enemy.UseAbility
  split
  · rfl
  · simp only []
    split
    · rfl
    · split
      · rfl
      · split <;> rfl

/-- The target of an ability cast by any character is left alone or updated through
`SetHP` with an amount that does not depend on the target's equipment or buffs. -/
theorem Character_UseAbility_target_eq (c : Character) (ability : Ability) :
    ∃ (hit : Bool) (damage : Int),
      (∀ t : Character, (c.UseAbility ability t).2.2
        = (if hit then t.SetHP (t.GetHP - damage) else t)) := by
  cases c with
  | player q =>
    refine ⟨decide (¬ q.Mana < ability.ManaCost ∧ ability.Typ = DamageAbility),
      ability.Damage + Int.tdiv q.GetStrength 2, ?_⟩
    intro t
    simp only [Character.UseAbility, Player_UseAbility_target_eq]
    by_cases h1 : q.Mana < ability.ManaCost <;> by_cases h2 : ability.Typ = DamageAbility <;>
      simp [h1, h2]
  | enemy e =>
    refine ⟨decide (¬ e.Mana < ability.ManaCost ∧ ability.Typ = DamageAbility),
      ability.Damage + Int.tdiv e.Strength 2, ?_⟩
    intro t
    simp only [Character.UseAbility, Enemy_UseAbility_target_eq]
    by_cases h1 : e.Mana < ability.ManaCost <;> by_cases h2 : ability.Typ = DamageAbility <;>
      simp [h1, h2]

theorem fight_resolve_fst (player enemy : Character)
    (playerHit playerBlock enemyHit enemyBlock : BodyPart) :
    (fight_resolve player enemy playerHit playerBlock enemyHit enemyBlock false).1
      = (if enemyHit = playerBlock then player
         else player.SetHP (player.GetHP - enemy.GetStrength)) := by
  by_cases h : enemyHit = playerBlock <;> by_cases h' : playerHit = enemyBlock <;>
    simp [fight_resolve, h, h', Character_GetStrength_SetHP]

theorem fight_resolve_snd (player enemy : Character)
    (playerHit playerBlock enemyHit enemyBlock : BodyPart) :
    (fight_resolve player enemy playerHit playerBlock enemyHit enemyBlock false).2
      = (if playerHit = enemyBlock then enemy
         else enemy.SetHP (enemy.GetHP - player.GetStrength)) := by
  by_cases h : playerHit = enemyBlock <;> simp [fight_resolve, h]

theorem pvpFight_resolve_fst (p0 p1 : Player) (hit0 block0 hit1 block1 : BodyPart)
    (used0 used1 : Bool) :
    (pvpFight_resolve p0 p1 hit0 block0 hit1 block1 used0 used1).1
      = (if used1 = true ∨ hit1 = block0 then p0 else p0.SetHP (p0.HP - p1.GetStrength)) := by
  by_cases h : hit1 = block0 <;> by_cases h' : hit0 = block1 <;> cases used0 <;> cases used1 <;>
    simp [pvpFight_resolve, h, h', Player.GetHP, GetStrength_SetHP]

theorem pvpFight_resolve_snd (p0 p1 : Player) (hit0 block0 hit1 block1 : BodyPart)
    (used0 used1 : Bool) :
    (pvpFight_resolve p0 p1 hit0 block0 hit1 block1 used0 used1).2
      = (if used0 = true ∨ hit0 = block1 then p1 else p1.SetHP (p1.HP - p0.GetStrength)) := by
  by_cases h' : hit0 = block1 <;> cases used0 <;>
    simp [pvpFight_resolve, h', Player.GetHP]

/-- C16. Armor and defense buffs do not reduce damage: two defenders that differ only in
`Equipment` and `ActiveBuffs.DefenseBuff` have the same HP after a melee hit (resolution
step of `pvpFight`, either side, and of `fight`) and after being the target of an
ability (Damage-type or other) of any caster, so they lose the same HP. -/
theorem armor_does_not_reduce_damage (attacker d : Player) (equipment : List Item)
    (defenseBuff : Int) (caster : Character) (ability : Ability)
    (hit0 block0 hit1 block1 : BodyPart) (used : Bool) :
    (pvpFight_resolve attacker
        { d with Equipment := equipment,
                 ActiveBuffs := { d.ActiveBuffs with DefenseBuff := defenseBuff } }
        hit0 block0 hit1 block1 false used).2.HP
      = (pvpFight_resolve attacker d hit0 block0 hit1 block1 false used).2.HP
    ∧ (pvpFight_resolve
        { d with Equipment := equipment,
                 ActiveBuffs := { d.ActiveBuffs with DefenseBuff := defenseBuff } }
        attacker hit0 block0 hit1 block1 used false).1.HP
      = (pvpFight_resolve d attacker hit0 block0 hit1 block1 used false).1.HP
    ∧ (fight_resolve caster
        (.player { d with Equipment := equipment,
                          ActiveBuffs := { d.ActiveBuffs with DefenseBuff := defenseBuff } })
        hit0 block0 hit1 block1 false).2.GetHP
      = (fight_resolve caster (.player d) hit0 block0 hit1 block1 false).2.GetHP
    ∧ (fight_resolve
        (.player { d with Equipment := equipment,
                          ActiveBuffs := { d.ActiveBuffs with DefenseBuff := defenseBuff } })
        caster hit0 block0 hit1 block1 false).1.GetHP
      = (fight_resolve (.player d) caster hit0 block0 hit1 block1 false).1.GetHP
    ∧ (caster.UseAbility ability
        (.player { d with Equipment := equipment,
                          ActiveBuffs := { d.ActiveBuffs with DefenseBuff := defenseBuff } })).2.2.GetHP
      = (caster.UseAbility ability (.player d)).2.2.GetHP := by
  refine ⟨?_, ?_, ?_, ?_, ?_⟩
  · rw [pvpFight_resolve_snd, pvpFight_resolve_snd]
    split <;> simp [SetHP_eq]
  · rw [pvpFight_resolve_fst, pvpFight_resolve_fst]
    split <;> simp [SetHP_eq]
  · rw [fight_resolve_snd, fight_resolve_snd]
    split <;> simp [Character.GetHP, Character.SetHP, Player.GetHP, SetHP_eq]
  · rw [fight_resolve_fst, fight_resolve_fst]
    split <;> simp [Character.GetHP, Character.SetHP, Player.GetHP, SetHP_eq]
  · obtain ⟨hit, damage, hall⟩ := Character_UseAbility_target_eq caster ability
    rw [hall, hall]
    cases hit <;> simp [Character.GetHP, Character.SetHP, Player.GetHP, SetHP_eq]
theorem Equip_ActiveBuffs (p : Player) (i : Int) : (p.Equip i).ActiveBuffs = p.ActiveBuffs := by
  unfold Player.Equip
  split
  · rfl
  · simp only []
    split
    · simp [SetHP_eq, SetMana_eq]
    · split <;> rfl

theorem TakeOff_ActiveBuffs (p : Player) (i : Int) :
    (p.TakeOff i).ActiveBuffs = p.ActiveBuffs := by
  unfold Player.TakeOff
  split <;> rfl

/-- The buffs of the caster after `Player.UseAbility`. -/
theorem Player_UseAbility_ActiveBuffs (p : Player) (ability : Ability) (target : Character) :
    (p.UseAbility ability target).2.1.ActiveBuffs
      = (if p.Mana < ability.ManaCost then p.ActiveBuffs
         else if ability.Typ = BuffAbility then
           { AttackBuff := p.ActiveBuffs.AttackBuff + ability.BuffAttack,
             DefenseBuff := p.ActiveBuffs.DefenseBuff + ability.BuffDefense }
         else p.ActiveBuffs) := by
  have h1 : ¬ DamageAbility = BuffAbility := by decide
  have h2 : ¬ HealAbility = BuffAbility := by decide
  unfold Player.UseAbility
  split
  · rfl
  · simp only []
    split
    · rename_i ht
      simp [ht, h1]
    · split
      · rename_i ht
        simp [ht, h2, SetHP_eq]
      · split
        · rfl
        · rfl

/-- C17. Buffs are never removed by the engine: `ActiveBuffs` of a player is unchanged by
`SetHP`, `SetMana`, `Equip`, `TakeOff`, by `UseAbility` with a Damage-type or Heal-type
ability, by a refused `UseAbility`, by being the target of an ability (of any caster),
and by the melee resolution step of `pvpFight` and `fight`; if `UseAbility` changes the
caster's `ActiveBuffs`, the ability was Buff-type and the mana sufficed. -/
theorem buffs_never_removed (p other : Player) (c : Character) (ability : Ability)
    (target : Character) (hit0 block0 hit1 block1 : BodyPart) (used0 used1 : Bool) :
    (∀ hp : Int, (p.SetHP hp).ActiveBuffs = p.ActiveBuffs)
    ∧ (∀ mana : Int, (p.SetMana mana).ActiveBuffs = p.ActiveBuffs)
    ∧ (∀ i : Int, (p.Equip i).ActiveBuffs = p.ActiveBuffs)
    ∧ (∀ i : Int, (p.TakeOff i).ActiveBuffs = p.ActiveBuffs)
    ∧ (ability.Typ = DamageAbility ∨ ability.Typ = HealAbility →
        (p.UseAbility ability target).2.1.ActiveBuffs = p.ActiveBuffs)
    ∧ (p.Mana < ability.ManaCost →
        (p.UseAbility ability target).2.1.ActiveBuffs = p.ActiveBuffs)
    ∧ (∃ q : Player, (c.UseAbility ability (.player p)).2.2 = .player q
        ∧ q.ActiveBuffs = p.ActiveBuffs)
    ∧ (pvpFight_resolve p other hit0 block0 hit1 block1 used0 used1).1.ActiveBuffs
        = p.ActiveBuffs
    ∧ (pvpFight_resolve other p hit0 block0 hit1 block1 used0 used1).2.ActiveBuffs
        = p.ActiveBuffs
    ∧ (∃ q : Player, (fight_resolve (.player p) c hit0 block0 hit1 block1 used0).1 = .player q
        ∧ q.ActiveBuffs = p.ActiveBuffs)
    ∧ (∃ q : Player, (fight_resolve c (.player p) hit0 block0 hit1 block1 used0).2 = .player q
        ∧ q.ActiveBuffs = p.ActiveBuffs)
    ∧ ((p.UseAbility ability target).2.1.ActiveBuffs ≠ p.ActiveBuffs →
        p.Mana ≥ ability.ManaCost ∧ ability.Typ = BuffAbility) := by
  have hset : ∀ hp : Int, (p.SetHP hp).ActiveBuffs = p.ActiveBuffs := by
    intro hp; simp [SetHP_eq]
  refine ⟨hset, ?_, Equip_ActiveBuffs p, TakeOff_ActiveBuffs p, ?_, ?_, ?_, ?_, ?_, ?_, ?_, ?_⟩
  · intro mana; simp [SetMana_eq]
  · intro ht
    rw [Player_UseAbility_ActiveBuffs]
    have hne : ¬ ability.Typ = BuffAbility := by
      rcases ht with ht | ht <;> rw [ht] <;> decide
    simp [hne]
  · intro hlt
    rw [Player_UseAbility_ActiveBuffs]
    simp [hlt]
  · obtain ⟨hit, damage, hall⟩ := Character_UseAbility_target_eq c ability
    rw [hall]
    cases hit
    · exact ⟨p, rfl, rfl⟩
    · exact ⟨p.SetHP ((Character.player p).GetHP - damage), rfl, hset _⟩
  · rw [pvpFight_resolve_fst]
    split
    · rfl
    · exact hset _
  · rw [pvpFight_resolve_snd]
    split
    · rfl
    · exact hset _
  · cases used0
    · rw [fight_resolve_fst]
      split
      · exact ⟨p, rfl, rfl⟩
      · exact ⟨_, rfl, hset _⟩
    · exact ⟨p, by simp [fight_resolve], rfl⟩
  · cases used0
    · rw [fight_resolve_snd]
      split
      · exact ⟨p, rfl, rfl⟩
      · exact ⟨_, rfl, hset _⟩
    · exact ⟨p, by simp [fight_resolve], rfl⟩
  · intro hne
    rw [Player_UseAbility_ActiveBuffs] at hne
    by_cases hlt : p.Mana < ability.ManaCost
    · simp [hlt] at hne
    · by_cases ht : ability.Typ = BuffAbility
      · exact ⟨not_lt.mp hlt, ht⟩
      · simp [hlt, ht] at hne

/-- Witness for `buffs_never_removed`: after the +10 attack buff, a heal, a potion and a
melee hit taken leave the buff in place. -/
theorem buffs_never_removed_witness :
    ((networkPlayer "A").UseAbility (createAbilities.get ⟨4, by decide⟩)
        (.player (createPlayer "B"))).2.1.ActiveBuffs = { AttackBuff := 10, DefenseBuff := 0 }
    ∧ ((((networkPlayer "A").UseAbility (createAbilities.get ⟨4, by decide⟩)
        (.player (createPlayer "B"))).2.1.UseAbility (createAbilities.get ⟨7, by decide⟩)
        (.player (createPlayer "B"))).2.1).ActiveBuffs = { AttackBuff := 10, DefenseBuff := 0 } :=
  have h := buffs_never_removed
    ((networkPlayer "A").UseAbility (createAbilities.get ⟨4, by decide⟩)
        (.player (createPlayer "B"))).2.1 (createPlayer "B") (.player (createPlayer "B"))
    (createAbilities.get ⟨7, by decide⟩) (.player (createPlayer "B")) 0 1 2 3 false false
  ⟨by decide, (h.2.2.2.2.1 (Or.inr rfl)).trans (by decide)⟩

/-! ## Network turn: messages sent and received (C18 - C20) -/

/-- C18 does not hold on every acting turn: the choice "use ability" with an index out of
range, and the choice "use item" with an input that is not a number, end the
action-selection loop without a `PlayerAction` message, so the only non-chat message of
the turn is the `GameStateMsg`. A melee turn, a successful ability and an item turn
with a number send `PlayerAction` and then `GameStateMsg`. -/
theorem acting_turn_without_action_message :
    (networkFight_acting (networkFight_start (networkPlayer "S") (networkPlayer "C") true
        ["2", "9", "0"] [])).map (fun s => nonChatTypes s.sent) = some [GameStateMsg]
    ∧ (networkFight_acting (networkFight_start (networkPlayer "S") (networkPlayer "C") true
        ["6", "hello", "5", "x", "0"] [])).map (fun s => nonChatTypes s.sent) = some [GameStateMsg]
    ∧ (networkFight_acting (networkFight_start (networkPlayer "S") (networkPlayer "C") true
        ["1", "1", "0"] [])).map (fun s => nonChatTypes s.sent)
      = some [PlayerAction, GameStateMsg]
    ∧ (networkFight_acting (networkFight_start (networkPlayer "S") (networkPlayer "C") true
        ["2", "0"] [])).map (fun s => nonChatTypes s.sent)
      = some [PlayerAction, GameStateMsg]
    ∧ (networkFight_acting (networkFight_start (networkPlayer "S") (networkPlayer "C") true
        ["5", "2", "0"] [])).map (fun s => nonChatTypes s.sent)
      = some [PlayerAction, GameStateMsg] := by
  decide

theorem endTurn_players (s : NetState) :
    (networkFight_endTurn s).myPlayer = s.myPlayer
    ∧ (networkFight_endTurn s).opponentPlayer = s.opponentPlayer
    ∧ (networkFight_endTurn s).sent = s.sent
    ∧ (networkFight_endTurn s).incoming = s.incoming := by
  unfold networkFight_endTurn
  simp only []
  split <;> exact ⟨rfl, rfl, rfl, rfl⟩

/-- C19, as stated, fails: the type of the first message is never examined and a second
message that is not a snapshot is skipped. A passive turn that receives a chat message
and then a snapshot applies the snapshot and flips the turn; a passive turn that
receives an action and then a `PlayerReady` leaves the mirror alone and flips the turn;
neither ends the loop. -/
theorem protocol_violation_counterexample :
    (networkFight_iteration (networkFight_start (networkPlayer "C") (networkPlayer "S") false
        [""]
        [some { Typ := ChatMessage, Text := "hi" },
         some { Typ := GameStateMsg,
                Player := some { playerToPlayerData (networkPlayer "S") with HP := 60 } }])).next?.map
          (fun s => (s.myTurn, s.opponentPlayer.HP))
      = some (true, 60)
    ∧ (networkFight_iteration (networkFight_start (networkPlayer "C") (networkPlayer "S") false
        [""]
        [some { Typ := PlayerAction, Action := "hit" },
         some { Typ := PlayerReady }])).next?.map
          (fun s => (s.myTurn, s.opponentPlayer.HP))
      = some (true, 100) := by
  decide

/-- C19 (amended). On the passive side of `networkFight` only a failed read of the first
message ends the session: `networkFight` then returns at once, `myTurn` not flipped, the
opponent mirror and the local player unchanged, and no message sent (not even
`Disconnect`). Once the first message decodes, whatever its type, the turn goes on: if
the second message fails to decode or is not a `GameStateMsg` carrying a player record,
the mirror is left unchanged and nothing is sent, and the turn ends normally with
`myTurn` flipped. -/
theorem passive_turn_failure (s : NetState) (fuel : Nat) (hturn : s.myTurn = false) :
    (∀ rest : List (Option GameMessage), decode s.incoming = (none, rest) →
        networkFight_iteration s = .returned { s with incoming := rest }
        ∧ (s.myPlayer.IsAlive = true → s.opponentPlayer.IsAlive = true →
            networkFight (fuel + 1) s = some { s with incoming := rest }))
    ∧ (∀ (first : GameMessage) (rest : List (Option GameMessage)),
        s.incoming = some first :: rest →
        ∃ s1, networkFight_iteration s = .next s1 ∧ s1.myTurn = true
          ∧ s1.sent = s.sent ∧ s1.myPlayer = s.myPlayer
          ∧ ((∀ (second : GameMessage) (pd : PlayerData),
                (decode rest).1 = some second → second.Typ = GameStateMsg →
                second.Player ≠ some pd) →
              s1.opponentPlayer = s.opponentPlayer)) := by
  refine ⟨?_, ?_⟩
  · intro rest hdec
    have hit : networkFight_iteration s = .returned { s with incoming := rest } := by
      simp [networkFight_iteration, hturn, networkFight_passive, hdec]
    refine ⟨hit, ?_⟩
    intro h1 h2
    simp [networkFight, h1, h2, hit]
  · intro first rest hin
    have hpass : ∃ s0, networkFight_passive s = .next s0 ∧ s0.myTurn = s.myTurn
        ∧ s0.sent = s.sent ∧ s0.myPlayer = s.myPlayer
        ∧ ((∀ (second : GameMessage) (pd : PlayerData),
              (decode rest).1 = some second → second.Typ = GameStateMsg →
              second.Player ≠ some pd) →
            s0.opponentPlayer = s.opponentPlayer) := by
      unfold networkFight_passive
      simp only [hin, decode]
      cases rest with
      | nil => exact ⟨_, rfl, rfl, rfl, rfl, fun _ => rfl⟩
      | cons m rest2 =>
        cases m with
        | none => exact ⟨_, rfl, rfl, rfl, rfl, fun _ => rfl⟩
        | some second =>
          simp only []
          by_cases ht : second.Typ = GameStateMsg
          · cases hp : second.Player with
            | none =>
              simp only [ht, if_true]
              exact ⟨_, rfl, rfl, rfl, rfl, fun _ => rfl⟩
            | some pd =>
              simp only [ht, if_true]
              refine ⟨_, rfl, rfl, rfl, rfl, ?_⟩
              intro hall
              exact absurd hp (hall second pd rfl ht)
          · simp only [ht, if_false]
            exact ⟨_, rfl, rfl, rfl, rfl, fun _ => rfl⟩
    obtain ⟨s0, hp0, ht0, hs0, hm0, ho0⟩ := hpass
    have he := endTurn_players s0
    have hf := endTurn_effect s0
    refine ⟨networkFight_endTurn s0, ?_, ?_, ?_, ?_, ?_⟩
    · simp [networkFight_iteration, hturn, hp0]
    · rw [hf.1, ht0, hturn]; rfl
    · rw [he.2.2.1, hs0]
    · rw [he.1, hm0]
    · intro hall
      rw [he.2.1]
      exact ho0 hall

/-- Witness for `passive_turn_failure`: the connection is closed when the passive side
waits for the action message; `networkFight` returns with nothing sent. -/
theorem passive_turn_failure_witness :
    networkFight 1 (networkFight_start (networkPlayer "C") (networkPlayer "S") false [""] [])
      = some (networkFight_start (networkPlayer "C") (networkPlayer "S") false [""] []) :=
  ((passive_turn_failure
    (networkFight_start (networkPlayer "C") (networkPlayer "S") false [""] []) 0 rfl).1
    [] rfl).2 (by decide) (by decide)

/-- C20. Passive turn of `networkFight`: after receiving an action message and then a
snapshot (a `GameStateMsg` carrying a player record `pd`), the opponent mirror has
`HP = pd.HP` and `Mana = pd.Mana` and is otherwise unchanged, the local player is
unchanged, nothing is sent, and `myTurn` is flipped (it is now the local player's
turn). -/
theorem passive_turn_effect (s : NetState) (actionMsg stateMsg : GameMessage)
    (pd : PlayerData) (rest : List (Option GameMessage))
    (hturn : s.myTurn = false)
    (hin : s.incoming = some actionMsg :: some stateMsg :: rest)
    (ht : stateMsg.Typ = GameStateMsg) (hp : stateMsg.Player = some pd) :
    ∃ s1, networkFight_iteration s = .next s1
      ∧ s1.opponentPlayer = { s.opponentPlayer with HP := pd.HP, Mana := pd.Mana }
      ∧ s1.opponentPlayer.HP = pd.HP
      ∧ s1.opponentPlayer.Mana = pd.Mana
      ∧ s1.myPlayer = s.myPlayer
      ∧ s1.myTurn = true
      ∧ s1.myTurn = !s.myTurn
      ∧ s1.sent = s.sent
      ∧ s1.incoming = rest := by
  have hpass : networkFight_passive s
      = .next { s with incoming := rest,
                       opponentPlayer := { s.opponentPlayer with HP := pd.HP, Mana := pd.Mana } } := by
    simp [networkFight_passive, decode, hin, ht, hp]
  have he := endTurn_players
    { s with incoming := rest,
             opponentPlayer := { s.opponentPlayer with HP := pd.HP, Mana := pd.Mana } }
  have hf := endTurn_effect
    { s with incoming := rest,
             opponentPlayer := { s.opponentPlayer with HP := pd.HP, Mana := pd.Mana } }
  have hit : networkFight_iteration s
      = .next (networkFight_endTurn
          { s with incoming := rest,
                   opponentPlayer := { s.opponentPlayer with HP := pd.HP, Mana := pd.Mana } }) := by
    simp only [networkFight_iteration, hturn, hpass]
    rfl
  have hflip : (networkFight_endTurn
      { s with incoming := rest,
               opponentPlayer := { s.opponentPlayer with HP := pd.HP, Mana := pd.Mana } }).myTurn
      = true := by
    rw [hf.1]
    simp [hturn]
  exact ⟨_, hit, he.2.1, congrArg Player.HP he.2.1, congrArg Player.Mana he.2.1, he.1, hflip,
    by rw [hflip, hturn]; rfl, he.2.2.1, he.2.2.2⟩

/-- Witness for `passive_turn_effect`: the client receives a melee action and a snapshot
with 60 HP and 30 mana. -/
theorem passive_turn_effect_witness :
    (networkFight_iteration (networkFight_start (networkPlayer "C") (networkPlayer "S") false
        [""]
        [some { Typ := PlayerAction, Action := "hit", HitPart := Torso },
         some { Typ := GameStateMsg,
                Player := some { playerToPlayerData (networkPlayer "S") with HP := 60, Mana := 30 } }])).next?.map
          (fun s => (s.opponentPlayer.HP, s.opponentPlayer.Mana, s.myTurn))
      = some (60, 30, true) := by
  obtain ⟨s1, h1, _, h3, h4, _, h6, _⟩ := passive_turn_effect
    (networkFight_start (networkPlayer "C") (networkPlayer "S") false [""]
      [some { Typ := PlayerAction, Action := "hit", HitPart := Torso },
       some { Typ := GameStateMsg,
              Player := some { playerToPlayerData (networkPlayer "S") with HP := 60, Mana := 30 } }])
    { Typ := PlayerAction, Action := "hit", HitPart := Torso }
    { Typ := GameStateMsg,
      Player := some { playerToPlayerData (networkPlayer "S") with HP := 60, Mana := 30 } }
    { playerToPlayerData (networkPlayer "S") with HP := 60, Mana := 30 } [] rfl rfl rfl rfl
  rw [h1]
  simp only [IterResult.next?, Option.map_some', h3, h4, h6]

/-! ## Handshake (C21) -/

/-- C21 does not hold when a side manages its inventory before the fight: the server
answers "y", equips an item and leaves the menu, and so sends a second snapshot before
its `PlayerReady`. The client's wait for readiness receives that snapshot instead of
`PlayerReady` and returns without sending `PlayerReady`; the server's wait for readiness
then fails too, and neither side reaches `networkFight`. When both sides answer "n",
each sends one snapshot and one `PlayerReady` and both reach `networkFight`. -/
theorem handshake_with_inventory_management :
    (runServer ["S", "y", "3", "0", "6", ""]
        [some { Typ := GameStateMsg, Player := some (playerToPlayerData (networkPlayer "C")) }]).sent.map
          (fun m => m.Typ)
      = [GameStateMsg, GameStateMsg, PlayerReady]
    ∧ (runClient ["", "C", "n", ""]
        ((runServer ["S", "y", "3", "0", "6", ""]
          [some { Typ := GameStateMsg,
                  Player := some (playerToPlayerData (networkPlayer "C")) }]).sent.map some)).reachesFight
      = false
    ∧ (runClient ["", "C", "n", ""]
        ((runServer ["S", "y", "3", "0", "6", ""]
          [some { Typ := GameStateMsg,
                  Player := some (playerToPlayerData (networkPlayer "C")) }]).sent.map some)).sent.map
          (fun m => m.Typ)
      = [GameStateMsg]
    ∧ (runServer ["S", "y", "3", "0", "6", ""]
        [some { Typ := GameStateMsg,
                Player := some (playerToPlayerData (networkPlayer "C")) }]).reachesFight
      = false
    ∧ (runServer ["S", "n", ""]
        [some { Typ := GameStateMsg, Player := some (playerToPlayerData (networkPlayer "C")) },
         some { Typ := PlayerReady }]).sent.map (fun m => m.Typ)
      = [GameStateMsg, PlayerReady]
    ∧ (runServer ["S", "n", ""]
        [some { Typ := GameStateMsg, Player := some (playerToPlayerData (networkPlayer "C")) },
         some { Typ := PlayerReady }]).reachesFight
      = true
    ∧ (runClient ["", "C", "n", ""]
        [some { Typ := GameStateMsg, Player := some (playerToPlayerData (networkPlayer "S")) },
         some { Typ := PlayerReady }]).sent.map (fun m => m.Typ)
      = [GameStateMsg, PlayerReady]
    ∧ (runClient ["", "C", "n", ""]
        [some { Typ := GameStateMsg, Player := some (playerToPlayerData (networkPlayer "S")) },
         some { Typ := PlayerReady }]).reachesFight
      = true := by
  decide

/-! ## Out-of-range indices (C22) -/

/-- C22. Out-of-range indices mutate nothing: for `i < 0` or `i ≥ len(Inventory)`,
`Equip(i)` returns the player unchanged; for `i < 0` or `i ≥ len(Equipment)`,
`TakeOff(i)` returns the player unchanged; for `i < 0` or `i ≥ len(Items)`,
`BuyItem(player, i)` returns the player (its gold and inventory) unchanged. Each of them
returns before any slice is indexed. -/
theorem out_of_range_index_no_change (p : Player) (m : Merchant) (i : Int) :
    ((i < 0 ∨ i ≥ p.Inventory.length) → p.Equip i = p)
    ∧ ((i < 0 ∨ i ≥ p.Equipment.length) → p.TakeOff i = p)
    ∧ ((i < 0 ∨ i ≥ m.Items.length) →
        m.BuyItem p i = p ∧ (m.BuyItem p i).Gold = p.Gold
          ∧ (m.BuyItem p i).Inventory = p.Inventory) := by
  refine ⟨?_, ?_, ?_⟩
  · intro h
    simp [Player.Equip, h]
  · intro h
    simp [Player.TakeOff, h]
  · intro h
    simp [Merchant.BuyItem, h]

/-- Witness for `out_of_range_index_no_change`: index 4 with four inventory items, index
0 with no equipment, index -1 at a merchant. -/
theorem out_of_range_index_no_change_witness :
    (createPlayer "A").Equip 4 = createPlayer "A"
    ∧ (createPlayer "A").TakeOff 0 = createPlayer "A"
    ∧ ({ Name := "m", Items := createGameItems, Dialogue := "" } : Merchant).BuyItem
        (createPlayer "A") (-1) = createPlayer "A" :=
  ⟨(out_of_range_index_no_change (createPlayer "A")
      { Name := "m", Items := createGameItems, Dialogue := "" } 4).1 (Or.inr (by decide)),
   (out_of_range_index_no_change (createPlayer "A")
      { Name := "m", Items := createGameItems, Dialogue := "" } 0).2.1 (Or.inr (by decide)),
   ((out_of_range_index_no_change (createPlayer "A")
      { Name := "m", Items := createGameItems, Dialogue := "" } (-1)).2.2
        (Or.inl (by decide))).1⟩

/-! ## Invalid and unaffordable ability choices (C23, C24) -/

/-- C23 does not hold: an ability index out of range is not asked again. In `pvpFight`
the choice ends the action-selection loop after asking for the defended zone, with the
ability-used flag unset and the hit zone at its default Head, so the resolution step
throws that side's melee hit at Head (here `players[1]`, defending Arms, loses 10 HP).
In `networkFight` the choice ends the loop as well, and the turn goes on to send the
snapshot. -/
theorem out_of_range_ability_index_ends_turn :
    (pvpFight_selectStep
        { me := sampleFighter "A" 100, other := sampleFighter "B" 100,
          stdin := ["2", "9", "0", "", "1", "1", "2", ""] } {}).isDone = true
    ∧ (pvpFight_selectStep
        { me := sampleFighter "A" 100, other := sampleFighter "B" 100,
          stdin := ["2", "9", "0", "", "1", "1", "2", ""] } {}).done?.map
          (fun sv => (sv.2.abilityUsed, sv.2.hit, sv.2.block))
      = some (false, Head, Head)
    ∧ (pvpFight_round (pvpFight_start (sampleFighter "A" 100) (sampleFighter "B" 100)
        ["", "2", "9", "0", "", "1", "1", "2", ""])).map (fun s => (s.players0.HP, s.players1.HP))
      = some (90, 90)
    ∧ (networkFight_selectStep
        (networkFight_start (networkPlayer "S") (networkPlayer "C") true ["2", "9", "0"] [])
        {}).isDone = true
    ∧ (networkFight_acting
        (networkFight_start (networkPlayer "S") (networkPlayer "C") true ["2", "9", "0"] [])).map
          (fun s => s.sent.map (fun m => m.Typ))
      = some [GameStateMsg] := by
  decide

/-- C24 does not hold in `fight`: the choice of an ability that costs more mana than the
player has (cost 80, mana 50) is not asked again. `UseAbility` refuses and changes
nothing, but the action-selection loop ends with the ability-used flag set, and the
round advances without any hit. In `pvpFight` and `networkFight` the same choice asks
again. -/
theorem fight_unaffordable_ability_ends_round :
    (fight_selectStep
        (fight_start (.player (sampleNovice "A")) (.enemy { sampleBoss with HP := 50 })
          ["2", "0", "0", ""] [1, 2]) {}).isDone = true
    ∧ (fight_selectStep
        (fight_start (.player (sampleNovice "A")) (.enemy { sampleBoss with HP := 50 })
          ["2", "0", "0", ""] [1, 2]) {}).done?.map (fun sv => sv.2.abilityUsed)
      = some true
    ∧ (fight_round
        (fight_start (.player (sampleNovice "A")) (.enemy { sampleBoss with HP := 50 })
          ["2", "0", "0", ""] [1, 2])).map
          (fun s => (s.round, s.player.GetHP, s.player.GetMana, s.enemy.GetHP))
      = some (2, 100, 50, 50)
    ∧ (pvpFight_selectStep
        { me := sampleNovice "A", other := sampleNovice "B", stdin := ["2", "0", "0", ""] }
        {}).isAgain = true
    ∧ (networkFight_selectStep
        (networkFight_start (sampleNovice "A") (sampleNovice "B") true ["2", "0", "0", ""] [])
        {}).isAgain = true := by
  decide

/-! ## The two variants (C25) -/

theorem V3_Character_SetHP (c : Character) (hp : Int) :
    V3.Character_SetHP c hp = c.SetHP hp := by
  cases c <;> rfl

theorem V3_Character_GetHP (c : Character) : V3.Character_GetHP c = c.GetHP := by
  cases c <;> rfl

/-- C25. The core functions of `src/3ver.go` and `src/4ver.go` agree: for every state and
arguments, `GetStrength`, `SetHP`, `SetMana`, `IsAlive`, `UseAbility` (of `Player` and of
`Enemy`), `Equip`, `TakeOff`, `BuyItem`, `playerToPlayerData` and `playerDataToPlayer` of
the one file give the same resulting state and return value as those of the other. -/
theorem variants_same_core (p : Player) (e : Enemy) (m : Merchant) (pd : PlayerData)
    (ability : Ability) (target : Character) (n i : Int) :
    V3.Player_GetStrength p = p.GetStrength
    ∧ V3.Player_SetHP p n = p.SetHP n
    ∧ V3.Player_SetMana p n = p.SetMana n
    ∧ V3.Player_IsAlive p = p.IsAlive
    ∧ V3.Enemy_SetHP e n = e.SetHP n
    ∧ V3.Enemy_SetMana e n = e.SetMana n
    ∧ V3.Enemy_IsAlive e = e.IsAlive
    ∧ V3.Player_UseAbility p ability target = p.UseAbility ability target
    ∧ V3.Enemy_UseAbility e ability target = e.UseAbility ability target
    ∧ V3.Player_Equip p i = p.Equip i
    ∧ V3.Player_TakeOff p i = p.TakeOff i
    ∧ V3.Merchant_BuyItem m p i = m.BuyItem p i
    ∧ V3.playerToPlayerData p = playerToPlayerData p
    ∧ V3.playerDataToPlayer pd = playerDataToPlayer pd := by
  refine ⟨rfl, rfl, rfl, rfl, rfl, rfl, rfl, ?_, ?_, rfl, rfl, rfl, rfl, rfl⟩
  · unfold V3.Player_UseAbility Player.UseAbility
    simp only [V3_Character_SetHP, V3_Character_GetHP]
    rfl
  · unfold V3.Enemy_UseAbility Enemy.UseAbility
    simp only [V3_Character_SetHP, V3_Character_GetHP]
    rfl

/-! ## Melee in network mode (C26) -/

theorem networkFight_select_melee (s : NetState) (v : TurnVars) (rest stdin2 stdin3 : List String)
    (hit block : BodyPart)
    (hin : s.stdin = "1" :: rest) (hh : Player.Hit rest = some (hit, stdin2))
    (hb : Player.Block stdin2 = some (block, stdin3)) :
    networkFight_selectStep s v
      = .done ({ s with stdin := stdin3, sent := s.sent ++
          [{ Typ := PlayerAction, Action := "hit", HitPart := hit, BlockPart := block,
             AbilityID := v.myAbilityID, ItemID := v.myItemID }] },
          { v with myHit := hit, myBlock := block, abilityUsed := false }) := by
  unfold networkFight_selectStep
  simp only [hin, readLine]
  simp [hh, hb]

/-- A pass of the action selection of `networkFight` that asks again (inventory,
equipment, chat, a refused ability, an unknown choice) leaves both players and the
turn's variables as they were. -/
theorem networkFight_selectStep_again (s : NetState) (v : TurnVars) (s1 : NetState)
    (v1 : TurnVars) (h : networkFight_selectStep s v = .again (s1, v1)) :
    s1.myPlayer = s.myPlayer ∧ s1.opponentPlayer = s.opponentPlayer ∧ v1 = v := by
  unfold networkFight_selectStep at h
  simp only [] at h
  repeat' split at h
  all_goals first
    | exact absurd h (abilityBlock_not_again _ _ _)
    | (simp only [LoopStep.again.injEq, Prod.mk.injEq] at h
       obtain ⟨hs, hv⟩ := h
       subst hs
       subst hv
       exact ⟨rfl, rfl, rfl⟩)
    | simp at h

/-- A pass that reads menu choice 1 and ends the selection leaves both players as they
were. -/
theorem networkFight_selectStep_melee (s : NetState) (v : TurnVars) (r : NetState × TurnVars)
    (hin : (readLine s.stdin).1 = "1") (h : networkFight_selectStep s v = .done r) :
    r.1.myPlayer = s.myPlayer ∧ r.1.opponentPlayer = s.opponentPlayer
    ∧ r.2.abilityUsed = false := by
  unfold networkFight_selectStep at h
  simp only [hin, if_true] at h
  split at h
  · simp at h
  · split at h
    · simp at h
    · simp only [LoopStep.done.injEq] at h
      rw [← h]
      exact ⟨rfl, rfl, rfl⟩

/-- A completed action selection whose concluding choice is melee leaves both players as
they were, whatever passes came before. -/
theorem networkFight_selectLoop_melee (fuel : Nat) (s : NetState) (v : TurnVars)
    (r : NetState × TurnVars) (h : networkFight_selectLoop fuel s v = some r)
    (hc : networkFight_selectChoice fuel s v = some "1") :
    r.1.myPlayer = s.myPlayer ∧ r.1.opponentPlayer = s.opponentPlayer
    ∧ r.2.abilityUsed = false := by
  induction fuel generalizing s v with
  | zero => simp [networkFight_selectLoop] at h
  | succ n ih =>
    unfold networkFight_selectLoop at h
    unfold networkFight_selectChoice at hc
    by_cases he : s.stdin = []
    · simp [he] at h
    · simp only [he, if_false] at h hc
      cases hstep : networkFight_selectStep s v with
      | again sv =>
        obtain ⟨s1, v1⟩ := sv
        rw [hstep] at h hc
        simp only [] at h hc
        have hf := networkFight_selectStep_again s v s1 v1 hstep
        have h2 := ih s1 v1 h hc
        exact ⟨h2.1.trans hf.1, h2.2.1.trans hf.2.1, h2.2.2⟩
      | done sv =>
        rw [hstep] at h hc
        simp only [Option.some.injEq] at h hc
        subst h
        exact networkFight_selectStep_melee s v sv hc hstep
      | hang =>
        rw [hstep] at h
        simp at h

/-- The concluding choice is defined exactly when the action selection ends. -/
theorem networkFight_selectChoice_isSome (fuel : Nat) (s : NetState) (v : TurnVars) :
    (networkFight_selectChoice fuel s v).isSome = (networkFight_selectLoop fuel s v).isSome := by
  induction fuel generalizing s v with
  | zero => rfl
  | succ n ih =>
    unfold networkFight_selectLoop networkFight_selectChoice
    by_cases he : s.stdin = []
    · simp [he]
    · simp only [he, if_false]
      cases hstep : networkFight_selectStep s v with
      | again sv =>
        obtain ⟨s1, v1⟩ := sv
        exact ih s1 v1
      | done sv => rfl
      | hang => rfl

/-- An acting turn whose concluding choice is melee leaves both players as they were. -/
theorem networkFight_acting_melee (s s1 : NetState) (h : networkFight_acting s = some s1)
    (hc : networkFight_actingChoice s = some "1") :
    s1.myPlayer = s.myPlayer ∧ s1.opponentPlayer = s.opponentPlayer := by
  unfold networkFight_acting at h
  split at h
  · simp at h
  · rename_i s2 v2 heq
    simp only [Option.some.injEq] at h
    rw [← h]
    have h2 := networkFight_selectLoop_melee _ s {} (s2, v2) heq hc
    exact ⟨h2.1, h2.2.1⟩

/-- C26. Melee deals no damage in network mode. An acting turn of `networkFight` whose
action is melee (the choice that ends the action selection is menu choice 1) leaves both
the local player and the opponent mirror unchanged, HP and mana included, for all hit and
block zones and whatever passes through the menu, the chat or a refused ability came
before: a pass that asks again changes neither player, and the melee pass only reads the
two zones and sends the action. The same holds of the whole iteration of the loop. When
the first line is choice 1 the turn completes and sends the action and the snapshot. On
the passive side the state after the turn is the same for every content of the received
action message. -/
theorem network_melee_no_damage (s : NetState) (rest stdin2 stdin3 : List String)
    (hit block : BodyPart) (first other : GameMessage) (msgs : List (Option GameMessage)) :
    (s.stdin = "1" :: rest → Player.Hit rest = some (hit, stdin2) →
      Player.Block stdin2 = some (block, stdin3) →
      ∃ s1, networkFight_acting s = some s1
        ∧ s1.myPlayer = s.myPlayer ∧ s1.opponentPlayer = s.opponentPlayer
        ∧ s1.myPlayer.HP = s.myPlayer.HP ∧ s1.myPlayer.Mana = s.myPlayer.Mana
        ∧ s1.opponentPlayer.HP = s.opponentPlayer.HP
        ∧ s1.opponentPlayer.Mana = s.opponentPlayer.Mana
        ∧ s1.sent = s.sent ++
            [{ Typ := PlayerAction, Action := "hit", HitPart := hit, BlockPart := block,
               AbilityID := -1, ItemID := -1 },
             { Typ := GameStateMsg, Player := some (playerToPlayerData s.myPlayer) }])
    ∧ (∀ (v : TurnVars) (s1 : NetState) (v1 : TurnVars),
        networkFight_selectStep s v = .again (s1, v1) →
        s1.myPlayer = s.myPlayer ∧ s1.opponentPlayer = s.opponentPlayer ∧ v1 = v)
    ∧ (∀ s1 : NetState, networkFight_acting s = some s1 →
        networkFight_actingChoice s = some "1" →
        s1.myPlayer = s.myPlayer ∧ s1.opponentPlayer = s.opponentPlayer
        ∧ s1.myPlayer.HP = s.myPlayer.HP ∧ s1.myPlayer.Mana = s.myPlayer.Mana
        ∧ s1.opponentPlayer.HP = s.opponentPlayer.HP
        ∧ s1.opponentPlayer.Mana = s.opponentPlayer.Mana)
    ∧ (∀ s2 : NetState, s.myTurn = true → networkFight_iteration s = .next s2 →
        networkFight_actingChoice s = some "1" →
        s2.myPlayer = s.myPlayer ∧ s2.opponentPlayer = s.opponentPlayer
        ∧ s2.myPlayer.HP = s.myPlayer.HP ∧ s2.myPlayer.Mana = s.myPlayer.Mana
        ∧ s2.opponentPlayer.HP = s.opponentPlayer.HP
        ∧ s2.opponentPlayer.Mana = s.opponentPlayer.Mana)
    ∧ (networkFight_actingChoice s).isSome = (networkFight_acting s).isSome
    ∧ networkFight_passive { s with incoming := some first :: msgs }
        = networkFight_passive { s with incoming := some other :: msgs }
    ∧ (s.myTurn = false →
        networkFight_iteration { s with incoming := some first :: msgs }
          = networkFight_iteration { s with incoming := some other :: msgs }) := by
  refine ⟨?_, ?_, ?_, ?_, ?_, ?_, ?_⟩
  · intro hin hh hb
    have hne : s.stdin ≠ [] := by rw [hin]; simp
    have hlen : s.stdin.length = rest.length + 1 := by rw [hin]; rfl
    have hstep := networkFight_select_melee s {} rest stdin2 stdin3 hit block hin hh hb
    have hacting : networkFight_acting s
        = some { s with stdin := stdin3, sent := (s.sent ++
            [{ Typ := PlayerAction, Action := "hit", HitPart := hit, BlockPart := block,
               AbilityID := -1, ItemID := -1 }]) ++
            [{ Typ := GameStateMsg, Player := some (playerToPlayerData s.myPlayer) }] } := by
      unfold networkFight_acting
      rw [hlen, networkFight_selectLoop]
      simp only [hne, if_false, hstep]
    refine ⟨_, hacting, rfl, rfl, rfl, rfl, rfl, rfl, ?_⟩
    simp
  · intro v s1 v1 h
    exact networkFight_selectStep_again s v s1 v1 h
  · intro s1 h hc
    obtain ⟨hm, ho⟩ := networkFight_acting_melee s s1 h hc
    exact ⟨hm, ho, by rw [hm], by rw [hm], by rw [ho], by rw [ho]⟩
  · intro s2 hturn h hc
    unfold networkFight_iteration at h
    rw [if_pos hturn] at h
    split at h
    · simp at h
    · rename_i s1 hs1
      simp only [IterResult.next.injEq] at h
      obtain ⟨hm, ho⟩ := networkFight_acting_melee s s1 hs1 hc
      have he := endTurn_players s1
      rw [h] at he
      have hm2 : s2.myPlayer = s.myPlayer := he.1.trans hm
      have ho2 : s2.opponentPlayer = s.opponentPlayer := he.2.1.trans ho
      exact ⟨hm2, ho2, by rw [hm2], by rw [hm2], by rw [ho2], by rw [ho2]⟩
  · unfold networkFight_actingChoice networkFight_acting
    rw [networkFight_selectChoice_isSome]
    cases networkFight_selectLoop s.stdin.length s {} with
    | none => rfl
    | some r => rfl
  · simp [networkFight_passive, decode]
  · intro hturn
    simp [networkFight_iteration, hturn, networkFight_passive, decode]

/-- Witness for `network_melee_no_damage`: the server hits Torso and defends Head at
once; and a turn that opens the inventory and the equipment, chats, is refused an
ability and mistypes before the same melee action leaves HP and mana as they were. -/
theorem network_melee_no_damage_witness :
    (networkFight_acting sampleServerStart).map
        (fun s => (s.myPlayer.HP, s.myPlayer.Mana, s.opponentPlayer.HP, s.opponentPlayer.Mana))
      = some (100, 50, 100, 50)
    ∧ networkFight_actingChoice sampleBusyTurn = some "1"
    ∧ (networkFight_acting sampleBusyTurn).map
        (fun s => (s.myPlayer.HP, s.myPlayer.Mana, s.opponentPlayer.HP, s.opponentPlayer.Mana))
      = some (100, 0, 100, 50) := by
  refine ⟨?_, by decide, ?_⟩
  · obtain ⟨s1, h1, _, _, h4, h5, h6, h7, _⟩ :=
      (network_melee_no_damage sampleServerStart ["1", "0", "", ""] ["0", "", ""] ["", ""]
        1 0 { Typ := PlayerAction } { Typ := PlayerAction } []).1 rfl (by decide) (by decide)
    rw [h1]
    simp only [Option.map_some', h4, h5, h6, h7]
    decide
  · have hsome : (networkFight_acting sampleBusyTurn).isSome = true := by decide
    obtain ⟨s1, h1⟩ := Option.isSome_iff_exists.mp hsome
    obtain ⟨_, _, h4, h5, h6, h7⟩ :=
      (network_melee_no_damage sampleBusyTurn [] [] [] 0 0 { Typ := PlayerAction }
        { Typ := PlayerAction } []).2.2.1 s1 h1 (by decide)
    rw [h1]
    simp only [Option.map_some', h4, h5, h6, h7]
    decide

/-! ## Item action in PvP: the action selection -/

theorem pvpFight_abilityBlock_not_again (s : PvpSelect) (v : PvpVars) (sv : PvpSelect × PvpVars) :
    pvpFight_abilityBlock s v ≠ .again sv := by
  unfold pvpFight_abilityBlock
  split
  · split <;> simp
  · simp

/-- A pass of the action selection of `pvpFight` that asks again leaves the round's
variables as they were. -/
theorem pvpFight_selectStep_again_vars (s : PvpSelect) (v : PvpVars) (s1 : PvpSelect)
    (v1 : PvpVars) (h : pvpFight_selectStep s v = .again (s1, v1)) : v1 = v := by
  unfold pvpFight_selectStep at h
  simp only [] at h
  repeat' split at h
  all_goals first
    | exact absurd h (pvpFight_abilityBlock_not_again _ _ _)
    | (simp only [LoopStep.again.injEq, Prod.mk.injEq] at h
       exact h.2.symm)
    | simp at h

/-- A completed action selection of `pvpFight` ends with a pass that starts from the
variables the loop started with. -/
theorem pvpFight_selectLoop_last (fuel : Nat) (s : PvpSelect) (v : PvpVars)
    (r : PvpSelect × PvpVars) (h : pvpFight_selectLoop fuel s v = some r) :
    ∃ s' : PvpSelect, pvpFight_selectStep s' v = .done r := by
  induction fuel generalizing s with
  | zero => simp [pvpFight_selectLoop] at h
  | succ n ih =>
    unfold pvpFight_selectLoop at h
    split at h
    · simp at h
    · split at h
      · rename_i s1 v1 heq
        have hv := pvpFight_selectStep_again_vars s v s1 v1 heq
        subst hv
        exact ih s1 h
      · rename_i s1 v1 heq
        simp only [Option.some.injEq] at h
        subst h
        exact ⟨s, heq⟩
      · simp at h

theorem pvpFight_select_item (s : PvpSelect) (v : PvpVars) (rest : List String)
    (hin : s.stdin = "5" :: rest) :
    (pvpFight_selectStep s v).All (fun sv => sv.2.abilityUsed = false ∧ sv.2.hit = v.hit)
    ∧ (pvpFight_selectStep s v).isAgain = false := by
  have h1 : ¬ ("5" = "1") := by decide
  have h2 : ¬ ("5" = "2") := by decide
  have h3 : ¬ ("5" = "3") := by decide
  have h4 : ¬ ("5" = "4") := by decide
  unfold pvpFight_selectStep
  simp only [hin, readLine, h1, h2, h3, h4, if_false, if_true]
  split <;> simp [LoopStep.All, LoopStep.isAgain]

/-! ## Snapshots and buffs (C28) -/

/-- C28. The snapshot conversion drops the buff accumulators: the player rebuilt by
`playerDataToPlayer (playerToPlayerData p)` has `AttackBuff = 0` and `DefenseBuff = 0`,
its strength is `p.GetStrength() - p.ActiveBuffs.AttackBuff`, and the two strengths are
equal exactly when `p.ActiveBuffs.AttackBuff = 0`. -/
theorem snapshot_drops_buffs (p : Player) :
    (playerDataToPlayer (playerToPlayerData p)).ActiveBuffs.AttackBuff = 0
    ∧ (playerDataToPlayer (playerToPlayerData p)).ActiveBuffs.DefenseBuff = 0
    ∧ (playerDataToPlayer (playerToPlayerData p)).GetStrength
        = p.GetStrength - p.ActiveBuffs.AttackBuff
    ∧ ((playerDataToPlayer (playerToPlayerData p)).GetStrength = p.GetStrength
        ↔ p.ActiveBuffs.AttackBuff = 0) := by
  have hs : (playerDataToPlayer (playerToPlayerData p)).GetStrength
      = p.GetStrength - p.ActiveBuffs.AttackBuff := by
    rw [GetStrength_eq, GetStrength_eq]
    simp only [playerDataToPlayer, playerToPlayerData]
    ring
  refine ⟨rfl, rfl, hs, ?_⟩
  rw [hs]
  constructor <;> intro h <;> omega

/-! ## Consumables and conservation of items (C29, C30) -/

/-- `Equip` on an index in range, case by case. -/
theorem Equip_in_range (p : Player) (i : Int) (h : ¬ (i < 0 ∨ i ≥ p.Inventory.length)) :
    p.Equip i =
      (if (p.Inventory.get ⟨i.toNat, by omega⟩).Typ = Consumable then
        { p with
          HP := min (p.HP + (p.Inventory.get ⟨i.toNat, by omega⟩).PlusHP) p.MaxHP,
          Mana := min (p.Mana + (p.Inventory.get ⟨i.toNat, by omega⟩).PlusMana) p.MaxMana,
          Inventory := p.Inventory.eraseIdx i.toNat }
      else if p.Equipment.any
          (fun equipped => decide (equipped.Typ = (p.Inventory.get ⟨i.toNat, by omega⟩).Typ)) then
        p
      else
        { p with
          Inventory := p.Inventory.eraseIdx i.toNat,
          Equipment := p.Equipment ++ [p.Inventory.get ⟨i.toNat, by omega⟩] }) := by
  unfold Player.Equip
  rw [dif_neg h]
  simp only [SetHP_eq, SetMana_eq, List.eraseIdx_eq_take_drop_succ]

/-- `TakeOff` on an index in range. -/
theorem TakeOff_in_range (p : Player) (i : Int) (h : ¬ (i < 0 ∨ i ≥ p.Equipment.length)) :
    p.TakeOff i =
      { p with
        Equipment := p.Equipment.eraseIdx i.toNat,
        Inventory := p.Inventory ++ [p.Equipment.get ⟨i.toNat, by omega⟩] } := by
  unfold Player.TakeOff
  rw [dif_neg h]
  simp only [List.eraseIdx_eq_take_drop_succ]

/-- C29. Using a consumable: for an index `i` in range whose inventory item is a
consumable, `Equip(i)` sets HP to `min (HP + PlusHP) MaxHP` and mana to
`min (Mana + PlusMana) MaxMana`, removes exactly the item at index `i` from the
inventory (the other items keep their order), and leaves the equipment, the gold,
`MaxHP`, `MaxMana` and the buff accumulators unchanged. -/
theorem consumable_use (p : Player) (i : Int) (h : ¬ (i < 0 ∨ i ≥ p.Inventory.length))
    (hc : (p.Inventory.get ⟨i.toNat, by omega⟩).Typ = Consumable) :
    (p.Equip i).HP = min (p.HP + (p.Inventory.get ⟨i.toNat, by omega⟩).PlusHP) p.MaxHP
    ∧ (p.Equip i).Mana = min (p.Mana + (p.Inventory.get ⟨i.toNat, by omega⟩).PlusMana) p.MaxMana
    ∧ (p.Equip i).Inventory = p.Inventory.eraseIdx i.toNat
    ∧ (p.Equip i).Inventory = p.Inventory.take i.toNat ++ p.Inventory.drop (i.toNat + 1)
    ∧ (p.Equip i).Inventory.length + 1 = p.Inventory.length
    ∧ (p.Equip i).Equipment = p.Equipment
    ∧ (p.Equip i).Gold = p.Gold
    ∧ (p.Equip i).MaxHP = p.MaxHP
    ∧ (p.Equip i).MaxMana = p.MaxMana
    ∧ (p.Equip i).ActiveBuffs = p.ActiveBuffs := by
  have hlt : i.toNat < p.Inventory.length := by omega
  have heq : p.Equip i =
      { p with
        HP := min (p.HP + (p.Inventory.get ⟨i.toNat, by omega⟩).PlusHP) p.MaxHP,
        Mana := min (p.Mana + (p.Inventory.get ⟨i.toNat, by omega⟩).PlusMana) p.MaxMana,
        Inventory := p.Inventory.eraseIdx i.toNat } := by
    rw [Equip_in_range p i h, if_pos hc]
  rw [heq]
  refine ⟨rfl, rfl, rfl, List.eraseIdx_eq_take_drop_succ _ _, ?_, rfl, rfl, rfl, rfl, rfl⟩
  show (p.Inventory.eraseIdx i.toNat).length + 1 = p.Inventory.length
  rw [List.length_eraseIdx, if_pos hlt]
  omega

/-- Witness for `consumable_use`: the starting character at 90 HP drinks the small
health potion (index 2, +20 HP) and is back at 100 HP with three items left. -/
theorem consumable_use_witness :
    (({ createPlayer "A" with HP := 90 } : Player).Equip 2).HP = 100
    ∧ (({ createPlayer "A" with HP := 90 } : Player).Equip 2).Inventory.length + 1 = 4 :=
  have h := consumable_use { createPlayer "A" with HP := 90 } 2 (by decide) (by decide)
  ⟨h.1.trans (by decide), h.2.2.2.2.1⟩

theorem perm_cons_eraseIdx {α : Type} (l : List α) (n : Nat) (h : n < l.length) :
    (l.get ⟨n, h⟩ :: l.eraseIdx n).Perm l := by
  induction l generalizing n with
  | nil => simp at h
  | cons a rest ih =>
    cases n with
    | zero => simp
    | succ m =>
      have hm : m < rest.length := by simpa using h
      simp only [List.get_eq_getElem, List.getElem_cons_succ, List.eraseIdx_cons_succ]
      have := ih m hm
      simp only [List.get_eq_getElem] at this
      exact (List.Perm.swap a rest[m] (rest.eraseIdx m)).trans (this.cons a)

/-- C30. Items are conserved by equipping. `Equip(i)` on an item that is not a
consumable (or with `i` out of range) and `TakeOff(i)` either leave the inventory and
the equipment unchanged or move exactly one item, the one at index `i`, from one list
to the end of the other, so the items of `Inventory ++ Equipment` are the same up to
order. When `Equip(i)` accepts the item, a following `TakeOff` of the last equipment
index restores the equipment exactly and gives the original inventory with item `i`
moved to its end. -/
theorem items_conserved (p : Player) (i : Int) :
    ((∀ h : ¬ (i < 0 ∨ i ≥ p.Inventory.length),
        (p.Inventory.get ⟨i.toNat, by omega⟩).Typ ≠ Consumable) →
      (((p.Equip i).Inventory = p.Inventory ∧ (p.Equip i).Equipment = p.Equipment)
        ∨ ∃ h : ¬ (i < 0 ∨ i ≥ p.Inventory.length),
            (p.Equip i).Inventory = p.Inventory.eraseIdx i.toNat
            ∧ (p.Equip i).Equipment = p.Equipment ++ [p.Inventory.get ⟨i.toNat, by omega⟩])
      ∧ ((p.Equip i).Inventory ++ (p.Equip i).Equipment).Perm (p.Inventory ++ p.Equipment))
    ∧ (((p.TakeOff i).Inventory = p.Inventory ∧ (p.TakeOff i).Equipment = p.Equipment)
        ∨ ∃ h : ¬ (i < 0 ∨ i ≥ p.Equipment.length),
            (p.TakeOff i).Equipment = p.Equipment.eraseIdx i.toNat
            ∧ (p.TakeOff i).Inventory = p.Inventory ++ [p.Equipment.get ⟨i.toNat, by omega⟩])
    ∧ ((p.TakeOff i).Inventory ++ (p.TakeOff i).Equipment).Perm (p.Inventory ++ p.Equipment)
    ∧ (∀ h : ¬ (i < 0 ∨ i ≥ p.Inventory.length),
        (p.Inventory.get ⟨i.toNat, by omega⟩).Typ ≠ Consumable →
        p.Equipment.any
            (fun equipped => decide (equipped.Typ = (p.Inventory.get ⟨i.toNat, by omega⟩).Typ))
          = false →
        (p.Equip i).Equipment = p.Equipment ++ [p.Inventory.get ⟨i.toNat, by omega⟩]
        ∧ ((p.Equip i).TakeOff ((p.Equip i).Equipment.length - 1)).Equipment = p.Equipment
        ∧ ((p.Equip i).TakeOff ((p.Equip i).Equipment.length - 1)).Inventory
            = p.Inventory.eraseIdx i.toNat ++ [p.Inventory.get ⟨i.toNat, by omega⟩]) := by
  refine ⟨?_, ?_, ?_, ?_⟩
  · intro hnc
    by_cases h : i < 0 ∨ i ≥ p.Inventory.length
    · have he : p.Equip i = p := by simp [Player.Equip, h]
      rw [he]
      exact ⟨Or.inl ⟨rfl, rfl⟩, List.Perm.refl _⟩
    · have hlt : i.toNat < p.Inventory.length := by omega
      rw [Equip_in_range p i h, if_neg (hnc h)]
      by_cases hany : p.Equipment.any
          (fun equipped => decide (equipped.Typ = (p.Inventory.get ⟨i.toNat, by omega⟩).Typ)) = true
      · rw [if_pos hany]
        exact ⟨Or.inl ⟨rfl, rfl⟩, List.Perm.refl _⟩
      · rw [if_neg hany]
        refine ⟨Or.inr ⟨h, rfl, rfl⟩, ?_⟩
        show (p.Inventory.eraseIdx i.toNat
            ++ (p.Equipment ++ [p.Inventory.get ⟨i.toNat, hlt⟩])).Perm (p.Inventory ++ p.Equipment)
        have h1 := perm_cons_eraseIdx p.Inventory i.toNat hlt
        have h2 : (p.Inventory.eraseIdx i.toNat
            ++ (p.Equipment ++ [p.Inventory.get ⟨i.toNat, hlt⟩])).Perm
            (p.Inventory.get ⟨i.toNat, hlt⟩ :: p.Inventory.eraseIdx i.toNat ++ p.Equipment) := by
          rw [← List.append_assoc]
          exact List.perm_append_singleton _ _
        exact h2.trans (h1.append_right _)
  · by_cases h : i < 0 ∨ i ≥ p.Equipment.length
    · have he : p.TakeOff i = p := by simp [Player.TakeOff, h]
      rw [he]
      exact Or.inl ⟨rfl, rfl⟩
    · rw [TakeOff_in_range p i h]
      exact Or.inr ⟨h, rfl, rfl⟩
  · by_cases h : i < 0 ∨ i ≥ p.Equipment.length
    · have he : p.TakeOff i = p := by simp [Player.TakeOff, h]
      rw [he]
    · have hlt : i.toNat < p.Equipment.length := by omega
      rw [TakeOff_in_range p i h]
      show (p.Inventory ++ [p.Equipment.get ⟨i.toNat, hlt⟩]
          ++ p.Equipment.eraseIdx i.toNat).Perm (p.Inventory ++ p.Equipment)
      rw [List.append_assoc]
      exact (perm_cons_eraseIdx p.Equipment i.toNat hlt).append_left _
  · intro h hnc hany
    have heq : p.Equip i =
        { p with
          Inventory := p.Inventory.eraseIdx i.toNat,
          Equipment := p.Equipment ++ [p.Inventory.get ⟨i.toNat, by omega⟩] } := by
      rw [Equip_in_range p i h, if_neg hnc, hany]
      rfl
    rw [heq]
    have hidx : ¬ ((((p.Equipment ++ [p.Inventory.get ⟨i.toNat, by omega⟩]).length : Int) - 1) < 0
        ∨ (((p.Equipment ++ [p.Inventory.get ⟨i.toNat, by omega⟩]).length : Int) - 1)
            ≥ (p.Equipment ++ [p.Inventory.get ⟨i.toNat, by omega⟩]).length) := by
      simp only [List.length_append, List.length_singleton]
      omega
    have hnat : ((((p.Equipment ++ [p.Inventory.get ⟨i.toNat, by omega⟩]).length : Int) - 1)).toNat
        = p.Equipment.length := by
      simp only [List.length_append, List.length_singleton]
      omega
    refine ⟨rfl, ?_, ?_⟩
    · rw [TakeOff_in_range _ _ hidx]
      simp only [hnat]
      simp [List.eraseIdx_append_of_length_le]
    · rw [TakeOff_in_range _ _ hidx]
      simp only [hnat]
      simp

/-- Witness for `items_conserved`: the starting character equips the sword (index 0)
and takes it off again; the equipment is empty as before and the sword is at the end of
the inventory. -/
theorem items_conserved_witness :
    (((createPlayer "A").Equip 0).TakeOff (((createPlayer "A").Equip 0).Equipment.length - 1)).Equipment
      = []
    ∧ (((createPlayer "A").Equip 0).TakeOff
        (((createPlayer "A").Equip 0).Equipment.length - 1)).Inventory
      = [getStartingInventory.get ⟨1, by decide⟩, getStartingInventory.get ⟨2, by decide⟩,
         getStartingInventory.get ⟨3, by decide⟩, getStartingInventory.get ⟨0, by decide⟩] :=
  have h := (items_conserved (createPlayer "A") 0).2.2.2 (by decide) (by decide) (by decide)
  ⟨h.2.1, h.2.2.trans (by decide)⟩

/-! ## The local players of the program -/

theorem createAbilities_cost :
    ∀ a ∈ createAbilities, 0 ≤ a.ManaCost ∧ 0 ≤ a.BuffAttack := by
  decide

theorem createGameItems_attack : ∀ item ∈ createGameItems, 0 ≤ item.Attack := by
  decide

theorem getStartingInventory_attack : ∀ item ∈ getStartingInventory, 0 ≤ item.Attack := by
  decide

theorem weaponAttack_nonneg (items : List Item) (h : ∀ item ∈ items, 0 ≤ item.Attack) :
    0 ≤ weaponAttack items := by
  unfold weaponAttack
  apply List.sum_nonneg
  intro x hx
  simp only [List.mem_map, List.mem_filter] at hx
  obtain ⟨it, ⟨hm, _⟩, rfl⟩ := hx
  exact h it hm

/-- A sound player has an effective strength of at least 10. -/
theorem Sound_strength (p : Player) (h : p.Sound) : 10 ≤ p.GetStrength := by
  rw [GetStrength_eq]
  obtain ⟨_, _, hb, ha, _, he, _⟩ := h
  have := weaponAttack_nonneg _ he
  omega

theorem createPlayer_Sound (name : String) : (createPlayer name).Sound := by
  refine ⟨le_refl _, le_refl _, rfl, le_refl _, getStartingInventory_attack, ?_, ?_⟩
  · intro item h
    simp [createPlayer] at h
  · intro a h
    simp [createPlayer] at h

theorem SetHP_Sound (p : Player) (hp : Int) (h : p.Sound) : (p.SetHP hp).Sound := by
  rw [SetHP_eq]
  exact ⟨min_le_right _ _, h.2⟩

theorem SetMana_Sound (p : Player) (mana : Int) (h : p.Sound) : (p.SetMana mana).Sound := by
  rw [SetMana_eq]
  exact ⟨h.1, min_le_right _ _, h.2.2⟩

theorem Equip_Sound (p : Player) (i : Int) (h : p.Sound) : (p.Equip i).Sound := by
  obtain ⟨h1, h2, h3, h4, h5, h6, h7⟩ := h
  have hsub : ∀ (n : Nat), ∀ item ∈ p.Inventory.take n ++ p.Inventory.drop (n + 1),
      0 ≤ item.Attack := fun n item hm => h5 item ((take_drop_sublist _ n).subset hm)
  unfold Player.Equip
  split
  · exact ⟨h1, h2, h3, h4, h5, h6, h7⟩
  · simp only []
    split
    · rw [SetMana_eq, SetHP_eq]
      exact ⟨min_le_right _ _, min_le_right _ _, h3, h4, hsub _, h6, h7⟩
    · split
      · exact ⟨h1, h2, h3, h4, h5, h6, h7⟩
      · refine ⟨h1, h2, h3, h4, hsub _, ?_, h7⟩
        intro item hm
        simp only [List.mem_append, List.mem_singleton] at hm
        rcases hm with hm | hm
        · exact h6 item hm
        · rw [hm]
          exact h5 _ (List.get_mem _ _ _)

theorem TakeOff_Sound (p : Player) (i : Int) (h : p.Sound) : (p.TakeOff i).Sound := by
  obtain ⟨h1, h2, h3, h4, h5, h6, h7⟩ := h
  by_cases hr : i < 0 ∨ i ≥ p.Equipment.length
  · unfold Player.TakeOff
    rw [dif_pos hr]
    exact ⟨h1, h2, h3, h4, h5, h6, h7⟩
  · rw [TakeOff_in_range p i hr]
    refine ⟨h1, h2, h3, h4, ?_, fun item hm => h6 item (List.mem_of_mem_eraseIdx hm), h7⟩
    intro item hm
    simp only [List.mem_append, List.mem_singleton] at hm
    rcases hm with hm | hm
    · exact h5 item hm
    · rw [hm]
      exact h6 _ (List.get_mem _ _ _)

theorem BuyItem_Sound (p : Player) (i : Int) (h : p.Sound) : (storyMerchant.BuyItem p i).Sound := by
  obtain ⟨h1, h2, h3, h4, h5, h6, h7⟩ := h
  unfold Merchant.BuyItem
  split
  · exact ⟨h1, h2, h3, h4, h5, h6, h7⟩
  · simp only []
    split
    · exact ⟨h1, h2, h3, h4, h5, h6, h7⟩
    · refine ⟨h1, h2, h3, h4, ?_, h6, h7⟩
      intro item hm
      simp only [List.mem_append, List.mem_singleton] at hm
      rcases hm with hm | hm
      · exact h5 item hm
      · rw [hm]
        exact createGameItems_attack _ (List.get_mem _ _ _)

/-- The caster stays sound when the ability costs no negative mana and gives no negative
attack buff. -/
theorem UseAbility_Sound (p : Player) (ability : Ability) (target : Character) (h : p.Sound)
    (hc : 0 ≤ ability.ManaCost) (hb : 0 ≤ ability.BuffAttack) :
    (p.UseAbility ability target).2.1.Sound := by
  obtain ⟨h1, h2, h3, h4, h5, h6, h7⟩ := h
  unfold Player.UseAbility
  split
  · exact ⟨h1, h2, h3, h4, h5, h6, h7⟩
  · simp only []
    split
    · exact ⟨h1, by simp only []; omega, h3, h4, h5, h6, h7⟩
    · split
      · rw [SetHP_eq]
        exact ⟨min_le_right _ _, by simp only []; omega, h3, h4, h5, h6, h7⟩
      · split
        · exact ⟨h1, by simp only []; omega, h3, by simp only []; omega, h5, h6, h7⟩
        · exact ⟨h1, by simp only []; omega, h3, h4, h5, h6, h7⟩

theorem applyEvent_Sound (p : Player) (ev : PlayerEvent) (h : p.Sound) :
    (p.applyEvent ev).Sound := by
  cases ev with
  | learn i =>
    obtain ⟨h1, h2, h3, h4, h5, h6, h7⟩ := h
    refine ⟨h1, h2, h3, h4, h5, h6, ?_⟩
    intro a hm
    simp only [Player.applyEvent, List.mem_append, List.mem_singleton] at hm
    rcases hm with hm | hm
    · exact h7 a hm
    · rw [hm]
      exact List.get_mem _ _ _
  | buy i => exact BuyItem_Sound p i h
  | loot i =>
    obtain ⟨h1, h2, h3, h4, h5, h6, h7⟩ := h
    refine ⟨h1, h2, h3, h4, ?_, h6, h7⟩
    intro item hm
    simp only [Player.applyEvent, List.mem_append, List.mem_singleton] at hm
    rcases hm with hm | hm
    · exact h5 item hm
    · rw [hm]
      exact createGameItems_attack _ (List.get_mem _ _ _)
  | gold amount => exact h
  | setHP hp => exact SetHP_Sound p hp h
  | setMana mana => exact SetMana_Sound p mana h
  | equip i => exact Equip_Sound p i h
  | takeOff i => exact TakeOff_Sound p i h
  | cast idx target =>
    simp only [Player.applyEvent]
    split
    · rename_i hlt
      have hmem := h.2.2.2.2.2.2 _ (List.get_mem p.Abilities idx hlt)
      have hcat := createAbilities_cost _ hmem
      exact UseAbility_Sound p _ target h hcat.1 hcat.2
    · exact h

theorem foldl_applyEvent_Sound (events : List PlayerEvent) (p : Player) (h : p.Sound) :
    (events.foldl Player.applyEvent p).Sound := by
  induction events generalizing p with
  | nil => exact h
  | cons ev rest ih => exact ih _ (applyEvent_Sound p ev h)

/-- Every local player of the program is sound. -/
theorem localPlayer_Sound (name : String) (events : List PlayerEvent) :
    (localPlayer name events).Sound :=
  foldl_applyEvent_Sound events _ (createPlayer_Sound name)

theorem Reachable_Sound (p : Player) (h : p.Reachable) : p.Sound := by
  obtain ⟨name, events, rfl⟩ := h
  exact localPlayer_Sound name events

/-- The effective strength of a local player is at least 10, so Go's truncating division
by 2 is the floor. -/
theorem localPlayer_strength (name : String) (events : List PlayerEvent) :
    10 ≤ (localPlayer name events).GetStrength
    ∧ Int.tdiv (localPlayer name events).GetStrength 2
        = Int.fdiv (localPlayer name events).GetStrength 2 := by
  have h := Sound_strength _ (localPlayer_Sound name events)
  exact ⟨h, (Int.fdiv_eq_tdiv (by omega) (by decide)).symm⟩

theorem Reachable_applyEvent (p : Player) (ev : PlayerEvent) (h : p.Reachable) :
    (p.applyEvent ev).Reachable := by
  obtain ⟨name, events, rfl⟩ := h
  exact ⟨name, events ++ [ev], by simp [localPlayer, List.foldl_append]⟩

theorem createPlayer_Reachable (name : String) : (createPlayer name).Reachable :=
  ⟨name, [], rfl⟩

/-- The starting players of the hot-seat and network modes are local players. -/
theorem networkPlayer_Reachable (name : String) : (networkPlayer name).Reachable :=
  ⟨name, [.learn ⟨1, by decide⟩, .learn ⟨4, by decide⟩, .learn ⟨7, by decide⟩], rfl⟩

theorem Reachable_SetHP (p : Player) (hp : Int) (h : p.Reachable) : (p.SetHP hp).Reachable :=
  Reachable_applyEvent p (.setHP hp) h

theorem Reachable_Equip (p : Player) (i : Int) (h : p.Reachable) : (p.Equip i).Reachable :=
  Reachable_applyEvent p (.equip i) h

theorem Reachable_TakeOff (p : Player) (i : Int) (h : p.Reachable) : (p.TakeOff i).Reachable :=
  Reachable_applyEvent p (.takeOff i) h

/-- The caster of an ability of its own list remains a local player. -/
theorem Reachable_cast (p : Player) (idx : Int) (target : Character)
    (hr : idx ≥ 0 ∧ idx < p.Abilities.length) (h : p.Reachable) :
    (p.UseAbility (p.Abilities.get ⟨idx.toNat, by omega⟩) target).2.1.Reachable := by
  have hlt : idx.toNat < p.Abilities.length := by omega
  have h1 := Reachable_applyEvent p (.cast idx.toNat target) h
  simp only [Player.applyEvent, hlt, dite_true] at h1
  exact h1

/-- The target of an ability remains a local player. -/
theorem Reachable_target (c : Player) (ability : Ability) (other : Player)
    (h : other.Reachable) :
    ((c.UseAbility ability (.player other)).2.2.toPlayer other).Reachable := by
  rcases Player_UseAbility_target c ability (.player other) with heq | ⟨hp, heq⟩
  · rw [heq]
    exact h
  · rw [heq]
    exact Reachable_SetHP other hp h

theorem pvpFight_abilityBlock_Reachable (s : PvpSelect) (v : PvpVars)
    (hm : s.me.Reachable) (ho : s.other.Reachable) :
    (pvpFight_abilityBlock s v).All (fun r => r.1.me.Reachable ∧ r.1.other.Reachable) := by
  unfold pvpFight_abilityBlock
  split
  · split
    · trivial
    · exact ⟨hm, ho⟩
  · exact ⟨hm, ho⟩

/-- A pass of the action selection of `pvpFight` keeps both players local players. -/
theorem pvpFight_selectStep_Reachable (s : PvpSelect) (v : PvpVars)
    (hm : s.me.Reachable) (ho : s.other.Reachable) :
    (pvpFight_selectStep s v).All (fun r => r.1.me.Reachable ∧ r.1.other.Reachable) := by
  unfold pvpFight_selectStep
  simp only []
  repeat' split
  all_goals first
    | trivial
    | exact ⟨hm, ho⟩
    | exact ⟨Reachable_Equip _ _ hm, ho⟩
    | exact pvpFight_abilityBlock_Reachable _ _ hm ho
    | exact pvpFight_abilityBlock_Reachable _ _
        (Reachable_cast _ _ _ (by assumption) hm) (Reachable_target _ _ _ ho)

theorem pvpFight_selectLoop_Reachable (fuel : Nat) (s : PvpSelect) (v : PvpVars)
    (r : PvpSelect × PvpVars) (hm : s.me.Reachable) (ho : s.other.Reachable)
    (h : pvpFight_selectLoop fuel s v = some r) :
    r.1.me.Reachable ∧ r.1.other.Reachable := by
  induction fuel generalizing s v with
  | zero => simp [pvpFight_selectLoop] at h
  | succ n ih =>
    unfold pvpFight_selectLoop at h
    split at h
    · simp at h
    · have hf := pvpFight_selectStep_Reachable s v hm ho
      split at h
      · rename_i s1 v1 heq
        rw [heq] at hf
        exact ih s1 v1 hf.1 hf.2 h
      · rename_i s1 v1 heq
        rw [heq] at hf
        simp only [Option.some.injEq] at h
        rw [← h]
        exact hf
      · simp at h

theorem pvpFight_resolve_Reachable (p0 p1 : Player) (hit0 block0 hit1 block1 : BodyPart)
    (used0 used1 : Bool) (h0 : p0.Reachable) (h1 : p1.Reachable) :
    (pvpFight_resolve p0 p1 hit0 block0 hit1 block1 used0 used1).1.Reachable
    ∧ (pvpFight_resolve p0 p1 hit0 block0 hit1 block1 used0 used1).2.Reachable := by
  rw [pvpFight_resolve_fst, pvpFight_resolve_snd]
  constructor
  · split
    · exact h0
    · exact Reachable_SetHP _ _ h0
  · split
    · exact h1
    · exact Reachable_SetHP _ _ h1

/-- In a round of `pvpFight` between local players, the two players that enter the
resolution step are local players. -/
theorem pvpFight_round_resolution (s : PvpState) (a b : PvpSelect) (v0 v1 : PvpVars)
    (h0 : s.players0.Reachable) (h1 : s.players1.Reachable)
    (ha : pvpFight_selectLoop s.stdin.length
      { me := s.players0, other := s.players1, stdin := s.stdin } {} = some (a, v0))
    (hb : pvpFight_selectLoop (readLine a.stdin).2.length
      { me := a.other, other := a.me, stdin := (readLine a.stdin).2 } {} = some (b, v1)) :
    b.other.Reachable ∧ b.me.Reachable := by
  have h2 := pvpFight_selectLoop_Reachable _ _ _ _ h0 h1 ha
  have h3 := pvpFight_selectLoop_Reachable _ _ _ _ h2.2 h2.1 hb
  exact ⟨h3.2, h3.1⟩

/-- A round of `pvpFight` between local players ends with local players. -/
theorem pvpFight_round_Reachable (s s1 : PvpState)
    (h0 : s.players0.Reachable) (h1 : s.players1.Reachable)
    (h : pvpFight_round s = some s1) :
    s1.players0.Reachable ∧ s1.players1.Reachable := by
  unfold pvpFight_round at h
  split at h
  · simp at h
  · rename_i a v0 ha
    simp only [] at h
    split at h
    · simp at h
    · rename_i b v1 hb
      have hres := pvpFight_round_resolution s a b v0 v1 h0 h1 ha hb
      have hr := pvpFight_resolve_Reachable b.other b.me v0.hit v0.block v1.hit v1.block
        v0.abilityUsed v1.abilityUsed hres.1 hres.2
      simp only [Option.some.injEq] at h
      rw [← h]
      unfold pvpFight_endRound
      simp only []
      split
      · exact hr
      · exact hr

/-- The players are local players at the end of `pvpFight`, too. -/
theorem pvpFight_Reachable (fuel : Nat) (s : PvpState) (k : Nat) (s1 : PvpState)
    (h0 : s.players0.Reachable) (h1 : s.players1.Reachable)
    (h : pvpFight fuel s = some (k, s1)) :
    s1.players0.Reachable ∧ s1.players1.Reachable := by
  induction fuel generalizing s with
  | zero => simp [pvpFight] at h
  | succ n ih =>
    unfold pvpFight at h
    split at h
    · split at h
      · simp at h
      · rename_i s2 hs2
        have hr := pvpFight_round_Reachable s s2 h0 h1 hs2
        exact ih s2 hr.1 hr.2 h
    · split at h
      · simp only [Option.some.injEq, Prod.mk.injEq] at h
        rw [← h.2]
        exact ⟨h0, h1⟩
      · simp only [Option.some.injEq, Prod.mk.injEq] at h
        rw [← h.2]
        exact ⟨h0, h1⟩

theorem manageInventory_step_Reachable (p : Player) (stdin : List String) (h : p.Reachable) :
    (manageInventory_step p stdin).All (fun r => r.1.Reachable) := by
  unfold manageInventory_step
  simp only []
  repeat' split
  all_goals first
    | trivial
    | exact h
    | exact Reachable_Equip _ _ h
    | exact Reachable_TakeOff _ _ h

/-- The inventory management before a battle keeps a local player a local player. -/
theorem manageInventory_Reachable (fuel : Nat) (p : Player) (stdin : List String)
    (r : Player × List String) (h : p.Reachable)
    (hr : manageInventory fuel p stdin = some r) : r.1.Reachable := by
  induction fuel generalizing p stdin with
  | zero => simp [manageInventory] at hr
  | succ n ih =>
    unfold manageInventory at hr
    split at hr
    · simp at hr
    · have hf := manageInventory_step_Reachable p stdin h
      split at hr
      · rename_i p1 stdin1 heq
        rw [heq] at hf
        exact ih p1 stdin1 hf hr
      · rename_i r1 heq
        rw [heq] at hf
        simp only [Option.some.injEq] at hr
        rw [← hr]
        exact hf
      · simp at hr

/-! ## Damage abilities and upper bounds (C4, C7) -/

/-- The Damage branch of `Player.UseAbility`, for any caster: the cost is deducted and
the target is set, through `SetHP`, to `HP - (Damage + GetStrength() / 2)` with Go's
integer division. -/
theorem Player_UseAbility_damage (p : Player) (ability : Ability) (target : Character)
    (hm : p.Mana ≥ ability.ManaCost) (ht : ability.Typ = DamageAbility) :
    (p.UseAbility ability target).2.1 = { p with Mana := p.Mana - ability.ManaCost }
    ∧ (p.UseAbility ability target).2.2
        = target.SetHP (target.GetHP - (ability.Damage + Int.tdiv p.GetStrength 2)) := by
  have hlt : ¬ p.Mana < ability.ManaCost := not_lt.mpr hm
  have hstr : ({ p with Mana := p.Mana - ability.ManaCost } : Player).GetStrength
      = p.GetStrength := rfl
  constructor
  · simp [Player.UseAbility, hlt, ht]
  · simp [Player.UseAbility, hlt, ht, hstr]

/-- C4. For every caster the program holds (the character built by `createPlayer` after
any sequence of the program's mutations) with `Mana ≥ ManaCost`, and every Damage-type
ability, `Player.UseAbility` deducts `ManaCost` from the caster's mana and sets the
target's HP, through the target's `SetHP`, to `HP - (Damage + floor(GetStrength() / 2))`.
The code divides with Go's `/`, which is the floor here because the strength of such a
caster is never negative (`localPlayer_strength`). `UseAbility` has no zone argument,
so the amount depends on no defended zone. For any caster record whatever, the mana is
deducted and the target is set to `HP - (Damage + GetStrength() / 2)` with Go's `/`;
Damage 40 with caster strength 20 takes exactly 50 HP from a target with `HP ≤ MaxHP`. -/
theorem UseAbility_damage (name : String) (events : List PlayerEvent) (ability : Ability)
    (target : Character)
    (hm : (localPlayer name events).Mana ≥ ability.ManaCost)
    (ht : ability.Typ = DamageAbility) :
    ((localPlayer name events).UseAbility ability target).2.1
        = { localPlayer name events with
            Mana := (localPlayer name events).Mana - ability.ManaCost }
    ∧ ((localPlayer name events).UseAbility ability target).2.1.Mana
        = (localPlayer name events).Mana - ability.ManaCost
    ∧ ((localPlayer name events).UseAbility ability target).2.2
        = target.SetHP (target.GetHP
            - (ability.Damage + Int.fdiv (localPlayer name events).GetStrength 2))
    ∧ (∀ p : Player, p.Mana ≥ ability.ManaCost →
        (p.UseAbility ability target).2.1.Mana = p.Mana - ability.ManaCost
        ∧ (p.UseAbility ability target).2.2
            = target.SetHP (target.GetHP - (ability.Damage + Int.tdiv p.GetStrength 2))
        ∧ (ability.Damage = 40 → p.GetStrength = 20 →
            (∀ t : Player, target = .player t → t.HP ≤ t.MaxHP →
              (p.UseAbility ability target).2.2.GetHP = t.HP - 50)
            ∧ (∀ e : Enemy, target = .enemy e →
              (p.UseAbility ability target).2.2.GetHP = e.HP - 50))) := by
  obtain ⟨hcaster, htarget⟩ :=
    Player_UseAbility_damage (localPlayer name events) ability target hm ht
  have hfloor := (localPlayer_strength name events).2
  refine ⟨hcaster, ?_, ?_, ?_⟩
  · rw [hcaster]
  · rw [htarget, hfloor]
  · intro p hp
    obtain ⟨hc, htg⟩ := Player_UseAbility_damage p ability target hp ht
    refine ⟨by rw [hc], htg, ?_⟩
    intro hd hs
    rw [htg, hd, hs]
    have h10 : Int.tdiv 20 2 = 10 := by decide
    rw [h10]
    refine ⟨?_, ?_⟩
    · intro t htgt hle
      subst htgt
      simp [Character.SetHP, Character.GetHP, Player.GetHP, SetHP_eq]
      omega
    · intro e htgt
      subst htgt
      simp [Character.SetHP, Character.GetHP, Enemy.GetHP, Enemy.SetHP]

/-- Witness for `UseAbility_damage`: a character that has learnt the +10 attack buff and
the catalog ability of damage 40 (cost 20) casts the buff, which raises its strength to
20, and then takes 50 HP with the damage ability. -/
theorem UseAbility_damage_witness :
    (localPlayer "A" [.learn ⟨4, by decide⟩, .learn ⟨3, by decide⟩,
        .cast 0 (.player (createPlayer "B"))]).Mana
      ≥ (createAbilities.get ⟨3, by decide⟩).ManaCost ∧
    (createAbilities.get ⟨3, by decide⟩).Typ = DamageAbility ∧
    (localPlayer "A" [.learn ⟨4, by decide⟩, .learn ⟨3, by decide⟩,
        .cast 0 (.player (createPlayer "B"))]).GetStrength = 20 ∧
    ((localPlayer "A" [.learn ⟨4, by decide⟩, .learn ⟨3, by decide⟩,
        .cast 0 (.player (createPlayer "B"))]).UseAbility
        (createAbilities.get ⟨3, by decide⟩) (.player (createPlayer "B"))).2.2.GetHP
      = (createPlayer "B").HP - 50 :=
  ⟨by decide, rfl, by decide,
    (((UseAbility_damage "A" [.learn ⟨4, by decide⟩, .learn ⟨3, by decide⟩,
        .cast 0 (.player (createPlayer "B"))]
      (createAbilities.get ⟨3, by decide⟩) (.player (createPlayer "B")) (by decide) rfl).2.2.2
      (localPlayer "A" [.learn ⟨4, by decide⟩, .learn ⟨3, by decide⟩,
        .cast 0 (.player (createPlayer "B"))]) (by decide)).2.2
      rfl (by decide)).1 (createPlayer "B") rfl (by decide)⟩

/-- Every ability in the list of a local player comes from the catalog, so every call
`UseAbility(p.Abilities[idx], target)` of the program passes a catalog ability. -/
theorem localPlayer_abilities (name : String) (events : List PlayerEvent) :
    ∀ a ∈ (localPlayer name events).Abilities, a ∈ createAbilities :=
  (localPlayer_Sound name events).2.2.2.2.2.2

/-- Every local player of the program is within the upper bounds. -/
theorem localPlayer_Bounded (name : String) (events : List PlayerEvent) :
    (localPlayer name events).Bounded :=
  ⟨(localPlayer_Sound name events).1, (localPlayer_Sound name events).2.1⟩

/-- C7. Upper-bound invariant of the player: from `HP ≤ MaxHP` and `Mana ≤ MaxMana`, the
same bounds hold after `SetHP`, `SetMana`, `Equip`, `TakeOff`, after `UseAbility` with
the player as the caster, for every ability of the program (the catalog
`createAbilities`, from which every ability passed to `UseAbility` is taken), and after
`UseAbility` with the player as the target (of a `Player` or an `Enemy` caster, for
every ability). For the caster the proof rests on the cost not being negative; the
bounds hold exactly when the ability is refused or `Mana - ManaCost ≤ MaxMana`. Every
player the program holds is within the bounds. -/
theorem bounds_preserved (p : Player) (hb : p.Bounded) :
    (∀ hp : Int, (p.SetHP hp).Bounded)
    ∧ (∀ mana : Int, (p.SetMana mana).Bounded)
    ∧ (∀ i : Int, (p.Equip i).Bounded)
    ∧ (∀ i : Int, (p.TakeOff i).Bounded)
    ∧ (∀ (i : Fin createAbilities.length) (target : Character),
        (p.UseAbility (createAbilities.get i) target).2.1.Bounded)
    ∧ (∀ (caster : Character) (ability : Ability),
        ∃ q : Player, (caster.UseAbility ability (.player p)).2.2 = .player q ∧ q.Bounded)
    ∧ (∀ (ability : Ability) (target : Character), 0 ≤ ability.ManaCost →
        (p.UseAbility ability target).2.1.Bounded)
    ∧ (∀ (ability : Ability) (target : Character),
        (p.UseAbility ability target).2.1.Bounded
          ↔ (p.Mana < ability.ManaCost ∨ p.Mana - ability.ManaCost ≤ p.MaxMana))
    ∧ (∀ (name : String) (events : List PlayerEvent),
        (localPlayer name events).Bounded
        ∧ ∀ a ∈ (localPlayer name events).Abilities, a ∈ createAbilities) := by
  have hcaster : ∀ (ability : Ability) (target : Character),
      (p.UseAbility ability target).2.1.Bounded
        ↔ (p.Mana < ability.ManaCost ∨ p.Mana - ability.ManaCost ≤ p.MaxMana) := by
    intro ability target
    rcases Player_UseAbility_caster p ability target with ⟨hlt, heq⟩ | ⟨hlt, hM, hMM, hMH, hle, _⟩
    · rw [heq]
      exact ⟨fun _ => Or.inl hlt, fun _ => hb⟩
    · unfold Player.Bounded
      rw [hM, hMM, hMH]
      have h1 := hb.1
      constructor
      · intro h
        exact Or.inr h.2
      · intro h
        rcases h with h | h
        · exact absurd h hlt
        · refine ⟨?_, h⟩
          have h3 : max p.HP (min (p.HP + ability.Heal) p.MaxHP) ≤ p.MaxHP :=
            max_le h1 (min_le_right _ _)
          exact le_trans hle h3
  have hcost : ∀ (ability : Ability) (target : Character), 0 ≤ ability.ManaCost →
      (p.UseAbility ability target).2.1.Bounded := by
    intro ability target hcost
    rw [hcaster]
    by_cases hlt : p.Mana < ability.ManaCost
    · exact Or.inl hlt
    · have := hb.2
      exact Or.inr (by omega)
  refine ⟨fun hp => SetHP_Bounded p hp hb, fun mana => SetMana_Bounded p mana hb,
    fun i => Equip_Bounded p i hb, fun i => TakeOff_Bounded p i hb, ?_, ?_, hcost, hcaster,
    fun name events => ⟨localPlayer_Bounded name events, localPlayer_abilities name events⟩⟩
  · intro i target
    exact hcost _ target (createAbilities_cost _ (List.get_mem _ _ _)).1
  · intro caster ability
    have key : (caster.UseAbility ability (.player p)).2.2 = .player p
        ∨ ∃ hp, (caster.UseAbility ability (.player p)).2.2 = (Character.player p).SetHP hp := by
      cases caster with
      | player c => exact Player_UseAbility_target c ability (.player p)
      | enemy c => exact Enemy_UseAbility_target c ability (.player p)
    rcases key with h | ⟨hp, h⟩
    · exact ⟨p, h, hb⟩
    · exact ⟨p.SetHP hp, by rw [h, Character_SetHP_player], SetHP_Bounded p hp hb⟩

/-- Witness for `bounds_preserved`: the starting character, healed, drinking a potion,
casting the catalog heal and hit by the first catalog ability. -/
theorem bounds_preserved_witness :
    (createPlayer "A").Bounded ∧ ((createPlayer "A").SetHP 130).Bounded ∧
    ((createPlayer "A").Equip 2).Bounded ∧
    ((createPlayer "A").UseAbility (createAbilities.get ⟨7, by decide⟩)
      (.player (createPlayer "B"))).2.1.Bounded ∧
    (∃ q : Player, ((Character.player (createPlayer "B")).UseAbility
      (createAbilities.get ⟨1, by decide⟩) (.player (createPlayer "A"))).2.2 = .player q
      ∧ q.Bounded) :=
  have hb : (createPlayer "A").Bounded := by decide
  have h := bounds_preserved (createPlayer "A") hb
  ⟨hb, h.1 130, h.2.2.1 2,
    h.2.2.2.2.1 ⟨7, by decide⟩ (.player (createPlayer "B")),
    h.2.2.2.2.2.1 (.player (createPlayer "B")) (createAbilities.get ⟨1, by decide⟩)⟩

/-! ## Item action in PvP (C27) -/

/-- The melee hit of the resolution step of `pvpFight` on local players: the player hit
loses exactly the attacker's `GetStrength()` HP, which is at least 10. -/
theorem localPlayer_melee_loss (n0 n1 : String) (e0 e1 : List PlayerEvent) :
    ((localPlayer n1 e1).SetHP ((localPlayer n1 e1).HP - (localPlayer n0 e0).GetStrength)).HP
      = (localPlayer n1 e1).HP - (localPlayer n0 e0).GetStrength
    ∧ (localPlayer n1 e1).HP - (localPlayer n0 e0).GetStrength ≠ (localPlayer n1 e1).HP := by
  have hs := (localPlayer_strength n0 e0).1
  have hb := (localPlayer_Sound n1 e1).1
  constructor
  · rw [SetHP_eq]
    exact min_eq_left (by omega)
  · omega

/-- A round of `pvpFight` between local players applies the resolution step to local
players: the two selections end, and the round's players are the two results of
`pvpFight_resolve` on local players. -/
theorem pvpFight_round_local (s s1 : PvpState)
    (h0 : s.players0.Reachable) (h1 : s.players1.Reachable)
    (h : pvpFight_round s = some s1) :
    ∃ (a b : PvpSelect) (v0 v1 : PvpVars) (m0 m1 : String) (f0 f1 : List PlayerEvent),
      pvpFight_selectLoop s.stdin.length
        { me := s.players0, other := s.players1, stdin := s.stdin } {} = some (a, v0)
      ∧ pvpFight_selectLoop (readLine a.stdin).2.length
        { me := a.other, other := a.me, stdin := (readLine a.stdin).2 } {} = some (b, v1)
      ∧ b.other = localPlayer m0 f0 ∧ b.me = localPlayer m1 f1
      ∧ s1.players0 = (pvpFight_resolve (localPlayer m0 f0) (localPlayer m1 f1)
          v0.hit v0.block v1.hit v1.block v0.abilityUsed v1.abilityUsed).1
      ∧ s1.players1 = (pvpFight_resolve (localPlayer m0 f0) (localPlayer m1 f1)
          v0.hit v0.block v1.hit v1.block v0.abilityUsed v1.abilityUsed).2 := by
  unfold pvpFight_round at h
  split at h
  · simp at h
  · rename_i a v0 ha
    simp only [] at h
    split at h
    · simp at h
    · rename_i b v1 hb
      obtain ⟨⟨m0, f0, hm0⟩, ⟨m1, f1, hm1⟩⟩ := pvpFight_round_resolution s a b v0 v1 h0 h1 ha hb
      simp only [Option.some.injEq] at h
      refine ⟨a, b, v0, v1, m0, m1, f0, f1, ha, hb, hm0, hm1, ?_, ?_⟩
      · rw [← h, ← hm0, ← hm1]
        unfold pvpFight_endRound
        simp only []
        split <;> rfl
      · rw [← h, ← hm0, ← hm1]
        unfold pvpFight_endRound
        simp only []
        split <;> rfl

/-- C27. An item action still throws a melee hit at Head. In `pvpFight` the choice "use
item" (menu choice 5) ends the action selection with the side's ability-used flag false
and its hit zone untouched, and the hit zone is Head when the choice ends the round's
selection (the variables start at their zero values and a pass that asks again does not
change them). So in the resolution step the opponent is hit through `SetHP` with that
side's `GetStrength()` exactly when its defended zone is not Head, and is left alone
when it defends Head. For the players of the program (local players, as the two players
of `pvpFight` are in every round: `networkPlayer_Reachable`, `manageInventory_Reachable`,
`pvpFight_round_Reachable`; a round between local players applies the resolution step to
local players) the opponent loses exactly `GetStrength()` HP if its defended zone is not
Head, and nothing otherwise. -/
theorem item_action_hits_head (p0 p1 : Player) (n0 n1 : String) (e0 e1 : List PlayerEvent)
    (block0 hit1 block1 hit0 : BodyPart) (used : Bool) :
    (∀ (s : PvpSelect) (v : PvpVars) (rest : List String), s.stdin = "5" :: rest →
        (pvpFight_selectStep s v).All (fun sv => sv.2.abilityUsed = false ∧ sv.2.hit = v.hit)
        ∧ (pvpFight_selectStep s v).isAgain = false)
    ∧ (∀ (fuel : Nat) (s : PvpSelect) (r : PvpSelect × PvpVars),
        pvpFight_selectLoop fuel s {} = some r →
        ∃ s' : PvpSelect, pvpFight_selectStep s' {} = .done r
          ∧ (∀ rest : List String, s'.stdin = "5" :: rest →
              r.2.abilityUsed = false ∧ r.2.hit = Head))
    ∧ (pvpFight_resolve p0 p1 Head block0 hit1 block1 false used).2
        = (if block1 = Head then p1 else p1.SetHP (p1.HP - p0.GetStrength))
    ∧ (pvpFight_resolve p0 p1 hit0 block0 Head block1 used false).1
        = (if block0 = Head then p0 else p0.SetHP (p0.HP - p1.GetStrength))
    ∧ (block1 = Head → (pvpFight_resolve p0 p1 Head block0 hit1 block1 false used).2.HP = p1.HP)
    ∧ (block0 = Head → (pvpFight_resolve p0 p1 hit0 block0 Head block1 used false).1.HP = p0.HP)
    ∧ ((pvpFight_resolve (localPlayer n0 e0) (localPlayer n1 e1)
          Head block0 hit1 block1 false used).2.HP
        = (if block1 = Head then (localPlayer n1 e1).HP
           else (localPlayer n1 e1).HP - (localPlayer n0 e0).GetStrength))
    ∧ ((pvpFight_resolve (localPlayer n0 e0) (localPlayer n1 e1)
          Head block0 hit1 block1 false used).2.HP
        = (localPlayer n1 e1).HP - (localPlayer n0 e0).GetStrength ↔ block1 ≠ Head)
    ∧ ((pvpFight_resolve (localPlayer n0 e0) (localPlayer n1 e1)
          hit0 block0 Head block1 used false).1.HP
        = (if block0 = Head then (localPlayer n0 e0).HP
           else (localPlayer n0 e0).HP - (localPlayer n1 e1).GetStrength))
    ∧ ((pvpFight_resolve (localPlayer n0 e0) (localPlayer n1 e1)
          hit0 block0 Head block1 used false).1.HP
        = (localPlayer n0 e0).HP - (localPlayer n1 e1).GetStrength ↔ block0 ≠ Head)
    ∧ (∀ (round : Int) (stdin : List String) (s1 : PvpState),
        pvpFight_round { players0 := localPlayer n0 e0, players1 := localPlayer n1 e1,
                         round := round, stdin := stdin } = some s1 →
        ∃ (a b : PvpSelect) (v0 v1 : PvpVars) (m0 m1 : String) (f0 f1 : List PlayerEvent),
          pvpFight_selectLoop stdin.length
            { me := localPlayer n0 e0, other := localPlayer n1 e1, stdin := stdin } {}
              = some (a, v0)
          ∧ pvpFight_selectLoop (readLine a.stdin).2.length
            { me := a.other, other := a.me, stdin := (readLine a.stdin).2 } {} = some (b, v1)
          ∧ b.other = localPlayer m0 f0 ∧ b.me = localPlayer m1 f1
          ∧ s1.players0 = (pvpFight_resolve (localPlayer m0 f0) (localPlayer m1 f1)
              v0.hit v0.block v1.hit v1.block v0.abilityUsed v1.abilityUsed).1
          ∧ s1.players1 = (pvpFight_resolve (localPlayer m0 f0) (localPlayer m1 f1)
              v0.hit v0.block v1.hit v1.block v0.abilityUsed v1.abilityUsed).2) := by
  have hsnd : ∀ (q0 q1 : Player),
      (pvpFight_resolve q0 q1 Head block0 hit1 block1 false used).2
        = (if block1 = Head then q1 else q1.SetHP (q1.HP - q0.GetStrength)) := by
    intro q0 q1
    rw [pvpFight_resolve_snd]
    by_cases h : block1 = Head
    · simp [h]
    · have h' : ¬ Head = block1 := fun e => h e.symm
      simp [h, h']
  have hfst : ∀ (q0 q1 : Player),
      (pvpFight_resolve q0 q1 hit0 block0 Head block1 used false).1
        = (if block0 = Head then q0 else q0.SetHP (q0.HP - q1.GetStrength)) := by
    intro q0 q1
    rw [pvpFight_resolve_fst]
    by_cases h : block0 = Head
    · simp [h]
    · have h' : ¬ Head = block0 := fun e => h e.symm
      simp [h, h']
  have hloss1 := localPlayer_melee_loss n0 n1 e0 e1
  have hloss0 := localPlayer_melee_loss n1 n0 e1 e0
  refine ⟨?_, ?_, hsnd p0 p1, hfst p0 p1, ?_, ?_, ?_, ?_, ?_, ?_, ?_⟩
  · intro s v rest hin
    exact pvpFight_select_item s v rest hin
  · intro fuel s r h
    obtain ⟨s', hs'⟩ := pvpFight_selectLoop_last fuel s {} r h
    refine ⟨s', hs', ?_⟩
    intro rest hin
    have hall := (pvpFight_select_item s' {} rest hin).1
    rw [hs'] at hall
    exact hall
  · intro h
    rw [hsnd, if_pos h]
  · intro h
    rw [hfst, if_pos h]
  · rw [hsnd]
    by_cases h : block1 = Head
    · rw [if_pos h, if_pos h]
    · rw [if_neg h, if_neg h]
      exact hloss1.1
  · rw [hsnd]
    by_cases h : block1 = Head
    · rw [if_pos h]
      exact ⟨fun heq => absurd heq.symm hloss1.2, fun hne => absurd h hne⟩
    · rw [if_neg h]
      exact ⟨fun _ => h, fun _ => hloss1.1⟩
  · rw [hfst]
    by_cases h : block0 = Head
    · rw [if_pos h, if_pos h]
    · rw [if_neg h, if_neg h]
      exact hloss0.1
  · rw [hfst]
    by_cases h : block0 = Head
    · rw [if_pos h]
      exact ⟨fun heq => absurd heq.symm hloss0.2, fun hne => absurd h hne⟩
    · rw [if_neg h]
      exact ⟨fun _ => h, fun _ => hloss0.1⟩
  · intro round stdin s1 h
    exact pvpFight_round_local _ s1 ⟨n0, e0, rfl⟩ ⟨n1, e1, rfl⟩ h

/-- Witness for `item_action_hits_head`: `players[0]` drinks a potion and defends Head,
`players[1]` hits Torso and defends Arms; `players[1]` loses the 10 HP of the melee hit
at Head. -/
theorem item_action_hits_head_witness :
    (pvpFight_round (pvpFight_start (networkPlayer "A") (networkPlayer "B")
        ["", "5", "2", "0", "", "1", "1", "2", ""])).map (fun s => (s.players0.HP, s.players1.HP))
      = some (90, 90)
    ∧ (Arms ≠ Head ∧
      (pvpFight_resolve
        (localPlayer "A" [.learn ⟨1, by decide⟩, .learn ⟨4, by decide⟩, .learn ⟨7, by decide⟩])
        (localPlayer "B" [.learn ⟨1, by decide⟩, .learn ⟨4, by decide⟩, .learn ⟨7, by decide⟩])
        Head Head Torso Arms false false).2.HP
      = (localPlayer "B"
          [.learn ⟨1, by decide⟩, .learn ⟨4, by decide⟩, .learn ⟨7, by decide⟩]).HP
        - (localPlayer "A"
          [.learn ⟨1, by decide⟩, .learn ⟨4, by decide⟩, .learn ⟨7, by decide⟩]).GetStrength) :=
  ⟨by decide, by decide,
    (item_action_hits_head (createPlayer "A") (createPlayer "B") "A" "B"
      [.learn ⟨1, by decide⟩, .learn ⟨4, by decide⟩, .learn ⟨7, by decide⟩]
      [.learn ⟨1, by decide⟩, .learn ⟨4, by decide⟩, .learn ⟨7, by decide⟩]
      Head Torso Arms Head false).2.2.2.2.2.2.2.1.mpr (by decide)⟩

end Game
